import Mathlib

/-!
Verification development for the `learn-os` repository.

Shallow embedding of the paging module (`src/common/src/paging/mod.rs`), the
executable-image parser (`src/common/src/exe/v0.rs`) and the kernel-mapping
part of the bootloader (`src/bootloader/src/main.rs`).

Rust `u64` values are modelled as `Nat`, with masking / truncation written out
exactly where the source relies on 64-bit semantics.  Panicking operations
(`assert!`, `Option::unwrap`, out-of-bounds slicing, `Result::expect`) are
modelled as `Option`/`Except` failures.  Physical memory holding page tables is
modelled as an association list from page address to table contents, and the
page allocator callback is modelled by a bump allocator, following the
allocator contract stated in the repository (`allocate(pageCount)` returns
`pageCount` fresh contiguous zero-initialisable pages).
-/

/-- Bitwise complement on 64 bits, modelling Rust `!mask` at type `u64`. -/
def not64 (mask : Nat) : Nat := (2 ^ 64 - 1) ^^^ mask

/-- Per-level indices of a virtual address (`struct PageMapIndices`). -/
structure PageMapIndices where
  pml4 : Nat
  pdpt : Nat
  pd : Nat
  pt : Nat
deriving DecidableEq, Repr

/-- Embedding of `fn address_to_page_map_indices` from `paging/mod.rs`:
successively shift a 9-bit mask down the address, extracting the four
level indices (the 12-bit page offset is not retained). -/
def address_to_page_map_indices (virtual_address : Nat) : PageMapIndices :=
  let offset := 12 + 3 * 9
  let mask := 0b111111111 <<< offset
  let pml4_index := (virtual_address &&& mask) >>> offset
  let offset := offset - 9
  let mask := mask >>> 9
  let pdpt_index := (virtual_address &&& mask) >>> offset
  let offset := offset - 9
  let mask := mask >>> 9
  let pd_index := (virtual_address &&& mask) >>> offset
  let offset := offset - 9
  let mask := mask >>> 9
  let pt_index := (virtual_address &&& mask) >>> offset
  { pml4 := pml4_index, pdpt := pdpt_index, pd := pd_index, pt := pt_index }

/-- Embedding of `fn page_map_indices_to_address`: OR the four indices back
into their bit positions.  Each Rust shift happens at type `u64`, hence the
`% 2 ^ 64` truncation. -/
def page_map_indices_to_address (indices : PageMapIndices) : Nat :=
  let value := 0
  let value := value ||| ((indices.pml4 <<< (12 + 3 * 9)) % 2 ^ 64)
  let value := value ||| ((indices.pdpt <<< (12 + 2 * 9)) % 2 ^ 64)
  let value := value ||| ((indices.pd <<< (12 + 9)) % 2 ^ 64)
  let value := value ||| ((indices.pt <<< 12) % 2 ^ 64)
  value

/-- Failure cases of the two `assert!`s guarding every page-table-entry
constructor: the alignment check, then the significant-bits check. -/
inductive EntryError where
  | alignment
  | range
deriving DecidableEq, Repr

deriving instance DecidableEq for Except

namespace Entry

/-- Accessor `fn present` (identical on `PML4E`, `PDPTE`, `PDE`, `PTE`):
`self.0 & 1 == 1`. -/
def present (v : Nat) : Bool := v &&& 1 == 1

/-- Accessor `fn writable` (identical on `PML4E`, `PDPTE`, `PDE`):
`self.0 & mask == mask` with `mask = 0b10`. -/
def writable (v : Nat) : Bool := v &&& 0b10 == 0b10

/-- Mutator `fn set_writable` (identical on `PML4E`, `PDPTE`, `PDE`), with
`mask = 0b10`. -/
def set_writable (v : Nat) (value : Bool) : Nat :=
  if value then v ||| 0b10 else v &&& not64 0b10

/-- Mutator `fn set_execute_disable` (identical on `PML4E`, `PDPTE`, `PDE`),
with `mask = 1 << 63`. -/
def set_execute_disable (v : Nat) (value : Bool) : Nat :=
  if value then v ||| (1 <<< 63) else v &&& not64 (1 <<< 63)

/-- Child-table address extraction (`fn pdpt_address` / `pd_address` /
`pt_address`, textually identical): `self.0 & !((1 << 63) | 0xfff)`. -/
def address (v : Nat) : Nat := v &&& not64 ((1 <<< 63) ||| 0xfff)

/-- Constructor shared by `PML4E::new`, `PDPTE::new`, `PDE::new` and
`PTE::new`, whose Rust bodies are textually identical: two asserts
(modelled as `Except` errors), then flag bits ORed onto the address,
then the present bit. -/
def new (execute_disable : Bool) (table_address : Nat)
    (pcd pwt user writable : Bool) : Except EntryError Nat :=
  if ¬(table_address &&& 0xfff = 0) then .error .alignment
  else if ¬(table_address &&& (0xfff <<< 51) = 0) then .error .range
  else
    let value := table_address
    let value := if execute_disable then value ||| (1 <<< 63) else value
    let value := if pcd then value ||| (1 <<< 4) else value
    let value := if pwt then value ||| (1 <<< 3) else value
    let value := if user then value ||| (1 <<< 2) else value
    let value := if writable then value ||| (1 <<< 1) else value
    .ok (value ||| 1)

end Entry

/-- The `PML4E::new` constructor (body shared with the other three levels). -/
def PML4E.new := Entry.new

/-- The `PML4E::present` accessor. -/
def PML4E.present := Entry.present

/-- The `PML4E::writable` accessor. -/
def PML4E.writable := Entry.writable

/-- The `PML4E::set_writable` mutator. -/
def PML4E.set_writable := Entry.set_writable

/-- The `PML4E::set_execute_disable` mutator. -/
def PML4E.set_execute_disable := Entry.set_execute_disable

/-- The `PML4E::pdpt_address` accessor. -/
def PML4E.pdpt_address := Entry.address

/-- The `PDPTE::new` constructor. -/
def PDPTE.new := Entry.new

/-- The `PDPTE::present` accessor. -/
def PDPTE.present := Entry.present

/-- The `PDPTE::writable` accessor. -/
def PDPTE.writable := Entry.writable

/-- The `PDPTE::set_writable` mutator. -/
def PDPTE.set_writable := Entry.set_writable

/-- The `PDPTE::set_execute_disable` mutator. -/
def PDPTE.set_execute_disable := Entry.set_execute_disable

/-- The `PDPTE::pd_address` accessor. -/
def PDPTE.pd_address := Entry.address

/-- The `PDE::new` constructor. -/
def PDE.new := Entry.new

/-- The `PDE::present` accessor. -/
def PDE.present := Entry.present

/-- The `PDE::writable` accessor. -/
def PDE.writable := Entry.writable

/-- The `PDE::set_writable` mutator. -/
def PDE.set_writable := Entry.set_writable

/-- The `PDE::set_execute_disable` mutator. -/
def PDE.set_execute_disable := Entry.set_execute_disable

/-- The `PDE::pt_address` accessor. -/
def PDE.pt_address := Entry.address

/-- The `PTE::new` constructor. -/
def PTE.new := Entry.new

/-- The `PTE::unset` constructor: the all-zero, non-present entry. -/
def PTE.unset : Nat := 0

/-- The `PTE::present` accessor. -/
def PTE.present := Entry.present

/-- One page table: 512 64-bit entries (`[u64; 512]`, one 4KiB page). -/
abbrev Table := List Nat

/-- A freshly zeroed table, as produced by `init_memory(addr, 512, 0)`. -/
def zeroTable : Table := List.replicate 512 0

/-- Physical memory holding page tables (page address to contents), plus the
bump allocator state modelling the repository's allocator contract. -/
structure Machine where
  mem : List (Nat × Table)
  next : Nat
deriving DecidableEq, Repr

/-- Modelled from the spec: the page-allocator callback
`allocate(pageCount) -> physicalAddress`, whose contract is to return
`pageCount` contiguous fresh pages (failure is fatal, i.e. outside the model). -/
def Machine.allocPages (m : Machine) (count : Nat) : Nat × Machine :=
  (m.next, { m with next := m.next + count * 4096 })

/-- Read the page table stored at a physical page address. -/
def readMem (mem : List (Nat × Table)) (page : Nat) : Table :=
  match mem.find? (fun e => e.fst == page) with
  | none => zeroTable
  | some e => e.snd

/-- Overwrite the page table stored at a physical page address. -/
def writeMem (mem : List (Nat × Table)) (page : Nat) (t : Table) : List (Nat × Table) :=
  (page, t) :: mem.filter (fun e => !(e.fst == page))

/-- Read entry `i` of a table (`table[i]` on a `[u64; 512]`). -/
def tableGet (t : Table) (i : Nat) : Nat := t.getD i 0

/-- Memory-mapping permissions (`struct PageMapFlags`). -/
structure PageMapFlags where
  writeable : Bool
  executable : Bool
deriving DecidableEq, Repr

/-- Associated constant `PageMapFlags::default()`: read-only. -/
def PageMapFlags.default : PageMapFlags := { writeable := false, executable := false }

/-- Associated constant `PageMapFlags::W`. -/
def PageMapFlags.W : PageMapFlags := { writeable := true, executable := false }

/-- Associated constant `PageMapFlags::X`. -/
def PageMapFlags.X : PageMapFlags := { writeable := false, executable := true }

/-- Operator `PageMapFlags::bitor`. -/
def PageMapFlags.bitor (a b : PageMapFlags) : PageMapFlags :=
  { writeable := a.writeable || b.writeable, executable := a.executable || b.executable }

/-- The `struct PageMap`: the page map's (root) physical memory address. -/
structure PageMap where
  address : Nat
deriving DecidableEq, Repr

/-- A page map together with the machine memory its tables live in. -/
structure PagingState where
  machine : Machine
  pm : PageMap
deriving DecidableEq, Repr

/-- Associated constant `PageMap::PAGE_SIZE`. -/
def PageMap.PAGE_SIZE : Nat := 4096

/-- Embedding of `PageMap::new`: allocate one page, zero its 512 entries,
and use it as the PML4. -/
def PageMap.new (m : Machine) : PagingState :=
  let alloc := m.allocPages 1
  let pml4_address := alloc.fst
  let m := alloc.snd
  let m := { m with mem := writeMem m.mem pml4_address zeroTable }
  { machine := m, pm := { address := pml4_address } }

/-- A fresh page map built on empty memory. -/
def initState : PagingState := PageMap.new { mem := [], next := 0 }

/-- Permission application shared by all three intermediate levels of
`PageMap::set`: the statement pair
`if writeable { e.set_writable(true) }` /
`if executable { e.set_execute_disable(false) }`. -/
def Entry.widen (e : Nat) (writeable executable : Bool) : Nat :=
  let e := if writeable then Entry.set_writable e true else e
  if executable then Entry.set_execute_disable e false else e

/-- One intermediate level of `PageMap::set`: read the entry at `index` of the
table at `table_page`; if it is not present, allocate a fresh child page, zero
it (`init_memory`) and construct a new entry for it via `mkNew` (the level's
constructor applied with `default_execute_disable = true` and
`default_writeable = false`); then widen the entry's permissions as requested
and store it back.  `none` models a panicking `new` assertion. -/
def ensureEntry (m : Machine) (table_page index : Nat) (writeable executable : Bool)
    (mkNew : Nat → Except EntryError Nat) : Option (Machine × Nat) :=
  let t := readMem m.mem table_page
  let e := tableGet t index
  let created : Option (Machine × Nat) :=
    if Entry.present e then some (m, e)
    else
      let alloc := m.allocPages 1
      let child := alloc.fst
      let m := alloc.snd
      let m := { m with mem := writeMem m.mem child zeroTable }
      match mkNew child with
      | .error _ => none
      | .ok e₀ => some (m, e₀)
  match created with
  | none => none
  | some me =>
    let m := me.fst
    let e := Entry.widen me.snd writeable executable
    let t := readMem m.mem table_page
    some ({ m with mem := writeMem m.mem table_page (t.set index e) }, e)

/-- Embedding of `PageMap::set`: assert both addresses 4KiB-aligned, then walk
the four levels, lazily creating intermediate tables and widening their
permissions, and finally write the leaf `PTE::new(!executable, pa, …, writeable)`.
The `if ¬ Entry.present … then none` guards model the `unwrap()` calls on
`pdpt_mut` / `pd_mut` / `pt_mut`. -/
def PageMap.set (st : PagingState) (virtual_page_address physical_page_address : Nat)
    (flags : PageMapFlags) : Option PagingState :=
  if ¬(virtual_page_address &&& not64 0xfff = virtual_page_address) then none
  else if ¬(physical_page_address &&& not64 0xfff = physical_page_address) then none
  else
    let default_execute_disable := true
    let default_writeable := false
    let writeable := flags.writeable
    let executable := flags.executable
    let page_map_indices := address_to_page_map_indices virtual_page_address
    match ensureEntry st.machine st.pm.address page_map_indices.pml4 writeable executable
        (fun a => PML4E.new default_execute_disable a false false false default_writeable) with
    | none => none
    | some me₄ =>
      if ¬ Entry.present me₄.snd then none
      else
        match ensureEntry me₄.fst (Entry.address me₄.snd) page_map_indices.pdpt writeable
            executable
            (fun a => PDPTE.new default_execute_disable a false false false default_writeable) with
        | none => none
        | some me₃ =>
          if ¬ Entry.present me₃.snd then none
          else
            match ensureEntry me₃.fst (Entry.address me₃.snd) page_map_indices.pd writeable
                executable
                (fun a => PDE.new default_execute_disable a false false false default_writeable) with
            | none => none
            | some me₂ =>
              if ¬ Entry.present me₂.snd then none
              else
                match PTE.new (!executable) physical_page_address false false false writeable with
                | .error _ => none
                | .ok leaf =>
                  let m := me₂.fst
                  let pt_page := Entry.address me₂.snd
                  let t := readMem m.mem pt_page
                  some { machine :=
                          { m with
                            mem := writeMem m.mem pt_page (t.set page_map_indices.pt leaf) },
                         pm := st.pm }

/-- Embedding of `PageMap::unset`: assert alignment, walk the hierarchy
(each `match … { None => return, … }` modelled by an early `some st`), and
clear the leaf entry to `PTE::unset()`. -/
def PageMap.unset (st : PagingState) (virtual_page_address : Nat) : Option PagingState :=
  if ¬(virtual_page_address &&& not64 0xfff = virtual_page_address) then none
  else
    let indices := address_to_page_map_indices virtual_page_address
    let m := st.machine
    let pml4e := tableGet (readMem m.mem st.pm.address) indices.pml4
    if ¬ Entry.present pml4e then some st
    else
      let pdpte := tableGet (readMem m.mem (Entry.address pml4e)) indices.pdpt
      if ¬ Entry.present pdpte then some st
      else
        let pde := tableGet (readMem m.mem (Entry.address pdpte)) indices.pd
        if ¬ Entry.present pde then some st
        else
          let pt_page := Entry.address pde
          let t := readMem m.mem pt_page
          some { st with
                 machine := { m with mem := writeMem m.mem pt_page (t.set indices.pt PTE.unset) } }

/-- All 512 entries of a table in order, as iterated by `PageMap::size` and
`PageMap::debug` over a `[u64; 512]`. -/
def tableEntries (t : Table) : List Nat := (List.range 512).map (fun i => tableGet t i)

/-- Embedding of `PageMap::size`: nested iteration over present entries, adding
`PAGE_SIZE` per present fourth-level entry. -/
def PageMap.size (st : PagingState) : Nat :=
  let m := st.machine.mem
  (((tableEntries (readMem m st.pm.address)).filter Entry.present).map (fun pml4e =>
    (((tableEntries (readMem m (Entry.address pml4e))).filter Entry.present).map (fun pdpte =>
      (((tableEntries (readMem m (Entry.address pdpte))).filter Entry.present).map (fun pde =>
        ((tableEntries (readMem m (Entry.address pde))).filter Entry.present).length
          * PageMap.PAGE_SIZE)).sum)).sum)).sum

/-- The virtual address returned by `PageMap::pml4_mut` and `PageMap::pml4`
for `PageMapMode::Active`: the literal `0x0007_ffff_f000`. -/
def PageMap.pml4_active_address : Nat := 0x0007fffff000

/-- The virtual address returned by `PageMap::pdpt_mut` for
`PageMapMode::Active`: `0x007f_ffe0_0000_u64 | (pml4_index as u64)`. -/
def PageMap.pdpt_mut_active_address (pml4_index : Nat) : Nat :=
  0x007fffe00000 ||| pml4_index

/-- The virtual address returned by `PageMap::pdpt` for `PageMapMode::Active`:
`0x0007_ffe0_0000_u64 | (pml4_index as u64)`. -/
def PageMap.pdpt_active_address (pml4_index : Nat) : Nat :=
  0x0007ffe00000 ||| pml4_index

/-- One mutating page-map operation, for stating reachability. -/
inductive Op where
  | set (virtual_page_address physical_page_address : Nat) (flags : PageMapFlags)
  | unset (virtual_page_address : Nat)
deriving DecidableEq, Repr

/-- Application of one operation. -/
def applyOp (st : PagingState) : Op → Option PagingState
  | .set va pa flags => PageMap.set st va pa flags
  | .unset va => PageMap.unset st va

/-- Application of a sequence of operations; `none` if any operation panics. -/
def applyOps : List Op → PagingState → Option PagingState
  | [], st => some st
  | op :: ops, st =>
    match applyOp st op with
    | none => none
    | some st => applyOps ops st

/-- States produced from a fresh page map by some finite operation sequence. -/
def Reachable (st : PagingState) : Prop := ∃ ops, applyOps ops initState = some st

/-- Entry `index` of the table at physical page `page`. -/
def entryAt (st : PagingState) (page index : Nat) : Nat :=
  tableGet (readMem st.machine.mem page) index

/-- Child-table address found at `index` of the table at `page`, when the
entry there is present. -/
def childAt (st : PagingState) (page index : Nat) : Option Nat :=
  let e := entryAt st page index
  if Entry.present e then some (Entry.address e) else none

/-- Table reached by following the walk `path` from the root; `path` lists the
per-level indices deepest-first, so `nodeAt st [i3, i4]` is the page-directory-
pointer table reached via root index `i4`, then index `i3`. -/
def nodeAt (st : PagingState) : List Nat → Option Nat
  | [] => some st.pm.address
  | i :: rest =>
    match nodeAt st rest with
    | none => none
    | some p => childAt st p i

/-- Entry at slot `index` of the table at walk path `path`. -/
def entryOnPath (st : PagingState) (path : List Nat) (index : Nat) : Option Nat :=
  (nodeAt st path).map (fun p => entryAt st p index)

/-- Decides whether index quadruple `(i4, i3, i2, i1)` reaches a present
fourth-level leaf entry through present entries from the root. -/
def leafReachable (st : PagingState) (i4 i3 i2 i1 : Nat) : Bool :=
  let e4 := entryAt st st.pm.address i4
  Entry.present e4 &&
    (let e3 := entryAt st (Entry.address e4) i3
     Entry.present e3 &&
       (let e2 := entryAt st (Entry.address e3) i2
        Entry.present e2 && Entry.present (entryAt st (Entry.address e2) i1)))

/-- Number of present fourth-level leaf entries reachable through present
entries from the root table. -/
def presentLeafCount (st : PagingState) : Nat :=
  ((Finset.range 512 ×ˢ Finset.range 512 ×ˢ Finset.range 512 ×ˢ Finset.range 512).filter
    (fun q => leafReachable st q.1 q.2.1 q.2.2.1 q.2.2.2 = true)).card

/-- Little-endian byte decoding, modelling `u16::from_le_bytes` and
`u64::from_le_bytes` on the given byte list. -/
def fromLeBytes (bytes : List Nat) : Nat :=
  bytes.foldr (fun b acc => b + 256 * acc) 0

namespace v0

/-- Constant `MAGIC_BYTES`: the ASCII encoding of the letters `learn-os`. -/
def MAGIC_BYTES : List Nat := [0x6c, 0x65, 0x61, 0x72, 0x6e, 0x2d, 0x6f, 0x73]

/-- Constant `VERSION`. -/
def VERSION : Nat := 0

/-- Constant `VERSION_OFFSET`. -/
def VERSION_OFFSET : Nat := 8

/-- Constant `CODE_INFO_OFFSET`. -/
def CODE_INFO_OFFSET : Nat := 10

/-- Constant `RODATA_INFO_OFFSET`. -/
def RODATA_INFO_OFFSET : Nat := 34

/-- Constant `RWDATA_INFO_OFFSET`. -/
def RWDATA_INFO_OFFSET : Nat := 58

/-- Segment descriptor (`struct SegmentInfo`). -/
structure SegmentInfo where
  start : Nat
  size : Nat
  load_address : Nat
deriving DecidableEq, Repr

/-- Associated constant `SegmentInfo::ENCODED_SIZE`. -/
def SegmentInfo.ENCODED_SIZE : Nat := 8 + 8 + 8

/-- Embedding of `impl From<[u8; 24]> for SegmentInfo`: three 8-byte
little-endian fields. -/
def SegmentInfo.from (value : List Nat) : SegmentInfo :=
  { start := fromLeBytes (value.take 8)
    size := fromLeBytes ((value.drop 8).take 8)
    load_address := fromLeBytes ((value.drop 16).take 8) }

/-- Associated constant `Header::ENCODED_SIZE`. -/
def Header.ENCODED_SIZE : Nat := 8 + 2 + 3 * SegmentInfo.ENCODED_SIZE

/-- The parse errors of `enum Error` in `exe/v0.rs`. -/
inductive Error where
  | Length (minimum_length actual_length : Nat)
  | MagicBytes (expected actual : List Nat)
  | Version (expected actual : Nat)
deriving DecidableEq, Repr

/-- An `Exe` view: a zero-copy borrow of the underlying buffer. -/
structure Exe where
  buffer : List Nat
deriving DecidableEq, Repr

/-- Accessor `Exe::magic_bytes`: the first 8 bytes of the buffer. -/
def Exe.magic_bytes (e : Exe) : List Nat := e.buffer.take 8

/-- Accessor `Exe::version`: 2 bytes at `VERSION_OFFSET`, little endian. -/
def Exe.version (e : Exe) : Nat :=
  fromLeBytes ((e.buffer.drop VERSION_OFFSET).take 2)

/-- Accessor `Exe::code_info`: 24 bytes at `CODE_INFO_OFFSET`. -/
def Exe.code_info (e : Exe) : SegmentInfo :=
  SegmentInfo.from ((e.buffer.drop CODE_INFO_OFFSET).take SegmentInfo.ENCODED_SIZE)

/-- Accessor `Exe::rodata_info`: 24 bytes at `RODATA_INFO_OFFSET`. -/
def Exe.rodata_info (e : Exe) : SegmentInfo :=
  SegmentInfo.from ((e.buffer.drop RODATA_INFO_OFFSET).take SegmentInfo.ENCODED_SIZE)

/-- Accessor `Exe::rwdata_info`: 24 bytes at `RWDATA_INFO_OFFSET`. -/
def Exe.rwdata_info (e : Exe) : SegmentInfo :=
  SegmentInfo.from ((e.buffer.drop RWDATA_INFO_OFFSET).take SegmentInfo.ENCODED_SIZE)

/-- Accessor `Exe::code`: the slice `buffer[start..start + size]` for the code
descriptor.  Rust slicing panics when the range exceeds the buffer, modelled
as `none`. -/
def Exe.code (e : Exe) : Option (List Nat) :=
  let info := e.code_info
  if info.start + info.size ≤ e.buffer.length then
    some ((e.buffer.drop info.start).take info.size)
  else none

/-- Accessor `Exe::rodata`: the slice `buffer[start..start + size]` for the
rodata descriptor; `none` models the out-of-range panic. -/
def Exe.rodata (e : Exe) : Option (List Nat) :=
  let info := e.rodata_info
  if info.start + info.size ≤ e.buffer.length then
    some ((e.buffer.drop info.start).take info.size)
  else none

/-- Accessor `Exe::rwdata`: the slice `buffer[start..start + size]` for the
rwdata descriptor; `none` models the out-of-range panic. -/
def Exe.rwdata (e : Exe) : Option (List Nat) :=
  let info := e.rwdata_info
  if info.start + info.size ≤ e.buffer.length then
    some ((e.buffer.drop info.start).take info.size)
  else none

/-- Embedding of `Exe::parse`: length check, magic-bytes check, version check,
in that order, each short-circuiting with its error. -/
def Exe.parse (buffer : List Nat) : Except Error Exe :=
  if buffer.length < Header.ENCODED_SIZE then
    .error (.Length Header.ENCODED_SIZE buffer.length)
  else
    let exe : Exe := { buffer := buffer }
    if ¬(exe.magic_bytes = MAGIC_BYTES) then
      .error (.MagicBytes MAGIC_BYTES exe.magic_bytes)
    else if ¬(exe.version = VERSION) then
      .error (.Version 0 exe.version)
    else
      .ok exe

end v0

/-- Bootloader state during kernel mapping: the page map under construction,
the byte contents written to freshly allocated physical pages (page address to
its 4096 bytes), and the `page_map.set` calls performed
(virtual address, physical address, flags), most recent first. -/
structure LoaderState where
  paging : PagingState
  bytes : List (Nat × List Nat)
  setCalls : List (Nat × Nat × PageMapFlags)
deriving DecidableEq, Repr

/-- Bytes written into one freshly allocated page by the inner loop of
`map_kernel_segment`: position `i` receives `segment_data[offset + i]` when in
range and `0` otherwise. -/
def pageFill (segment_data : List Nat) (offset : Nat) : List Nat :=
  (List.range 4096).map (fun i => segment_data.getD (offset + i) 0)

/-- The per-page loop of `map_kernel_segment`: for each remaining page (first
argument), fill the page at `base_physical_addr + offset` from the segment
data, then map it with `page_map.set`; `offset` is `4096 * page` for the
current page index `page` (second argument). -/
def map_segment_pages (base_virtual_addr base_physical_addr : Nat)
    (segment_data : List Nat) (flags : PageMapFlags) :
    Nat → Nat → LoaderState → Option LoaderState
  | 0, _, ls => some ls
  | remaining + 1, page, ls =>
    let offset := 4096 * page
    let page_virtual_addr := base_virtual_addr + offset
    let page_physical_addr := base_physical_addr + offset
    let page_buffer := pageFill segment_data offset
    let ls := { ls with bytes := (page_physical_addr, page_buffer) :: ls.bytes }
    match PageMap.set ls.paging page_virtual_addr page_physical_addr flags with
    | none => none
    | some p =>
      map_segment_pages base_virtual_addr base_physical_addr segment_data flags
        remaining (page + 1)
        { ls with
          paging := p
          setCalls := (page_virtual_addr, page_physical_addr, flags) :: ls.setCalls }

/-- Embedding of `map_kernel_segment` from `bootloader/src/main.rs`: allocate
`ceil(size / PAGE_SIZE)` fresh pages at one base address, then copy-and-map
each page. -/
def map_kernel_segment (ls : LoaderState) (segment_info : v0.SegmentInfo)
    (segment_data : List Nat) (flags : PageMapFlags) : Option LoaderState :=
  let segment_pages := (segment_info.size + PageMap.PAGE_SIZE - 1) / PageMap.PAGE_SIZE
  let base_virtual_addr := segment_info.load_address
  let alloc := ls.paging.machine.allocPages segment_pages
  let base_physical_addr := alloc.fst
  let ls := { ls with paging := { ls.paging with machine := alloc.snd } }
  map_segment_pages base_virtual_addr base_physical_addr segment_data flags
    segment_pages 0 ls

/-- Embedding of `map_kernel`: parse the kernel image (a failed `expect`
models as `none`), then map the code, rodata and rwdata segments with
`PageMapFlags::X`, `PageMapFlags::default()` and `PageMapFlags::W`
respectively.  A panicking segment accessor (out-of-range slice) is `none`. -/
def map_kernel (ls : LoaderState) (kernel_buffer : List Nat) : Option LoaderState :=
  match v0.Exe.parse kernel_buffer with
  | .error _ => none
  | .ok kernel_exe =>
    match kernel_exe.code with
    | none => none
    | some code_data =>
      match map_kernel_segment ls kernel_exe.code_info code_data PageMapFlags.X with
      | none => none
      | some ls =>
        match kernel_exe.rodata with
        | none => none
        | some rodata_data =>
          match map_kernel_segment ls kernel_exe.rodata_info rodata_data
              PageMapFlags.default with
          | none => none
          | some ls =>
            match kernel_exe.rwdata with
            | none => none
            | some rwdata_data =>
              map_kernel_segment ls kernel_exe.rwdata_info rwdata_data PageMapFlags.W

/-! General bit-level lemmas about the entry codec. -/

lemma shiftLeft_one_63 : (1 <<< 63 : Nat) = 2 ^ 63 := by
  norm_num [Nat.shiftLeft_eq]

lemma hex_fff_eq : (0xfff : Nat) = 2 ^ 12 - 1 := by norm_num

lemma testBit_not64 (m i : Nat) :
    (not64 m).testBit i = (decide (i < 64) ^^ m.testBit i) := by
  simp only [not64, Nat.testBit_xor, Nat.testBit_two_pow_sub_one]

lemma testBit_fff (i : Nat) : (0xfff : Nat).testBit i = decide (i < 12) := by
  rw [hex_fff_eq, Nat.testBit_two_pow_sub_one]

lemma testBit_bit63 (i : Nat) : ((1 <<< 63 : Nat)).testBit i = decide (i = 63) := by
  rw [shiftLeft_one_63, Nat.testBit_two_pow]
  by_cases h : i = 63 <;> simp [h] <;> omega

lemma testBit_addr_mask (i : Nat) :
    (((1 <<< 63) ||| 0xfff : Nat)).testBit i = decide (i = 63 ∨ i < 12) := by
  rw [Nat.testBit_lor, testBit_bit63, testBit_fff]
  by_cases h1 : i = 63 <;> by_cases h2 : i < 12 <;> simp [h1, h2]

lemma testBit_not64_addr_mask (i : Nat) :
    (not64 ((1 <<< 63) ||| 0xfff)).testBit i = decide (12 ≤ i ∧ i < 63) := by
  rw [testBit_not64, testBit_addr_mask]
  by_cases h1 : i < 64 <;> by_cases h2 : i = 63 <;> by_cases h3 : i < 12 <;>
    simp [h1, h2, h3] <;> omega

lemma testBit_not64_two (i : Nat) :
    (not64 0b10).testBit i = decide (i < 64 ∧ i ≠ 1) := by
  rw [testBit_not64, show (0b10 : Nat) = 2 ^ 1 by norm_num, Nat.testBit_two_pow]
  by_cases h1 : i < 64 <;> by_cases h2 : (1 : Nat) = i <;> simp [h1, h2] <;> omega

lemma testBit_not64_bit63 (i : Nat) :
    (not64 (1 <<< 63)).testBit i = decide (i < 64 ∧ i ≠ 63) := by
  rw [testBit_not64, testBit_bit63]
  by_cases h1 : i < 64 <;> by_cases h2 : i = 63 <;> simp [h1, h2] <;> omega

lemma testBit_not64_fff (i : Nat) :
    (not64 0xfff).testBit i = decide (12 ≤ i ∧ i < 64) := by
  rw [testBit_not64, testBit_fff]
  by_cases h1 : i < 64 <;> by_cases h2 : i < 12 <;> simp [h1, h2] <;> omega

lemma testBit_range_mask (i : Nat) :
    ((0xfff <<< 51 : Nat)).testBit i = decide (51 ≤ i ∧ i < 63) := by
  rw [Nat.testBit_shiftLeft, testBit_fff]
  by_cases h1 : i ≥ 51 <;> simp [h1] <;> omega

lemma testBit_two (i : Nat) : (0b10 : Nat).testBit i = decide (i = 1) := by
  rw [show (0b10 : Nat) = 2 ^ 1 by norm_num, Nat.testBit_two_pow]
  by_cases h : i = 1 <;> simp [h] <;> omega

lemma testBit_one (i : Nat) : (1 : Nat).testBit i = decide (i = 0) := by
  rw [show (1 : Nat) = 2 ^ 0 by norm_num, Nat.testBit_two_pow]
  by_cases h : i = 0 <;> simp [h] <;> omega

lemma Entry.present_eq_testBit (v : Nat) : Entry.present v = v.testBit 0 := by
  have h : v &&& 1 = (v.testBit 0).toNat * 2 ^ 0 := by
    simpa using Nat.and_two_pow v 0
  simp only [Entry.present, h]
  cases v.testBit 0 <;> decide

lemma Entry.writable_eq_testBit (v : Nat) : Entry.writable v = v.testBit 1 := by
  have h : v &&& 0b10 = (v.testBit 1).toNat * 2 ^ 1 := by
    simpa using Nat.and_two_pow v 1
  simp only [Entry.writable, h]
  cases v.testBit 1 <;> decide

lemma testBit_false_of_ge {v i : Nat} (hv : v < 2 ^ 64) (hi : 64 ≤ i) :
    v.testBit i = false :=
  Nat.testBit_lt_two_pow (lt_of_lt_of_le hv (Nat.pow_le_pow_right (by norm_num) hi))

lemma lor_lt_two_pow_64 {a b : Nat} (ha : a < 2 ^ 64) (hb : b < 2 ^ 64) :
    a ||| b < 2 ^ 64 := by
  apply Nat.lt_pow_two_of_testBit
  intro i hi
  simp [Nat.testBit_lor, testBit_false_of_ge ha hi, testBit_false_of_ge hb hi]

lemma and_fff_eq_mod (a : Nat) : a &&& 0xfff = a % 4096 := by
  have h := Nat.and_pow_two_sub_one_eq_mod a 12
  norm_num at h
  exact h

lemma aligned_testBit_low {a : Nat} (h : a &&& 0xfff = 0) {i : Nat} (hi : i < 12) :
    a.testBit i = false := by
  have h2 := congrArg (fun x => x.testBit i) h
  simpa [Nat.testBit_land, testBit_fff, hi, Nat.zero_testBit] using h2

lemma range_ok_testBit {a : Nat} (h : a &&& (0xfff <<< 51) = 0) {i : Nat}
    (h1 : 51 ≤ i) (h2 : i < 63) : a.testBit i = false := by
  have h3 := congrArg (fun x => x.testBit i) h
  simp only [Nat.testBit_land, testBit_range_mask, Nat.zero_testBit] at h3
  simpa [h1, h2] using h3

/-- Characterisation of the alignment assertion `va & !0xfff == va` at `u64`:
it holds exactly for 64-bit values with zero low 12 bits. -/
lemma align_check_iff (va : Nat) :
    va &&& not64 0xfff = va ↔ va < 2 ^ 64 ∧ va % 4096 = 0 := by
  constructor
  · intro h
    have hbit : ∀ i, va.testBit i = (va.testBit i && decide (12 ≤ i ∧ i < 64)) := by
      intro i
      conv_lhs => rw [← h]
      simp [Nat.testBit_land, testBit_not64_fff]
    have hlt : va < 2 ^ 64 := by
      apply Nat.lt_pow_two_of_testBit
      intro i hi
      rw [hbit i]
      simp
      omega
    refine ⟨hlt, ?_⟩
    rw [← and_fff_eq_mod]
    apply Nat.eq_of_testBit_eq
    intro i
    simp only [Nat.testBit_land, testBit_fff, Nat.zero_testBit]
    by_cases hi : i < 12
    · have h12 : ¬(12 ≤ i) := by omega
      rw [hbit i]
      simp [hi, h12]
    · simp [hi]
  · rintro ⟨hlt, hmod⟩
    apply Nat.eq_of_testBit_eq
    intro i
    simp only [Nat.testBit_land, testBit_not64_fff]
    by_cases h1 : i < 12
    · have : va.testBit i = false := by
        apply aligned_testBit_low _ h1
        rw [and_fff_eq_mod, hmod]
      simp [this]
    · by_cases h2 : i < 64
      · simp
        omega
      · have : va.testBit i = false := testBit_false_of_ge hlt (by omega)
        simp [this]

lemma Entry.set_writable_testBit {v : Nat} (hv : v < 2 ^ 64) (b : Bool) (i : Nat) :
    (Entry.set_writable v b).testBit i = if i = 1 then b else v.testBit i := by
  cases b <;>
    simp only [Entry.set_writable, if_true, if_false, Bool.false_eq_true,
      Nat.testBit_lor, Nat.testBit_land, testBit_two, testBit_not64_two]
  · by_cases h1 : i = 1
    · simp [h1]
    · by_cases h2 : i < 64
      · simp [h1, h2]
      · have h3 : v.testBit i = false := testBit_false_of_ge hv (by omega)
        simp [h1, h2, h3]
  · by_cases h1 : i = 1 <;> simp [h1]

lemma Entry.set_execute_disable_testBit {v : Nat} (hv : v < 2 ^ 64) (b : Bool) (i : Nat) :
    (Entry.set_execute_disable v b).testBit i = if i = 63 then b else v.testBit i := by
  cases b <;>
    simp only [Entry.set_execute_disable, if_true, if_false, Bool.false_eq_true,
      Nat.testBit_lor, Nat.testBit_land, testBit_bit63, testBit_not64_bit63]
  · by_cases h1 : i = 63
    · simp [h1]
    · by_cases h2 : i < 64
      · simp [h1, h2]
      · have h3 : v.testBit i = false := testBit_false_of_ge hv (by omega)
        simp [h1, h2, h3]
  · by_cases h1 : i = 63 <;> simp [h1]

lemma Entry.set_writable_lt {v : Nat} (hv : v < 2 ^ 64) (b : Bool) :
    Entry.set_writable v b < 2 ^ 64 := by
  cases b <;> simp only [Entry.set_writable, if_true, if_false, Bool.false_eq_true]
  · exact lt_of_le_of_lt Nat.and_le_left hv
  · exact lor_lt_two_pow_64 hv (by norm_num)

lemma Entry.set_execute_disable_lt {v : Nat} (hv : v < 2 ^ 64) (b : Bool) :
    Entry.set_execute_disable v b < 2 ^ 64 := by
  cases b <;> simp only [Entry.set_execute_disable, if_true, if_false, Bool.false_eq_true]
  · exact lt_of_le_of_lt Nat.and_le_left hv
  · exact lor_lt_two_pow_64 hv (by norm_num [Nat.shiftLeft_eq])

lemma Entry.address_testBit (v i : Nat) :
    (Entry.address v).testBit i = (v.testBit i && decide (12 ≤ i ∧ i < 63)) := by
  rw [Entry.address, Nat.testBit_land, testBit_not64_addr_mask]

lemma Entry.address_lt (v : Nat) : Entry.address v < 2 ^ 63 := by
  apply Nat.lt_pow_two_of_testBit
  intro i hi
  rw [Entry.address_testBit]
  simp
  omega

lemma Entry.address_mod (v : Nat) : Entry.address v % 4096 = 0 := by
  rw [← and_fff_eq_mod]
  apply Nat.eq_of_testBit_eq
  intro i
  simp only [Nat.testBit_land, testBit_fff, Entry.address_testBit, Nat.zero_testBit]
  by_cases h : i < 12 <;> simp [h] <;> omega

lemma Entry.widen_testBit {e : Nat} (he : e < 2 ^ 64) (w x : Bool) (i : Nat) :
    (Entry.widen e w x).testBit i =
      if i = 1 then (w || e.testBit 1)
      else if i = 63 then (!x && e.testBit 63)
      else e.testBit i := by
  have he1lt : (if w then Entry.set_writable e true else e) < 2 ^ 64 := by
    cases w
    · simpa using he
    · simpa using Entry.set_writable_lt he true
  have he1bit : ∀ j, (if w then Entry.set_writable e true else e).testBit j =
      if j = 1 then (w || e.testBit 1) else e.testBit j := by
    intro j
    cases w
    · by_cases hj : j = 1 <;> simp [hj]
    · simp only [if_true]
      rw [Entry.set_writable_testBit he]
      by_cases hj : j = 1 <;> simp [hj]
  cases x
  · have hw : Entry.widen e w false = (if w then Entry.set_writable e true else e) := by
      simp [Entry.widen]
    rw [hw, he1bit i]
    by_cases h1 : i = 1 <;> by_cases h63 : i = 63 <;> simp [h1, h63]
  · have hw : Entry.widen e w true =
        Entry.set_execute_disable (if w then Entry.set_writable e true else e) false := by
      simp [Entry.widen]
    rw [hw, Entry.set_execute_disable_testBit he1lt]
    by_cases h63 : i = 63
    · simp [h63]
    · rw [if_neg h63, he1bit i]
      by_cases h1 : i = 1 <;> simp [h1, h63]

lemma Entry.widen_lt {e : Nat} (he : e < 2 ^ 64) (w x : Bool) :
    Entry.widen e w x < 2 ^ 64 := by
  apply Nat.lt_pow_two_of_testBit
  intro i hi
  have h1 : i ≠ 1 := by omega
  have h63 : i ≠ 63 := by omega
  have h0 : e.testBit i = false := testBit_false_of_ge he hi
  simp [Entry.widen_testBit he, h1, h63, h0]

lemma Entry.widen_address {e : Nat} (he : e < 2 ^ 64) (w x : Bool) :
    Entry.address (Entry.widen e w x) = Entry.address e := by
  apply Nat.eq_of_testBit_eq
  intro i
  simp only [Entry.address_testBit, Entry.widen_testBit he]
  by_cases h1 : i = 1 <;> by_cases h2 : i = 63 <;> simp [h1, h2]

lemma Entry.widen_present {e : Nat} (he : e < 2 ^ 64) (w x : Bool) :
    Entry.present (Entry.widen e w x) = Entry.present e := by
  rw [Entry.present_eq_testBit, Entry.present_eq_testBit, Entry.widen_testBit he]
  simp

/-- Value produced by a successful `new` with `pcd = pwt = user = false`, as a
function of the `execute_disable` and `writable` arguments. -/
lemma Entry.new_ok_elim {xd w : Bool} {a e : Nat}
    (h : Entry.new xd a false false false w = .ok e) :
    a &&& 0xfff = 0 ∧ a &&& (0xfff <<< 51) = 0 ∧
    e = (if w then (if xd then a ||| (1 <<< 63) else a) ||| (1 <<< 1)
         else (if xd then a ||| (1 <<< 63) else a)) ||| 1 := by
  have hshift : (0xfff <<< 51 : Nat) = 9221120237041090560 := by
    norm_num [Nat.shiftLeft_eq]
  by_cases h1 : a &&& 0xfff = 0
  · by_cases h2 : a &&& (0xfff <<< 51) = 0
    · refine ⟨h1, h2, ?_⟩
      simp only [Entry.new, h1, h2, not_true, if_false, if_true,
        Bool.false_eq_true, ite_false, ite_true, not_false_eq_true] at h
      cases h
      rfl
    · rw [hshift] at h2
      simp [Entry.new, h1, h2] at h
  · simp [Entry.new, h1] at h

/-- Converse direction: when both asserts pass, `new` succeeds with that value. -/
lemma Entry.new_ok_intro {xd w : Bool} {a : Nat}
    (h1 : a &&& 0xfff = 0) (h2 : a &&& (0xfff <<< 51) = 0) :
    Entry.new xd a false false false w =
      .ok ((if w then (if xd then a ||| (1 <<< 63) else a) ||| (1 <<< 1)
            else (if xd then a ||| (1 <<< 63) else a)) ||| 1) := by
  simp only [Entry.new, h1, h2, not_true, not_false_eq_true, if_false, if_true,
    Bool.false_eq_true, ite_false, ite_true]

lemma Entry.newval_testBit (xd w : Bool) (a i : Nat) :
    ((if w then (if xd then a ||| (1 <<< 63) else a) ||| (1 <<< 1)
      else (if xd then a ||| (1 <<< 63) else a)) ||| 1).testBit i =
      (a.testBit i || (xd && decide (i = 63)) || (w && decide (i = 1)) ||
        decide (i = 0)) := by
  cases xd <;> cases w <;>
    simp only [if_true, if_false, Bool.false_eq_true, ite_false, ite_true,
      Nat.testBit_lor, testBit_bit63, testBit_one,
      show (1 <<< 1 : Nat) = 0b10 from rfl, testBit_two] <;>
    by_cases h0 : i = 0 <;> by_cases ha1 : i = 1 <;> by_cases h63 : i = 63 <;>
    simp [h0, ha1, h63]

lemma Entry.newval_lt {xd w : Bool} {a : Nat} (ha : a < 2 ^ 64) :
    ((if w then (if xd then a ||| (1 <<< 63) else a) ||| (1 <<< 1)
      else (if xd then a ||| (1 <<< 63) else a)) ||| 1) < 2 ^ 64 := by
  apply Nat.lt_pow_two_of_testBit
  intro i hi
  rw [Entry.newval_testBit]
  have h0 : i ≠ 0 := by omega
  have h1 : i ≠ 1 := by omega
  have h63 : i ≠ 63 := by omega
  simp [h0, h1, h63, testBit_false_of_ge ha hi]

lemma Entry.newval_present (xd w : Bool) (a : Nat) :
    Entry.present ((if w then (if xd then a ||| (1 <<< 63) else a) ||| (1 <<< 1)
      else (if xd then a ||| (1 <<< 63) else a)) ||| 1) = true := by
  rw [Entry.present_eq_testBit, Entry.newval_testBit]
  simp

lemma Entry.newval_writable {xd w : Bool} {a : Nat} (ha : a &&& 0xfff = 0) :
    Entry.writable ((if w then (if xd then a ||| (1 <<< 63) else a) ||| (1 <<< 1)
      else (if xd then a ||| (1 <<< 63) else a)) ||| 1) = w := by
  rw [Entry.writable_eq_testBit, Entry.newval_testBit]
  simp [aligned_testBit_low ha (show (1 : Nat) < 12 by norm_num)]

lemma Entry.newval_bit63 {xd w : Bool} {a : Nat} (ha : a < 2 ^ 63) :
    ((if w then (if xd then a ||| (1 <<< 63) else a) ||| (1 <<< 1)
      else (if xd then a ||| (1 <<< 63) else a)) ||| 1).testBit 63 = xd := by
  rw [Entry.newval_testBit]
  simp [Nat.testBit_lt_two_pow ha]

lemma Entry.newval_address {xd w : Bool} {a : Nat} (ha : a &&& 0xfff = 0)
    (hlt : a < 2 ^ 63) :
    Entry.address ((if w then (if xd then a ||| (1 <<< 63) else a) ||| (1 <<< 1)
      else (if xd then a ||| (1 <<< 63) else a)) ||| 1) = a := by
  apply Nat.eq_of_testBit_eq
  intro i
  rw [Entry.address_testBit, Entry.newval_testBit]
  by_cases h1 : 12 ≤ i
  · by_cases h2 : i < 63
    · have h0 : i ≠ 0 := by omega
      have ha1 : i ≠ 1 := by omega
      have h63 : i ≠ 63 := by omega
      simp [h0, ha1, h63, h1, h2]
    · have : a.testBit i = false :=
        Nat.testBit_lt_two_pow (lt_of_lt_of_le hlt (Nat.pow_le_pow_right (by norm_num) (by omega)))
      simp [h2, this]
  · have : a.testBit i = false := aligned_testBit_low ha (by omega)
    simp [h1, this]

lemma Entry.present_zero : Entry.present 0 = false := by decide

/-! Lemmas about the table / memory model. -/

lemma tableGet_zeroTable (i : Nat) : tableGet zeroTable i = 0 := by
  simp only [tableGet, zeroTable, List.getD_eq_getElem?_getD, List.getElem?_replicate]
  by_cases h : i < 512 <;> simp [h]

lemma tableGet_set_self {t : Table} {i : Nat} (h : i < t.length) (v : Nat) :
    tableGet (t.set i v) i = v := by
  simp [tableGet, List.getD_eq_getElem?_getD, List.getElem?_set_self, h]

lemma tableGet_set_ne {t : Table} {i j : Nat} (h : i ≠ j) (v : Nat) :
    tableGet (t.set i v) j = tableGet t j := by
  simp [tableGet, List.getD_eq_getElem?_getD, List.getElem?_set_ne h]

lemma readMem_writeMem_self (mem : List (Nat × Table)) (p : Nat) (t : Table) :
    readMem (writeMem mem p t) p = t := by
  simp [readMem, writeMem, List.find?_cons_of_pos]

lemma find?_filter_out (l : List (Nat × Table)) (p q : Nat) (h : q ≠ p) :
    List.find? (fun e => e.fst == q) (l.filter (fun e => !(e.fst == p))) =
    List.find? (fun e => e.fst == q) l := by
  induction l with
  | nil => rfl
  | cons x xs ih =>
    by_cases hx : x.fst = p
    · have h1 : (x.fst == q) = false := by
        have : x.fst ≠ q := by omega
        simp [this]
      have hfilter : (x :: xs).filter (fun e => !(e.fst == p)) =
          xs.filter (fun e => !(e.fst == p)) := by
        simp [List.filter_cons, hx]
      have hfind : List.find? (fun e => e.fst == q) (x :: xs) =
          List.find? (fun e => e.fst == q) xs :=
        List.find?_cons_of_neg _ (by simp [h1])
      rw [hfilter, ih, hfind]
    · have hfilter : (x :: xs).filter (fun e => !(e.fst == p)) =
          x :: xs.filter (fun e => !(e.fst == p)) := by
        simp [List.filter_cons, hx]
      rw [hfilter]
      by_cases hq : x.fst = q
      · rw [List.find?_cons_of_pos _ (by simp [hq]),
          List.find?_cons_of_pos _ (by simp [hq])]
      · rw [List.find?_cons_of_neg _ (by simp [hq]),
          List.find?_cons_of_neg _ (by simp [hq]), ih]

lemma readMem_writeMem_ne (mem : List (Nat × Table)) {p q : Nat} (t : Table)
    (h : q ≠ p) : readMem (writeMem mem p t) q = readMem mem q := by
  have h1 : (p == q) = false := by
    simp
    omega
  simp only [readMem, writeMem, List.find?_cons, h1]
  rw [find?_filter_out mem p q h]

lemma writeMem_writeMem (mem : List (Nat × Table)) (p : Nat) (t t' : Table) :
    writeMem (writeMem mem p t) p t' = writeMem mem p t' := by
  simp [writeMem, List.filter_cons, List.filter_filter]

/-! Lemmas about address decomposition and recomposition. -/

lemma testBit_1ff (i : Nat) : (0b111111111 : Nat).testBit i = decide (i < 9) := by
  rw [show (0b111111111 : Nat) = 2 ^ 9 - 1 by norm_num, Nat.testBit_two_pow_sub_one]

lemma and_shift_shift (x m s : Nat) : (x &&& (m <<< s)) >>> s = (x >>> s) &&& m := by
  apply Nat.eq_of_testBit_eq
  intro j
  simp only [Nat.testBit_shiftRight, Nat.testBit_land, Nat.testBit_shiftLeft]
  have h1 : s + j ≥ s := Nat.le_add_right s j
  have h2 : s + j - s = j := by omega
  simp [h1, h2]

lemma shiftLeft_shiftRight_le (m a b : Nat) (h : b ≤ a) :
    (m <<< a) >>> b = m <<< (a - b) := by
  apply Nat.eq_of_testBit_eq
  intro j
  simp only [Nat.testBit_shiftRight, Nat.testBit_shiftLeft]
  by_cases hj : a - b ≤ j
  · have h1 : b + j ≥ a := by omega
    have h2 : b + j - a = j - (a - b) := by omega
    simp [h1, h2, hj]
  · have h1 : ¬(b + j ≥ a) := by omega
    have h2 : ¬(j ≥ a - b) := by omega
    simp [h1, h2]

lemma decompose_eq (va : Nat) :
    address_to_page_map_indices va =
      { pml4 := (va >>> 39) &&& 0b111111111,
        pdpt := (va >>> 30) &&& 0b111111111,
        pd := (va >>> 21) &&& 0b111111111,
        pt := (va >>> 12) &&& 0b111111111 } := by
  have e3 : ((0b111111111 : Nat) <<< (12 + 3 * 9)) >>> 9 = 0b111111111 <<< 30 := by
    rw [shiftLeft_shiftRight_le _ _ _ (by norm_num)]
  have e2 : ((0b111111111 : Nat) <<< 30) >>> 9 = 0b111111111 <<< 21 := by
    rw [shiftLeft_shiftRight_le _ _ _ (by norm_num)]
  have e1 : ((0b111111111 : Nat) <<< 21) >>> 9 = 0b111111111 <<< 12 := by
    rw [shiftLeft_shiftRight_le _ _ _ (by norm_num)]
  show PageMapIndices.mk _ _ _ _ = _
  rw [e3, e2, e1]
  rw [show (12 + 3 * 9 - 9 : Nat) = 30 from by norm_num,
    show (12 + 3 * 9 - 9 - 9 : Nat) = 21 from by norm_num,
    show (12 + 3 * 9 - 9 - 9 - 9 : Nat) = 12 from by norm_num,
    and_shift_shift, and_shift_shift, and_shift_shift, and_shift_shift]

lemma decompose_index_lt (va : Nat) :
    (address_to_page_map_indices va).pml4 < 512 ∧
    (address_to_page_map_indices va).pdpt < 512 ∧
    (address_to_page_map_indices va).pd < 512 ∧
    (address_to_page_map_indices va).pt < 512 := by
  rw [decompose_eq]
  refine ⟨?_, ?_, ?_, ?_⟩ <;>
    exact lt_of_le_of_lt Nat.and_le_right (by norm_num)

lemma recompose_eq (i4 i3 i2 i1 : Nat) (h4 : i4 < 512) (h3 : i3 < 512)
    (h2 : i2 < 512) (h1 : i1 < 512) :
    page_map_indices_to_address { pml4 := i4, pdpt := i3, pd := i2, pt := i1 } =
      (i4 <<< 39) ||| (i3 <<< 30) ||| (i2 <<< 21) ||| (i1 <<< 12) := by
  have bound : ∀ x s : Nat, x < 512 → s ≤ 39 → x <<< s < 2 ^ 64 := by
    intro x s hx hs
    calc x <<< s < 2 ^ (9 + s) := Nat.shiftLeft_lt (by norm_num at hx ⊢; omega)
    _ ≤ 2 ^ 64 := Nat.pow_le_pow_right (by norm_num) (by omega)
  have m4 : (i4 <<< (12 + 3 * 9)) % 2 ^ 64 = i4 <<< 39 := by
    rw [show (12 + 3 * 9 : Nat) = 39 from by norm_num]
    exact Nat.mod_eq_of_lt (bound i4 39 h4 (by norm_num))
  have m3 : (i3 <<< (12 + 2 * 9)) % 2 ^ 64 = i3 <<< 30 := by
    rw [show (12 + 2 * 9 : Nat) = 30 from by norm_num]
    exact Nat.mod_eq_of_lt (bound i3 30 h3 (by norm_num))
  have m2 : (i2 <<< (12 + 9)) % 2 ^ 64 = i2 <<< 21 := by
    rw [show (12 + 9 : Nat) = 21 from by norm_num]
    exact Nat.mod_eq_of_lt (bound i2 21 h2 (by norm_num))
  have m1 : (i1 <<< 12) % 2 ^ 64 = i1 <<< 12 :=
    Nat.mod_eq_of_lt (bound i1 12 h1 (by norm_num))
  show (((0 ||| (i4 <<< (12 + 3 * 9)) % 2 ^ 64) ||| (i3 <<< (12 + 2 * 9)) % 2 ^ 64) |||
      (i2 <<< (12 + 9)) % 2 ^ 64) ||| (i1 <<< 12) % 2 ^ 64 = _
  rw [m4, m3, m2, m1, Nat.zero_or]

lemma decompose_recompose_aligned (va : Nat) (h48 : va < 2 ^ 48)
    (hal : va % 4096 = 0) :
    page_map_indices_to_address (address_to_page_map_indices va) = va := by
  have hlow : ∀ j, j < 12 → va.testBit j = false := by
    intro j hj
    apply aligned_testBit_low _ hj
    rw [and_fff_eq_mod, hal]
  have hhigh : ∀ j, 48 ≤ j → va.testBit j = false := fun j hj =>
    Nat.testBit_lt_two_pow (lt_of_lt_of_le h48 (Nat.pow_le_pow_right (by norm_num) hj))
  have hb : ∀ s : Nat, (va >>> s) &&& 0b111111111 < 512 := fun s =>
    lt_of_le_of_lt Nat.and_le_right (by norm_num)
  rw [decompose_eq, recompose_eq _ _ _ _ (hb 39) (hb 30) (hb 21) (hb 12)]
  apply Nat.eq_of_testBit_eq
  intro j
  simp only [Nat.testBit_lor, Nat.testBit_shiftLeft, Nat.testBit_shiftRight,
    Nat.testBit_land, testBit_1ff]
  rcases Nat.lt_or_ge j 12 with hr | hr
  · have c4 : ¬(j ≥ 39) := by omega
    have c3 : ¬(j ≥ 30) := by omega
    have c2 : ¬(j ≥ 21) := by omega
    have c1 : ¬(j ≥ 12) := by omega
    simp [c4, c3, c2, c1, hlow j hr]
  · rcases Nat.lt_or_ge j 21 with hr2 | hr2
    · have c4 : ¬(j ≥ 39) := by omega
      have c3 : ¬(j ≥ 30) := by omega
      have c2 : ¬(j ≥ 21) := by omega
      have e1 : 12 + (j - 12) = j := by omega
      have d1 : j - 12 < 9 := by omega
      simp [c4, c3, c2, hr, e1, d1]
    · rcases Nat.lt_or_ge j 30 with hr3 | hr3
      · have c4 : ¬(j ≥ 39) := by omega
        have c3 : ¬(j ≥ 30) := by omega
        have e2 : 21 + (j - 21) = j := by omega
        have d2 : j - 21 < 9 := by omega
        have d1 : ¬(j - 12 < 9) := by omega
        simp [c4, c3, hr, hr2, e2, d2, d1]
      · rcases Nat.lt_or_ge j 39 with hr4 | hr4
        · have c4 : ¬(j ≥ 39) := by omega
          have e3 : 30 + (j - 30) = j := by omega
          have d3 : j - 30 < 9 := by omega
          have d2 : ¬(j - 21 < 9) := by omega
          have d1 : ¬(j - 12 < 9) := by omega
          simp [c4, hr, hr2, hr3, e3, d3, d2, d1]
        · rcases Nat.lt_or_ge j 48 with hr5 | hr5
          · have e4 : 39 + (j - 39) = j := by omega
            have d4 : j - 39 < 9 := by omega
            have d3 : ¬(j - 30 < 9) := by omega
            have d2 : ¬(j - 21 < 9) := by omega
            have d1 : ¬(j - 12 < 9) := by omega
            simp [hr, hr2, hr3, hr4, e4, d4, d3, d2, d1]
          · have d4 : ¬(j - 39 < 9) := by omega
            have d3 : ¬(j - 30 < 9) := by omega
            have d2 : ¬(j - 21 < 9) := by omega
            have d1 : ¬(j - 12 < 9) := by omega
            simp [d4, d3, d2, d1, hhigh j hr5]

/-- C1: the spec claims the Active-mode PML4 virtual address decomposes into
four copies of reserved index 511 with zero offset, and the Active-mode PDPT
address for top-level index `k` decomposes into indices 511, 511, 511, `k`
with zero offset.  Evaluating the code's constants shows otherwise: the PML4
constant `0x0007fffff000` decomposes to indices 0, 31, 511, 511, and the PDPT
expression `0x007fffe00000 | k` ORs `k` into the page offset (not shifted by
12), decomposing to indices 0, 511, 511, 0 with nonzero offset.  The correct
recursive-mapping addresses (which the claim describes) would be
`0xfffffffff000` and `0xffffffe00000 | (k << 12)`. -/
theorem recursive_map_constants_wrong :
    address_to_page_map_indices PageMap.pml4_active_address =
      { pml4 := 0, pdpt := 31, pd := 511, pt := 511 } ∧
    address_to_page_map_indices PageMap.pml4_active_address ≠
      { pml4 := 511, pdpt := 511, pd := 511, pt := 511 } ∧
    PageMap.pml4_active_address % 4096 = 0 ∧
    address_to_page_map_indices (PageMap.pdpt_mut_active_address 3) =
      { pml4 := 0, pdpt := 511, pd := 511, pt := 0 } ∧
    PageMap.pdpt_mut_active_address 3 % 4096 = 3 ∧
    address_to_page_map_indices (PageMap.pdpt_active_address 3) =
      { pml4 := 0, pdpt := 31, pd := 511, pt := 0 } ∧
    address_to_page_map_indices 0xfffffffff000 =
      { pml4 := 511, pdpt := 511, pd := 511, pt := 511 } ∧
    (0xfffffffff000 : Nat) % 4096 = 0 ∧
    address_to_page_map_indices (0xffffffe00000 ||| (3 <<< 12)) =
      { pml4 := 511, pdpt := 511, pd := 511, pt := 3 } := by
  decide

/-- C2 (counterexample): the valid 48-bit virtual address `0x1001` is changed
by decompose-then-recompose, because decomposition discards the 12-bit page
offset and recomposition restores it as zero. -/
theorem decompose_recompose_counterexample :
    page_map_indices_to_address (address_to_page_map_indices 0x1001) = 0x1000 ∧
    (0x1001 : Nat) < 2 ^ 48 ∧
    page_map_indices_to_address (address_to_page_map_indices 0x1001) ≠ 0x1001 := by
  decide

/-- C2 (amended): for every 48-bit virtual address whose 12-bit page offset is
zero (page-aligned), recomposing the four 9-bit indices produced by
decomposition returns the original address unchanged. -/
theorem decompose_recompose_id (va : Nat) (h48 : va < 2 ^ 48)
    (hal : va % 4096 = 0) :
    page_map_indices_to_address (address_to_page_map_indices va) = va :=
  decompose_recompose_aligned va h48 hal

/-- Witness for `decompose_recompose_id` at the concrete address `0x7000`. -/
theorem decompose_recompose_id_witness :
    page_map_indices_to_address (address_to_page_map_indices 0x7000) = 0x7000 :=
  decompose_recompose_id 0x7000 (by norm_num) (by norm_num)

/-- C7: the claim states construction succeeds exactly for 4KiB-aligned
addresses of at most 52 significant bits.  The code's range assert masks with
`0xfff << 51` (bits 51 to 62), so the aligned address `2 ^ 51` — which uses
exactly 52 significant bits and should be accepted — is rejected with the
range error by all four constructors, while `2 ^ 63` (64 significant bits) is
accepted.  Misaligned addresses are rejected with the alignment error, and
accepted addresses do produce present entries, as the claim states. -/
theorem entry_new_range_check_off_by_one :
    PML4E.new false (2 ^ 51) false false false false = .error .range ∧
    PDPTE.new false (2 ^ 51) false false false false = .error .range ∧
    PDE.new false (2 ^ 51) false false false false = .error .range ∧
    PTE.new false (2 ^ 51) false false false false = .error .range ∧
    (2 ^ 51 : Nat) % 4096 = 0 ∧
    (2 ^ 51 : Nat) < 2 ^ 52 ∧
    PML4E.new false (2 ^ 63) false false false false = .ok (2 ^ 63 ||| 1) ∧
    (2 ^ 52 : Nat) ≤ 2 ^ 63 ∧
    PML4E.new false 0x1001000 false false false false = .ok 0x1001001 ∧
    Entry.present 0x1001001 = true ∧
    PML4E.new false 0x1001001 false false false false = .error .alignment := by
  decide

/-- C10: for every 64-bit page-table-entry value `v` and boolean `b`,
`set_writable` (identical on `PML4E`, `PDPTE`, `PDE`) changes only bit 1 and
`set_execute_disable` changes only bit 63; in particular the present bit and
the child-table address (`pdpt_address`/`pd_address`/`pt_address` field) are
unchanged. -/
theorem set_writable_set_execute_disable_frame (v : Nat) (hv : v < 2 ^ 64)
    (b : Bool) :
    (∀ i, i ≠ 1 → (PML4E.set_writable v b).testBit i = v.testBit i) ∧
    (PML4E.set_writable v b).testBit 1 = b ∧
    (∀ i, i ≠ 63 → (PML4E.set_execute_disable v b).testBit i = v.testBit i) ∧
    (PML4E.set_execute_disable v b).testBit 63 = b ∧
    Entry.present (PML4E.set_writable v b) = Entry.present v ∧
    Entry.present (PML4E.set_execute_disable v b) = Entry.present v ∧
    PML4E.pdpt_address (PML4E.set_writable v b) = PML4E.pdpt_address v ∧
    PML4E.pdpt_address (PML4E.set_execute_disable v b) = PML4E.pdpt_address v ∧
    PDPTE.set_writable v b = PML4E.set_writable v b ∧
    PDE.set_writable v b = PML4E.set_writable v b ∧
    PDPTE.set_execute_disable v b = PML4E.set_execute_disable v b ∧
    PDE.set_execute_disable v b = PML4E.set_execute_disable v b := by
  have hw : ∀ i, (PML4E.set_writable v b).testBit i =
      if i = 1 then b else v.testBit i := fun i =>
    Entry.set_writable_testBit hv b i
  have hx : ∀ i, (PML4E.set_execute_disable v b).testBit i =
      if i = 63 then b else v.testBit i := fun i =>
    Entry.set_execute_disable_testBit hv b i
  refine ⟨fun i hi => by rw [hw i, if_neg hi],
    by rw [hw 1, if_pos rfl],
    fun i hi => by rw [hx i, if_neg hi],
    by rw [hx 63, if_pos rfl], ?_, ?_, ?_, ?_, rfl, rfl, rfl, rfl⟩
  · rw [Entry.present_eq_testBit, Entry.present_eq_testBit, hw 0]
    simp
  · rw [Entry.present_eq_testBit, Entry.present_eq_testBit, hx 0]
    simp
  · apply Nat.eq_of_testBit_eq
    intro i
    show (Entry.address _).testBit i = (Entry.address _).testBit i
    rw [Entry.address_testBit, Entry.address_testBit, hw i]
    by_cases hi : i = 1 <;> simp [hi]
  · apply Nat.eq_of_testBit_eq
    intro i
    show (Entry.address _).testBit i = (Entry.address _).testBit i
    rw [Entry.address_testBit, Entry.address_testBit, hx i]
    by_cases hi : i = 63 <;> simp [hi]

/-- Witness for `set_writable_set_execute_disable_frame` at the concrete
entry value `0x2003` with `b = false`. -/
theorem set_writable_set_execute_disable_frame_witness :
    (∀ i, i ≠ 1 → (PML4E.set_writable 0x2003 false).testBit i =
      (0x2003 : Nat).testBit i) ∧
    (PML4E.set_writable 0x2003 false).testBit 1 = false ∧
    (∀ i, i ≠ 63 → (PML4E.set_execute_disable 0x2003 false).testBit i =
      (0x2003 : Nat).testBit i) ∧
    (PML4E.set_execute_disable 0x2003 false).testBit 63 = false ∧
    Entry.present (PML4E.set_writable 0x2003 false) = Entry.present 0x2003 ∧
    Entry.present (PML4E.set_execute_disable 0x2003 false) =
      Entry.present 0x2003 ∧
    PML4E.pdpt_address (PML4E.set_writable 0x2003 false) =
      PML4E.pdpt_address 0x2003 ∧
    PML4E.pdpt_address (PML4E.set_execute_disable 0x2003 false) =
      PML4E.pdpt_address 0x2003 ∧
    PDPTE.set_writable 0x2003 false = PML4E.set_writable 0x2003 false ∧
    PDE.set_writable 0x2003 false = PML4E.set_writable 0x2003 false ∧
    PDPTE.set_execute_disable 0x2003 false =
      PML4E.set_execute_disable 0x2003 false ∧
    PDE.set_execute_disable 0x2003 false =
      PML4E.set_execute_disable 0x2003 false :=
  set_writable_set_execute_disable_frame 0x2003 (by norm_num) false

/-! Lemmas and claims about the executable-image parser. -/

lemma v0.Exe.parse_ok_elim {buffer : List Nat} {exe : v0.Exe}
    (h : v0.Exe.parse buffer = .ok exe) :
    exe = { buffer := buffer } ∧ 82 ≤ buffer.length ∧
    buffer.take 8 = v0.MAGIC_BYTES ∧ v0.Exe.version { buffer := buffer } = 0 := by
  by_cases h1 : buffer.length < v0.Header.ENCODED_SIZE
  · simp [v0.Exe.parse, h1] at h
  · by_cases h2 : v0.Exe.magic_bytes { buffer := buffer } = v0.MAGIC_BYTES
    · by_cases h3 : v0.Exe.version { buffer := buffer } = v0.VERSION
      · refine ⟨?_, ?_, h2, h3⟩
        · simp [v0.Exe.parse, h1, h2, h3] at h
          exact h.symm
        · have : v0.Header.ENCODED_SIZE = 82 := by
            norm_num [v0.Header.ENCODED_SIZE, v0.SegmentInfo.ENCODED_SIZE]
          omega
      · simp [v0.Exe.parse, h1, h2, h3] at h
    · simp [v0.Exe.parse, h1, h2] at h

/-- C8: `parse` validates in order and short-circuits: a buffer shorter than
82 bytes yields the Length error with minimum 82 and the actual length (in
particular a 70-byte buffer yields Length 82 70); a long-enough buffer whose
first 8 bytes differ from the magic constant yields the MagicBytes error;
correct magic with a nonzero version field yields the Version error with
expected 0 and the actual version (in particular version 1 yields
Version 0 1); otherwise `parse` succeeds. -/
theorem parse_validation (buffer : List Nat) :
    (buffer.length < 82 →
      v0.Exe.parse buffer = .error (.Length 82 buffer.length)) ∧
    (82 ≤ buffer.length → buffer.take 8 ≠ v0.MAGIC_BYTES →
      v0.Exe.parse buffer = .error (.MagicBytes v0.MAGIC_BYTES (buffer.take 8))) ∧
    (82 ≤ buffer.length → buffer.take 8 = v0.MAGIC_BYTES →
      v0.Exe.version { buffer := buffer } ≠ 0 →
      v0.Exe.parse buffer =
        .error (.Version 0 (v0.Exe.version { buffer := buffer }))) ∧
    (82 ≤ buffer.length → buffer.take 8 = v0.MAGIC_BYTES →
      v0.Exe.version { buffer := buffer } = 0 →
      v0.Exe.parse buffer = .ok { buffer := buffer }) ∧
    v0.Exe.parse (List.replicate 70 0) = .error (.Length 82 70) ∧
    v0.Exe.parse (v0.MAGIC_BYTES ++ 1 :: 0 :: List.replicate 72 0) =
      .error (.Version 0 1) := by
  have hsz : v0.Header.ENCODED_SIZE = 82 := by
    norm_num [v0.Header.ENCODED_SIZE, v0.SegmentInfo.ENCODED_SIZE]
  refine ⟨?_, ?_, ?_, ?_, by decide, by decide⟩
  · intro h
    rw [v0.Exe.parse, if_pos (by omega)]
    rw [hsz]
  · intro h1 h2
    rw [v0.Exe.parse, if_neg (by omega)]
    rw [if_pos (by simpa [v0.Exe.magic_bytes] using h2)]
    rfl
  · intro h1 h2 h3
    rw [v0.Exe.parse, if_neg (by omega)]
    rw [if_neg (by simp [v0.Exe.magic_bytes, h2])]
    rw [if_pos (by simpa [v0.VERSION] using h3)]
  · intro h1 h2 h3
    rw [v0.Exe.parse, if_neg (by omega)]
    rw [if_neg (by simp [v0.Exe.magic_bytes, h2])]
    rw [if_neg (by simp [v0.VERSION, h3])]

/-- Witness for `parse_validation`: the 70-byte and version-1 instances the
claim names, derived by applying the theorem at those buffers. -/
theorem parse_validation_witness :
    v0.Exe.parse (List.replicate 70 0) = .error (.Length 82 70) :=
  (parse_validation (List.replicate 70 0)).1 (by decide)

/-- Sample executable from the spec's testable-properties section: magic,
version 0, descriptors code = (start 82, size 4, load 0x1000),
rodata = (start 86, size 0, load 0x2000), rwdata = (start 86, size 2,
load 0x3000), followed by 4 code bytes and 2 rwdata bytes. -/
def exampleExeBuffer : List Nat :=
  v0.MAGIC_BYTES ++ [0, 0] ++
  [82, 0, 0, 0, 0, 0, 0, 0] ++ [4, 0, 0, 0, 0, 0, 0, 0] ++
  [0x00, 0x10, 0, 0, 0, 0, 0, 0] ++
  [86, 0, 0, 0, 0, 0, 0, 0] ++ [0, 0, 0, 0, 0, 0, 0, 0] ++
  [0x00, 0x20, 0, 0, 0, 0, 0, 0] ++
  [86, 0, 0, 0, 0, 0, 0, 0] ++ [2, 0, 0, 0, 0, 0, 0, 0] ++
  [0x00, 0x30, 0, 0, 0, 0, 0, 0] ++
  [0xAA, 0xBB, 0xCC, 0xDD] ++ [0x11, 0x22]

/-- An 82-byte buffer accepted by `parse` whose code descriptor
(start 82, size 4) points past the end of the buffer. -/
def oobExeBuffer : List Nat :=
  v0.MAGIC_BYTES ++ [0, 0] ++
  [82, 0, 0, 0, 0, 0, 0, 0] ++ [4, 0, 0, 0, 0, 0, 0, 0] ++
  [0, 0, 0, 0, 0, 0, 0, 0] ++ List.replicate 48 0

/-- C9 (counterexample): a buffer accepted by `parse` on which `code()` does
not return the descriptor's sub-slice — the declared range 82..86 exceeds the
82-byte buffer, so the slice operation panics (modelled as `none`). -/
theorem exe_code_oob_counterexample :
    v0.Exe.parse oobExeBuffer = .ok { buffer := oobExeBuffer } ∧
    v0.Exe.code { buffer := oobExeBuffer } = none ∧
    (v0.Exe.code_info { buffer := oobExeBuffer }).start = 82 ∧
    (v0.Exe.code_info { buffer := oobExeBuffer }).size = 4 ∧
    oobExeBuffer.length = 82 := by
  decide

/-- C9 (amended): for every buffer accepted by `parse`, the view borrows the
input buffer unchanged, and whenever a segment descriptor's range
`start..start + size` lies within the buffer, the corresponding accessor
(`code`, `rodata`, `rwdata`) returns exactly that sub-slice of the input
buffer, with start and size decoded little-endian from the segment's 24-byte
descriptor at its fixed header offset (10, 34, 58); in particular the spec's
sample buffer parses and `code()` is exactly the 4 bytes at offset 82. -/
theorem exe_accessors_slices (buffer : List Nat) (exe : v0.Exe)
    (h : v0.Exe.parse buffer = .ok exe) :
    exe.buffer = buffer ∧
    exe.code_info = v0.SegmentInfo.from ((buffer.drop 10).take 24) ∧
    exe.rodata_info = v0.SegmentInfo.from ((buffer.drop 34).take 24) ∧
    exe.rwdata_info = v0.SegmentInfo.from ((buffer.drop 58).take 24) ∧
    (exe.code_info.start + exe.code_info.size ≤ buffer.length →
      exe.code = some ((buffer.drop exe.code_info.start).take exe.code_info.size)) ∧
    (exe.rodata_info.start + exe.rodata_info.size ≤ buffer.length →
      exe.rodata =
        some ((buffer.drop exe.rodata_info.start).take exe.rodata_info.size)) ∧
    (exe.rwdata_info.start + exe.rwdata_info.size ≤ buffer.length →
      exe.rwdata =
        some ((buffer.drop exe.rwdata_info.start).take exe.rwdata_info.size)) ∧
    v0.Exe.parse exampleExeBuffer = .ok { buffer := exampleExeBuffer } ∧
    v0.Exe.code { buffer := exampleExeBuffer } = some [0xAA, 0xBB, 0xCC, 0xDD] ∧
    (exampleExeBuffer.drop 82).take 4 = [0xAA, 0xBB, 0xCC, 0xDD] := by
  obtain ⟨rfl, -, -, -⟩ := v0.Exe.parse_ok_elim h
  refine ⟨rfl, rfl, rfl, rfl, ?_, ?_, ?_, by decide, by decide, by decide⟩
  · intro hb
    simp [v0.Exe.code, hb]
  · intro hb
    simp [v0.Exe.rodata, hb]
  · intro hb
    simp [v0.Exe.rwdata, hb]

/-- Witness for `exe_accessors_slices` at the spec's sample buffer. -/
theorem exe_accessors_slices_witness :
    v0.Exe.code { buffer := exampleExeBuffer } =
      some ((exampleExeBuffer.drop
          (v0.Exe.code_info { buffer := exampleExeBuffer }).start).take
        (v0.Exe.code_info { buffer := exampleExeBuffer }).size) :=
  (exe_accessors_slices exampleExeBuffer { buffer := exampleExeBuffer }
      (by decide)).2.2.2.2.1 (by decide)

/-! Lemmas and claims about `PageMap::unset`. -/

lemma tableGet_set_zero (t : Table) (i : Nat) : tableGet (t.set i 0) i = 0 := by
  by_cases h : i < t.length
  · exact tableGet_set_self (by simpa using h) 0
  · rw [List.set_eq_of_length_le (by omega)]
    have hnone : t[i]? = none := List.getElem?_eq_none (by omega)
    simp [tableGet, List.getD_eq_getElem?_getD, hnone]

/-- Physical page of the fourth-level table on the walk path of a virtual
address, when every intermediate entry is present. -/
def ptPage (st : PagingState) (virtual_page_address : Nat) : Option Nat :=
  let indices := address_to_page_map_indices virtual_page_address
  nodeAt st [indices.pd, indices.pdpt, indices.pml4]

lemma unset_noop_1 {st : PagingState} {va : Nat}
    (ha : va &&& not64 0xfff = va)
    (p4 : ¬ Entry.present
      (tableGet (readMem st.machine.mem st.pm.address)
        (address_to_page_map_indices va).pml4)) :
    PageMap.unset st va = some st := by
  simp only [PageMap.unset]
  rw [if_neg (not_not_intro ha), if_pos p4]

lemma unset_noop_2 {st : PagingState} {va : Nat}
    (ha : va &&& not64 0xfff = va)
    (p4 : Entry.present
      (tableGet (readMem st.machine.mem st.pm.address)
        (address_to_page_map_indices va).pml4))
    (p3 : ¬ Entry.present
      (tableGet (readMem st.machine.mem
        (Entry.address (tableGet (readMem st.machine.mem st.pm.address)
          (address_to_page_map_indices va).pml4)))
        (address_to_page_map_indices va).pdpt)) :
    PageMap.unset st va = some st := by
  simp only [PageMap.unset]
  rw [if_neg (not_not_intro ha), if_neg (not_not_intro p4), if_pos p3]

lemma unset_noop_3 {st : PagingState} {va : Nat}
    (ha : va &&& not64 0xfff = va)
    (p4 : Entry.present
      (tableGet (readMem st.machine.mem st.pm.address)
        (address_to_page_map_indices va).pml4))
    (p3 : Entry.present
      (tableGet (readMem st.machine.mem
        (Entry.address (tableGet (readMem st.machine.mem st.pm.address)
          (address_to_page_map_indices va).pml4)))
        (address_to_page_map_indices va).pdpt))
    (p2 : ¬ Entry.present
      (tableGet (readMem st.machine.mem
        (Entry.address (tableGet (readMem st.machine.mem
          (Entry.address (tableGet (readMem st.machine.mem st.pm.address)
            (address_to_page_map_indices va).pml4)))
          (address_to_page_map_indices va).pdpt)))
        (address_to_page_map_indices va).pd)) :
    PageMap.unset st va = some st := by
  simp only [PageMap.unset]
  rw [if_neg (not_not_intro ha), if_neg (not_not_intro p4),
    if_neg (not_not_intro p3), if_pos p2]

lemma unset_write {st : PagingState} {va : Nat}
    (ha : va &&& not64 0xfff = va)
    (p4 : Entry.present
      (tableGet (readMem st.machine.mem st.pm.address)
        (address_to_page_map_indices va).pml4))
    (p3 : Entry.present
      (tableGet (readMem st.machine.mem
        (Entry.address (tableGet (readMem st.machine.mem st.pm.address)
          (address_to_page_map_indices va).pml4)))
        (address_to_page_map_indices va).pdpt))
    (p2 : Entry.present
      (tableGet (readMem st.machine.mem
        (Entry.address (tableGet (readMem st.machine.mem
          (Entry.address (tableGet (readMem st.machine.mem st.pm.address)
            (address_to_page_map_indices va).pml4)))
          (address_to_page_map_indices va).pdpt)))
        (address_to_page_map_indices va).pd)) :
    PageMap.unset st va =
      some { st with machine := { st.machine with
        mem := writeMem st.machine.mem
          (Entry.address (tableGet (readMem st.machine.mem
            (Entry.address (tableGet (readMem st.machine.mem
              (Entry.address (tableGet (readMem st.machine.mem st.pm.address)
                (address_to_page_map_indices va).pml4)))
              (address_to_page_map_indices va).pdpt)))
            (address_to_page_map_indices va).pd))
          ((readMem st.machine.mem
            (Entry.address (tableGet (readMem st.machine.mem
              (Entry.address (tableGet (readMem st.machine.mem
                (Entry.address (tableGet (readMem st.machine.mem st.pm.address)
                  (address_to_page_map_indices va).pml4)))
                (address_to_page_map_indices va).pdpt)))
              (address_to_page_map_indices va).pd))).set
            (address_to_page_map_indices va).pt PTE.unset) } } := by
  simp only [PageMap.unset]
  rw [if_neg (not_not_intro ha), if_neg (not_not_intro p4),
    if_neg (not_not_intro p3), if_neg (not_not_intro p2)]

/-- C6: `unset(va)` is idempotent — a second call on the same page-aligned
address yields the same state as one call — and when any intermediate level on
the walk path of `va` is non-present it changes nothing; otherwise it sets the
leaf entry to the all-zero, non-present value. -/
theorem unset_idempotent_noop_clears (st st' : PagingState) (va : Nat)
    (h : PageMap.unset st va = some st') :
    PageMap.unset st' va = some st' ∧
    (ptPage st va = none → st' = st) ∧
    (∀ p, ptPage st va = some p →
      tableGet (readMem st'.machine.mem p) (address_to_page_map_indices va).pt = 0 ∧
      Entry.present 0 = false) := by
  by_cases ha : va &&& not64 0xfff = va
  case neg =>
    simp only [PageMap.unset] at h
    rw [if_pos ha] at h
    exact absurd h (by simp)
  case pos =>
  by_cases p4 : Entry.present (tableGet (readMem st.machine.mem st.pm.address) (address_to_page_map_indices va).pml4)
  case neg =>
    have h1 := unset_noop_1 ha p4
    rw [h1] at h
    obtain rfl : st = st' := Option.some.inj h
    refine ⟨h1, fun _ => rfl, ?_⟩
    intro p hp
    have hn : ptPage st va = none := by
      simp [ptPage, nodeAt, childAt, entryAt, p4]
    rw [hn] at hp
    exact absurd hp (by simp)
  case pos =>
  by_cases p3 : Entry.present (tableGet (readMem st.machine.mem (Entry.address (tableGet (readMem st.machine.mem st.pm.address) (address_to_page_map_indices va).pml4))) (address_to_page_map_indices va).pdpt)
  case neg =>
    have h1 := unset_noop_2 ha p4 p3
    rw [h1] at h
    obtain rfl : st = st' := Option.some.inj h
    refine ⟨h1, fun _ => rfl, ?_⟩
    intro p hp
    have hn : ptPage st va = none := by
      simp [ptPage, nodeAt, childAt, entryAt, p4, p3]
    rw [hn] at hp
    exact absurd hp (by simp)
  case pos =>
  by_cases p2 : Entry.present (tableGet (readMem st.machine.mem (Entry.address (tableGet (readMem st.machine.mem (Entry.address (tableGet (readMem st.machine.mem st.pm.address) (address_to_page_map_indices va).pml4))) (address_to_page_map_indices va).pdpt))) (address_to_page_map_indices va).pd)
  case neg =>
    have h1 := unset_noop_3 ha p4 p3 p2
    rw [h1] at h
    obtain rfl : st = st' := Option.some.inj h
    refine ⟨h1, fun _ => rfl, ?_⟩
    intro p hp
    have hn : ptPage st va = none := by
      simp [ptPage, nodeAt, childAt, entryAt, p4, p3, p2]
    rw [hn] at hp
    exact absurd hp (by simp)
  case pos =>
    have hw := unset_write ha p4 p3 p2
    rw [h] at hw
    have hst : st' = _ := Option.some.inj hw
    have hmem : st'.machine.mem = writeMem st.machine.mem (Entry.address (tableGet (readMem st.machine.mem (Entry.address (tableGet (readMem st.machine.mem (Entry.address (tableGet (readMem st.machine.mem st.pm.address) (address_to_page_map_indices va).pml4))) (address_to_page_map_indices va).pdpt))) (address_to_page_map_indices va).pd)) ((readMem st.machine.mem (Entry.address (tableGet (readMem st.machine.mem (Entry.address (tableGet (readMem st.machine.mem (Entry.address (tableGet (readMem st.machine.mem st.pm.address) (address_to_page_map_indices va).pml4))) (address_to_page_map_indices va).pdpt))) (address_to_page_map_indices va).pd))).set (address_to_page_map_indices va).pt PTE.unset) := by rw [hst]
    have hpm : st'.pm.address = st.pm.address := by rw [hst]
    have hpt : ptPage st va = some (Entry.address (tableGet (readMem st.machine.mem (Entry.address (tableGet (readMem st.machine.mem (Entry.address (tableGet (readMem st.machine.mem st.pm.address) (address_to_page_map_indices va).pml4))) (address_to_page_map_indices va).pdpt))) (address_to_page_map_indices va).pd)) := by
      simp [ptPage, nodeAt, childAt, entryAt, p4, p3, p2]
    have hF4 : tableGet (readMem st'.machine.mem st'.pm.address) (address_to_page_map_indices va).pml4 = tableGet (readMem st.machine.mem st.pm.address) (address_to_page_map_indices va).pml4 ∨ tableGet (readMem st'.machine.mem st'.pm.address) (address_to_page_map_indices va).pml4 = 0 := by
      rw [hpm, hmem]
      by_cases hq4 : st.pm.address = Entry.address (tableGet (readMem st.machine.mem (Entry.address (tableGet (readMem st.machine.mem (Entry.address (tableGet (readMem st.machine.mem st.pm.address) (address_to_page_map_indices va).pml4))) (address_to_page_map_indices va).pdpt))) (address_to_page_map_indices va).pd)
      · have hre : readMem (writeMem st.machine.mem (Entry.address (tableGet (readMem st.machine.mem (Entry.address (tableGet (readMem st.machine.mem (Entry.address (tableGet (readMem st.machine.mem st.pm.address) (address_to_page_map_indices va).pml4))) (address_to_page_map_indices va).pdpt))) (address_to_page_map_indices va).pd)) ((readMem st.machine.mem (Entry.address (tableGet (readMem st.machine.mem (Entry.address (tableGet (readMem st.machine.mem (Entry.address (tableGet (readMem st.machine.mem st.pm.address) (address_to_page_map_indices va).pml4))) (address_to_page_map_indices va).pdpt))) (address_to_page_map_indices va).pd))).set (address_to_page_map_indices va).pt PTE.unset)) st.pm.address = (readMem st.machine.mem (Entry.address (tableGet (readMem st.machine.mem (Entry.address (tableGet (readMem st.machine.mem (Entry.address (tableGet (readMem st.machine.mem st.pm.address) (address_to_page_map_indices va).pml4))) (address_to_page_map_indices va).pdpt))) (address_to_page_map_indices va).pd))).set (address_to_page_map_indices va).pt PTE.unset := by
          rw [← hq4]
          exact readMem_writeMem_self _ _ _
        rw [hre]
        by_cases hi4 : (address_to_page_map_indices va).pt = (address_to_page_map_indices va).pml4
        · right
          rw [← hi4, show PTE.unset = (0 : Nat) from rfl]
          exact tableGet_set_zero _ _
        · left
          rw [tableGet_set_ne hi4, ← hq4]
      · left
        rw [readMem_writeMem_ne _ _ hq4]
    have hF3 : ∀ hF4e : tableGet (readMem st'.machine.mem st'.pm.address) (address_to_page_map_indices va).pml4 = tableGet (readMem st.machine.mem st.pm.address) (address_to_page_map_indices va).pml4,
        tableGet (readMem st'.machine.mem (Entry.address (tableGet (readMem st.machine.mem st.pm.address) (address_to_page_map_indices va).pml4))) (address_to_page_map_indices va).pdpt = tableGet (readMem st.machine.mem (Entry.address (tableGet (readMem st.machine.mem st.pm.address) (address_to_page_map_indices va).pml4))) (address_to_page_map_indices va).pdpt ∨
        tableGet (readMem st'.machine.mem (Entry.address (tableGet (readMem st.machine.mem st.pm.address) (address_to_page_map_indices va).pml4))) (address_to_page_map_indices va).pdpt = 0 := by
      intro hF4e
      rw [hmem]
      by_cases hq3 : (Entry.address (tableGet (readMem st.machine.mem st.pm.address) (address_to_page_map_indices va).pml4)) = Entry.address (tableGet (readMem st.machine.mem (Entry.address (tableGet (readMem st.machine.mem (Entry.address (tableGet (readMem st.machine.mem st.pm.address) (address_to_page_map_indices va).pml4))) (address_to_page_map_indices va).pdpt))) (address_to_page_map_indices va).pd)
      · have hre : readMem (writeMem st.machine.mem (Entry.address (tableGet (readMem st.machine.mem (Entry.address (tableGet (readMem st.machine.mem (Entry.address (tableGet (readMem st.machine.mem st.pm.address) (address_to_page_map_indices va).pml4))) (address_to_page_map_indices va).pdpt))) (address_to_page_map_indices va).pd)) ((readMem st.machine.mem (Entry.address (tableGet (readMem st.machine.mem (Entry.address (tableGet (readMem st.machine.mem (Entry.address (tableGet (readMem st.machine.mem st.pm.address) (address_to_page_map_indices va).pml4))) (address_to_page_map_indices va).pdpt))) (address_to_page_map_indices va).pd))).set (address_to_page_map_indices va).pt PTE.unset)) (Entry.address (tableGet (readMem st.machine.mem st.pm.address) (address_to_page_map_indices va).pml4)) = (readMem st.machine.mem (Entry.address (tableGet (readMem st.machine.mem (Entry.address (tableGet (readMem st.machine.mem (Entry.address (tableGet (readMem st.machine.mem st.pm.address) (address_to_page_map_indices va).pml4))) (address_to_page_map_indices va).pdpt))) (address_to_page_map_indices va).pd))).set (address_to_page_map_indices va).pt PTE.unset := by
          rw [← hq3]
          exact readMem_writeMem_self _ _ _
        rw [hre]
        by_cases hi3 : (address_to_page_map_indices va).pt = (address_to_page_map_indices va).pdpt
        · right
          rw [← hi3, show PTE.unset = (0 : Nat) from rfl]
          exact tableGet_set_zero _ _
        · left
          rw [tableGet_set_ne hi3, ← hq3]
      · left
        rw [readMem_writeMem_ne _ _ hq3]
    have hF2 : tableGet (readMem st'.machine.mem (Entry.address (tableGet (readMem st.machine.mem (Entry.address (tableGet (readMem st.machine.mem st.pm.address) (address_to_page_map_indices va).pml4))) (address_to_page_map_indices va).pdpt))) (address_to_page_map_indices va).pd = tableGet (readMem st.machine.mem (Entry.address (tableGet (readMem st.machine.mem (Entry.address (tableGet (readMem st.machine.mem st.pm.address) (address_to_page_map_indices va).pml4))) (address_to_page_map_indices va).pdpt))) (address_to_page_map_indices va).pd ∨
        tableGet (readMem st'.machine.mem (Entry.address (tableGet (readMem st.machine.mem (Entry.address (tableGet (readMem st.machine.mem st.pm.address) (address_to_page_map_indices va).pml4))) (address_to_page_map_indices va).pdpt))) (address_to_page_map_indices va).pd = 0 := by
      rw [hmem]
      by_cases hq2 : (Entry.address (tableGet (readMem st.machine.mem (Entry.address (tableGet (readMem st.machine.mem st.pm.address) (address_to_page_map_indices va).pml4))) (address_to_page_map_indices va).pdpt)) = Entry.address (tableGet (readMem st.machine.mem (Entry.address (tableGet (readMem st.machine.mem (Entry.address (tableGet (readMem st.machine.mem st.pm.address) (address_to_page_map_indices va).pml4))) (address_to_page_map_indices va).pdpt))) (address_to_page_map_indices va).pd)
      · have hre : readMem (writeMem st.machine.mem (Entry.address (tableGet (readMem st.machine.mem (Entry.address (tableGet (readMem st.machine.mem (Entry.address (tableGet (readMem st.machine.mem st.pm.address) (address_to_page_map_indices va).pml4))) (address_to_page_map_indices va).pdpt))) (address_to_page_map_indices va).pd)) ((readMem st.machine.mem (Entry.address (tableGet (readMem st.machine.mem (Entry.address (tableGet (readMem st.machine.mem (Entry.address (tableGet (readMem st.machine.mem st.pm.address) (address_to_page_map_indices va).pml4))) (address_to_page_map_indices va).pdpt))) (address_to_page_map_indices va).pd))).set (address_to_page_map_indices va).pt PTE.unset)) (Entry.address (tableGet (readMem st.machine.mem (Entry.address (tableGet (readMem st.machine.mem st.pm.address) (address_to_page_map_indices va).pml4))) (address_to_page_map_indices va).pdpt)) = (readMem st.machine.mem (Entry.address (tableGet (readMem st.machine.mem (Entry.address (tableGet (readMem st.machine.mem (Entry.address (tableGet (readMem st.machine.mem st.pm.address) (address_to_page_map_indices va).pml4))) (address_to_page_map_indices va).pdpt))) (address_to_page_map_indices va).pd))).set (address_to_page_map_indices va).pt PTE.unset := by
          rw [← hq2]
          exact readMem_writeMem_self _ _ _
        rw [hre]
        by_cases hi2 : (address_to_page_map_indices va).pt = (address_to_page_map_indices va).pd
        · right
          rw [← hi2, show PTE.unset = (0 : Nat) from rfl]
          exact tableGet_set_zero _ _
        · left
          rw [tableGet_set_ne hi2, ← hq2]
      · left
        rw [readMem_writeMem_ne _ _ hq2]
    refine ⟨?_, ?_, ?_⟩
    · rcases hF4 with hF4e | hF4z
      case inr =>
        exact unset_noop_1 ha (by rw [hF4z]; simp [Entry.present_zero])
      case inl =>
      rcases hF3 hF4e with hF3e | hF3z
      case inr =>
        apply unset_noop_2 ha (by rw [hF4e]; exact p4)
        rw [hF4e, hF3z]
        simp [Entry.present_zero]
      case inl =>
      rcases hF2 with hF2e | hF2z
      case inr =>
        apply unset_noop_3 ha (by rw [hF4e]; exact p4)
          (by rw [hF4e]; exact hF3e ▸ p3)
        rw [hF4e, hF3e, hF2z]
        simp [Entry.present_zero]
      case inl =>
      have hw2 := @unset_write st' va ha
        (by rw [hF4e]; exact p4)
        (by rw [hF4e, hF3e]; exact p3)
        (by rw [hF4e, hF3e, hF2e]; exact p2)
      rw [hw2]
      have haddr : (Entry.address (tableGet (readMem st'.machine.mem (Entry.address (tableGet (readMem st'.machine.mem (Entry.address (tableGet (readMem st'.machine.mem st'.pm.address) (address_to_page_map_indices va).pml4))) (address_to_page_map_indices va).pdpt))) (address_to_page_map_indices va).pd)) = Entry.address (tableGet (readMem st.machine.mem (Entry.address (tableGet (readMem st.machine.mem (Entry.address (tableGet (readMem st.machine.mem st.pm.address) (address_to_page_map_indices va).pml4))) (address_to_page_map_indices va).pdpt))) (address_to_page_map_indices va).pd) := by rw [hF4e, hF3e, hF2e]
      have hreadp1 : readMem st'.machine.mem (Entry.address (tableGet (readMem st.machine.mem (Entry.address (tableGet (readMem st.machine.mem (Entry.address (tableGet (readMem st.machine.mem st.pm.address) (address_to_page_map_indices va).pml4))) (address_to_page_map_indices va).pdpt))) (address_to_page_map_indices va).pd)) = (readMem st.machine.mem (Entry.address (tableGet (readMem st.machine.mem (Entry.address (tableGet (readMem st.machine.mem (Entry.address (tableGet (readMem st.machine.mem st.pm.address) (address_to_page_map_indices va).pml4))) (address_to_page_map_indices va).pdpt))) (address_to_page_map_indices va).pd))).set (address_to_page_map_indices va).pt PTE.unset := by
        rw [hmem]
        exact readMem_writeMem_self _ _ _
      have hT1s : ((readMem st.machine.mem (Entry.address (tableGet (readMem st.machine.mem (Entry.address (tableGet (readMem st.machine.mem (Entry.address (tableGet (readMem st.machine.mem st.pm.address) (address_to_page_map_indices va).pml4))) (address_to_page_map_indices va).pdpt))) (address_to_page_map_indices va).pd))).set (address_to_page_map_indices va).pt PTE.unset).set (address_to_page_map_indices va).pt PTE.unset = (readMem st.machine.mem (Entry.address (tableGet (readMem st.machine.mem (Entry.address (tableGet (readMem st.machine.mem (Entry.address (tableGet (readMem st.machine.mem st.pm.address) (address_to_page_map_indices va).pml4))) (address_to_page_map_indices va).pdpt))) (address_to_page_map_indices va).pd))).set (address_to_page_map_indices va).pt PTE.unset :=
        List.set_set _ _ _ _
      have hwm : writeMem st'.machine.mem (Entry.address (tableGet (readMem st.machine.mem (Entry.address (tableGet (readMem st.machine.mem (Entry.address (tableGet (readMem st.machine.mem st.pm.address) (address_to_page_map_indices va).pml4))) (address_to_page_map_indices va).pdpt))) (address_to_page_map_indices va).pd)) ((readMem st.machine.mem (Entry.address (tableGet (readMem st.machine.mem (Entry.address (tableGet (readMem st.machine.mem (Entry.address (tableGet (readMem st.machine.mem st.pm.address) (address_to_page_map_indices va).pml4))) (address_to_page_map_indices va).pdpt))) (address_to_page_map_indices va).pd))).set (address_to_page_map_indices va).pt PTE.unset) = st'.machine.mem := by
        rw [hmem]
        exact writeMem_writeMem _ _ _ _
      have hrec : { st' with machine := { st'.machine with
          mem := writeMem st'.machine.mem (Entry.address (tableGet (readMem st'.machine.mem (Entry.address (tableGet (readMem st'.machine.mem (Entry.address (tableGet (readMem st'.machine.mem st'.pm.address) (address_to_page_map_indices va).pml4))) (address_to_page_map_indices va).pdpt))) (address_to_page_map_indices va).pd))
            ((readMem st'.machine.mem (Entry.address (tableGet (readMem st'.machine.mem (Entry.address (tableGet (readMem st'.machine.mem (Entry.address (tableGet (readMem st'.machine.mem st'.pm.address) (address_to_page_map_indices va).pml4))) (address_to_page_map_indices va).pdpt))) (address_to_page_map_indices va).pd))).set (address_to_page_map_indices va).pt PTE.unset) } } = st' := by
        rw [haddr, hreadp1, hT1s, hwm]
      rw [hrec]
    · intro hc
      rw [hpt] at hc
      exact absurd hc (by simp)
    · intro p hp
      rw [hpt] at hp
      obtain rfl : (Entry.address (tableGet (readMem st.machine.mem (Entry.address (tableGet (readMem st.machine.mem (Entry.address (tableGet (readMem st.machine.mem st.pm.address) (address_to_page_map_indices va).pml4))) (address_to_page_map_indices va).pdpt))) (address_to_page_map_indices va).pd)) = p := Option.some.inj hp
      refine ⟨?_, by decide⟩
      rw [hmem]
      have hre : readMem (writeMem st.machine.mem (Entry.address (tableGet (readMem st.machine.mem (Entry.address (tableGet (readMem st.machine.mem (Entry.address (tableGet (readMem st.machine.mem st.pm.address) (address_to_page_map_indices va).pml4))) (address_to_page_map_indices va).pdpt))) (address_to_page_map_indices va).pd)) ((readMem st.machine.mem (Entry.address (tableGet (readMem st.machine.mem (Entry.address (tableGet (readMem st.machine.mem (Entry.address (tableGet (readMem st.machine.mem st.pm.address) (address_to_page_map_indices va).pml4))) (address_to_page_map_indices va).pdpt))) (address_to_page_map_indices va).pd))).set (address_to_page_map_indices va).pt PTE.unset)) (Entry.address (tableGet (readMem st.machine.mem (Entry.address (tableGet (readMem st.machine.mem (Entry.address (tableGet (readMem st.machine.mem st.pm.address) (address_to_page_map_indices va).pml4))) (address_to_page_map_indices va).pdpt))) (address_to_page_map_indices va).pd)) = (readMem st.machine.mem (Entry.address (tableGet (readMem st.machine.mem (Entry.address (tableGet (readMem st.machine.mem (Entry.address (tableGet (readMem st.machine.mem st.pm.address) (address_to_page_map_indices va).pml4))) (address_to_page_map_indices va).pdpt))) (address_to_page_map_indices va).pd))).set (address_to_page_map_indices va).pt PTE.unset := readMem_writeMem_self _ _ _
      rw [hre, show PTE.unset = (0 : Nat) from rfl]
      exact tableGet_set_zero _ _

set_option maxRecDepth 10000 in
/-- Witness for `unset_idempotent_noop_clears` at the fresh page map and
address 0 (whose top-level entry is non-present). -/
theorem unset_idempotent_noop_clears_witness :
    PageMap.unset initState 0 = some initState ∧ initState = initState :=
  ⟨(unset_idempotent_noop_clears initState initState 0 (by decide)).1,
   (unset_idempotent_noop_clears initState initState 0 (by decide)).2.1
     (by decide)⟩

/-! Lemmas and claims about `PageMap::size`. -/

lemma sum_filter_map_range (n : Nat) (g : Nat → Nat) (p : Nat → Bool)
    (f : Nat → Nat) :
    ((((List.range n).map g).filter p).map f).sum =
      ∑ i ∈ Finset.range n, if p (g i) then f (g i) else 0 := by
  induction n with
  | zero => simp
  | succ n ih =>
    rw [List.range_succ, List.map_append, List.filter_append, List.map_append,
      List.sum_append, ih, Finset.sum_range_succ]
    by_cases hp : p (g n) <;> simp [List.filter, hp]

lemma length_filter_map_range (n : Nat) (g : Nat → Nat) (p : Nat → Bool) :
    (((List.range n).map g).filter p).length =
      ∑ i ∈ Finset.range n, if p (g i) then 1 else 0 := by
  induction n with
  | zero => simp
  | succ n ih =>
    rw [List.range_succ, List.map_append, List.filter_append,
      List.length_append, ih, Finset.sum_range_succ]
    by_cases hp : p (g n) <;> simp [List.filter, hp]

lemma ite_sum_zero {c : Prop} [Decidable c] (s : Finset Nat) (f : Nat → Nat) :
    (if c then ∑ i ∈ s, f i else 0) = ∑ i ∈ s, if c then f i else 0 := by
  by_cases h : c <;> simp [h]

set_option maxRecDepth 4000 in
set_option maxHeartbeats 2000000 in
lemma size_eq_count (st : PagingState) :
    PageMap.size st = PageMap.PAGE_SIZE * presentLeafCount st := by
  classical
  rw [presentLeafCount, Finset.card_filter, Finset.sum_product]
  simp only [Finset.sum_product, Finset.mul_sum, mul_ite, mul_one, mul_zero]
  simp only [PageMap.size, tableEntries, sum_filter_map_range,
    length_filter_map_range, Finset.sum_mul, ite_mul, one_mul, zero_mul,
    ite_sum_zero]
  apply Finset.sum_congr rfl
  intro i4 _
  apply Finset.sum_congr rfl
  intro i3 _
  apply Finset.sum_congr rfl
  intro i2 _
  apply Finset.sum_congr rfl
  intro i1 _
  by_cases p4 : Entry.present (tableGet (readMem st.machine.mem st.pm.address) i4) <;>
    by_cases p3 : Entry.present (tableGet (readMem st.machine.mem
      (Entry.address (tableGet (readMem st.machine.mem st.pm.address) i4))) i3) <;>
    by_cases p2 : Entry.present (tableGet (readMem st.machine.mem
      (Entry.address (tableGet (readMem st.machine.mem
        (Entry.address (tableGet (readMem st.machine.mem st.pm.address) i4)))
        i3))) i2) <;>
    by_cases p1 : Entry.present (tableGet (readMem st.machine.mem
      (Entry.address (tableGet (readMem st.machine.mem
        (Entry.address (tableGet (readMem st.machine.mem
          (Entry.address (tableGet (readMem st.machine.mem st.pm.address)
            i4))) i3))) i2))) i1) <;>
    simp [leafReachable, entryAt, p4, p3, p2, p1]

/-- C5: after any finite sequence of `set`/`unset` operations on a fresh page
map, `size()` returns the page size (4096) times the number of present
fourth-level leaf entries reachable through present entries from the root
table. -/
theorem size_counts_present_leaves (ops : List Op) (st : PagingState)
    (h : applyOps ops initState = some st) :
    PageMap.size st = PageMap.PAGE_SIZE * presentLeafCount st :=
  size_eq_count st

/-- Witness for `size_counts_present_leaves` at the empty operation
sequence. -/
theorem size_counts_present_leaves_witness :
    PageMap.size initState = PageMap.PAGE_SIZE * presentLeafCount initState :=
  size_counts_present_leaves [] initState rfl

/-! Infrastructure for reasoning about `PageMap::set`: a well-formedness
invariant for page-map states, and characterisation lemmas for one level of
the walk. -/

/-- Well-formedness of a page-map state: the bump allocator is page-aligned
and within the physical address range accepted by the entry constructors, all
tables have 512 entries holding 64-bit values, every table page of the tree
lies below the allocation frontier, and distinct walk paths reach distinct
table pages. -/
def WF (st : PagingState) : Prop :=
  st.machine.next % 4096 = 0 ∧
  st.machine.next ≤ 2 ^ 51 ∧
  (∀ p, (readMem st.machine.mem p).length = 512) ∧
  (∀ p i, tableGet (readMem st.machine.mem p) i < 2 ^ 64) ∧
  (∀ ρ a, ρ.length ≤ 3 → nodeAt st ρ = some a → a < st.machine.next) ∧
  (∀ ρ σ a, ρ.length ≤ 3 → σ.length ≤ 3 →
    nodeAt st ρ = some a → nodeAt st σ = some a → ρ = σ)

lemma length_readMem_write {mem : List (Nat × Table)}
    (h : ∀ p, (readMem mem p).length = 512) {q : Nat} {t : Table}
    (ht : t.length = 512) :
    ∀ p, (readMem (writeMem mem q t) p).length = 512 := by
  intro p
  by_cases hp : p = q
  · subst hp
    rw [readMem_writeMem_self]
    exact ht
  · rw [readMem_writeMem_ne _ _ hp]
    exact h p

lemma bound_readMem_write {mem : List (Nat × Table)}
    (h : ∀ p i, tableGet (readMem mem p) i < 2 ^ 64) {q : Nat} {t : Table}
    (ht : ∀ i, tableGet t i < 2 ^ 64) :
    ∀ p i, tableGet (readMem (writeMem mem q t) p) i < 2 ^ 64 := by
  intro p i
  by_cases hp : p = q
  · subst hp
    rw [readMem_writeMem_self]
    exact ht i
  · rw [readMem_writeMem_ne _ _ hp]
    exact h p i

lemma tableGet_set_bound {t : Table} {v : Nat}
    (h : ∀ j, tableGet t j < 2 ^ 64) (hv : v < 2 ^ 64) {i : Nat} :
    ∀ j, tableGet (t.set i v) j < 2 ^ 64 := by
  intro j
  by_cases hj : i = j
  · subst hj
    by_cases hl : i < t.length
    · rw [tableGet_set_self hl]
      exact hv
    · rw [List.set_eq_of_length_le (by omega)]
      exact h i
  · rw [tableGet_set_ne hj]
    exact h j

lemma tableGet_zeroTable_bound : ∀ j, tableGet zeroTable j < 2 ^ 64 := by
  intro j
  rw [tableGet_zeroTable]
  norm_num

lemma Entry.present_eq_false {e : Nat} (h : ¬ Entry.present e = true) :
    Entry.present e = false := by
  cases he : Entry.present e
  · rfl
  · exact absurd he h

/-- Evaluation of `ensureEntry` when the entry is already present: the entry
is widened in place and no page is allocated. -/
lemma ensureEntry_present {m : Machine} {page idx : Nat} {w x : Bool}
    {mk : Nat → Except EntryError Nat}
    (hp : Entry.present (tableGet (readMem m.mem page) idx)) :
    ensureEntry m page idx w x mk =
      some ({ m with mem := writeMem m.mem page
                        ((readMem m.mem page).set idx
                          (Entry.widen (tableGet (readMem m.mem page) idx) w x)) },
            Entry.widen (tableGet (readMem m.mem page) idx) w x) := by
  simp only [ensureEntry]
  rw [if_pos hp]

/-- Evaluation of `ensureEntry` when the entry is absent and the constructor
succeeds: a fresh zeroed page is allocated at `m.next` and a new, widened
entry for it is stored. -/
lemma ensureEntry_absent {m : Machine} {page idx : Nat} {w x : Bool}
    {mk : Nat → Except EntryError Nat} {e₀ : Nat}
    (hp : ¬ Entry.present (tableGet (readMem m.mem page) idx))
    (hmk : mk m.next = .ok e₀) :
    ensureEntry m page idx w x mk =
      some ({ mem := writeMem (writeMem m.mem m.next zeroTable) page
                       ((readMem (writeMem m.mem m.next zeroTable) page).set idx
                         (Entry.widen e₀ w x)),
              next := m.next + 1 * 4096 },
            Entry.widen e₀ w x) := by
  simp only [ensureEntry, Machine.allocPages]
  rw [if_neg hp, hmk]

/-- Evaluation of `ensureEntry` when the entry is absent and the constructor
fails (a panicking assert). -/
lemma ensureEntry_absent_err {m : Machine} {page idx : Nat} {w x : Bool}
    {mk : Nat → Except EntryError Nat} {er : EntryError}
    (hp : ¬ Entry.present (tableGet (readMem m.mem page) idx))
    (hmk : mk m.next = .error er) :
    ensureEntry m page idx w x mk = none := by
  simp only [ensureEntry, Machine.allocPages]
  rw [if_neg hp, hmk]

/-- Widening a present entry in place changes no node of the walk tree: the
entry stays present and keeps its child address. -/
lemma nodeAt_frame_widen {st st' : PagingState} {P idx : Nat} {w x : Bool}
    (hpm : st'.pm.address = st.pm.address)
    (hmem : st'.machine.mem = writeMem st.machine.mem P
      ((readMem st.machine.mem P).set idx
        (Entry.widen (tableGet (readMem st.machine.mem P) idx) w x)))
    (hbound : ∀ p i, tableGet (readMem st.machine.mem p) i < 2 ^ 64) :
    ∀ ρ, ρ.length ≤ 3 → nodeAt st' ρ = nodeAt st ρ := by
  intro ρ
  induction ρ with
  | nil =>
    intro _
    simp [nodeAt, hpm]
  | cons j rest ih =>
    intro hlen
    simp only [nodeAt]
    rw [ih (by simp at hlen ⊢; omega)]
    cases hn : nodeAt st rest with
    | none => rfl
    | some p =>
      simp only [childAt, entryAt, hmem]
      by_cases hp : p = P
      · subst hp
        rw [readMem_writeMem_self]
        by_cases hj : idx = j
        · subst hj
          by_cases hl : idx < (readMem st.machine.mem p).length
          · rw [tableGet_set_self hl]
            rw [Entry.widen_present (hbound p idx) w x,
              Entry.widen_address (hbound p idx) w x]
          · rw [List.set_eq_of_length_le (by omega)]
        · rw [tableGet_set_ne hj]
      · rw [readMem_writeMem_ne _ _ hp]

/-- Writing a table at a page that no walk path of length at most 2 reaches
changes no node of the walk tree. -/
lemma nodeAt_frame_offtree {st st' : PagingState} {Q : Nat} {t : Table}
    (hpm : st'.pm.address = st.pm.address)
    (hmem : st'.machine.mem = writeMem st.machine.mem Q t)
    (hnot : ∀ ρ, ρ.length ≤ 2 → nodeAt st ρ ≠ some Q) :
    ∀ ρ, ρ.length ≤ 3 → nodeAt st' ρ = nodeAt st ρ := by
  intro ρ
  induction ρ with
  | nil =>
    intro _
    simp [nodeAt, hpm]
  | cons j rest ih =>
    intro hlen
    simp only [nodeAt]
    rw [ih (by simp at hlen ⊢; omega)]
    cases hn : nodeAt st rest with
    | none => rfl
    | some p =>
      simp only [childAt, entryAt, hmem]
      have hp : p ≠ Q := by
        intro hc
        exact hnot rest (by simp at hlen ⊢; omega) (hc ▸ hn)
      rw [readMem_writeMem_ne _ _ hp]

/-- Creating a fresh entry at a non-present slot adds exactly one node to the
walk tree: the path extending the written slot now reaches the fresh page,
and every other path is unchanged. -/
lemma nodeAt_frame_create {st st' : PagingState} {π : List Nat}
    {P idx fresh e' : Nat}
    (hpm : st'.pm.address = st.pm.address)
    (hmem : st'.machine.mem = writeMem st.machine.mem P
      ((readMem st.machine.mem P).set idx e'))
    (hπ : nodeAt st π = some P) (hπlen : π.length ≤ 2)
    (hinj : ∀ ρ σ a, ρ.length ≤ 3 → σ.length ≤ 3 →
      nodeAt st ρ = some a → nodeAt st σ = some a → ρ = σ)
    (habs : ¬ Entry.present (tableGet (readMem st.machine.mem P) idx))
    (hpres : Entry.present e') (haddr : Entry.address e' = fresh)
    (hPfresh : P ≠ fresh)
    (hfreshzero : readMem st.machine.mem fresh = zeroTable)
    (hlen : (readMem st.machine.mem P).length = 512) (hidx : idx < 512) :
    ∀ ρ, ρ.length ≤ 3 →
      nodeAt st' ρ = if ρ = idx :: π then some fresh else nodeAt st ρ := by
  intro ρ
  induction ρ with
  | nil =>
    intro _
    rw [if_neg (by simp)]
    simp [nodeAt, hpm]
  | cons j rest ih =>
    intro hlen3
    have hrestlen : rest.length ≤ 2 := by simp at hlen3; omega
    by_cases hρeq : j :: rest = idx :: π
    · injection hρeq with hj hr
      subst hj
      subst hr
      rw [if_pos rfl]
      simp only [nodeAt]
      rw [ih (by omega), if_neg (by
        intro hc
        have := congrArg List.length hc
        simp at this), hπ]
      show childAt st' P j = some fresh
      simp only [childAt, entryAt, hmem]
      rw [readMem_writeMem_self, tableGet_set_self (by rw [hlen]; exact hidx)]
      rw [if_pos hpres, haddr]
    · rw [if_neg hρeq]
      simp only [nodeAt]
      rw [ih (by omega)]
      by_cases hrest : rest = idx :: π
      · rw [if_pos hrest]
        have h2 : nodeAt st rest = none := by
          rw [hrest]
          simp only [nodeAt, hπ]
          simp only [childAt, entryAt]
          rw [if_neg habs]
        rw [h2]
        show childAt st' fresh j = none
        simp only [childAt, entryAt, hmem]
        rw [readMem_writeMem_ne _ _ (Ne.symm hPfresh), hfreshzero,
          tableGet_zeroTable]
        simp [Entry.present_zero]
      · rw [if_neg hrest]
        cases hn : nodeAt st rest with
        | none => rfl
        | some p =>
          show childAt st' p j = childAt st p j
          simp only [childAt, entryAt, hmem]
          by_cases hp : p = P
          · subst hp
            have hr : rest = π := hinj rest π p (by omega) (by omega) hn hπ
            have hj : j ≠ idx := fun hc => hρeq (by rw [hc, hr])
            rw [readMem_writeMem_self, tableGet_set_ne (Ne.symm hj)]
          · rw [readMem_writeMem_ne _ _ hp]

lemma Entry.widen_writable_of {e : Nat} (he : e < 2 ^ 64) {w : Bool} (x : Bool)
    (hw : w = true) : Entry.writable (Entry.widen e w x) = true := by
  rw [Entry.writable_eq_testBit, Entry.widen_testBit he, if_pos rfl, hw]
  simp

lemma Entry.widen_xd_of {e : Nat} (he : e < 2 ^ 64) (w : Bool) {x : Bool}
    (hx : x = true) : (Entry.widen e w x).testBit 63 = false := by
  rw [Entry.widen_testBit he]
  rw [if_neg (by norm_num), if_pos rfl, hx]
  simp

lemma Entry.widen_writable_mono {e : Nat} (he : e < 2 ^ 64) (w x : Bool)
    (h : Entry.writable e = true) : Entry.writable (Entry.widen e w x) = true := by
  rw [Entry.writable_eq_testBit, Entry.widen_testBit he, if_pos rfl]
  rw [Entry.writable_eq_testBit] at h
  simp [h]

lemma Entry.widen_xd_mono {e : Nat} (he : e < 2 ^ 64) (w x : Bool)
    (h : e.testBit 63 = false) : (Entry.widen e w x).testBit 63 = false := by
  rw [Entry.widen_testBit he, if_neg (by norm_num), if_pos rfl]
  simp [h]

lemma nodeAt_cons_present {st : PagingState} {π : List Nat} {P idx : Nat}
    (hπ : nodeAt st π = some P)
    (hp : Entry.present (tableGet (readMem st.machine.mem P) idx)) :
    nodeAt st (idx :: π) =
      some (Entry.address (tableGet (readMem st.machine.mem P) idx)) := by
  simp only [nodeAt, hπ]
  simp only [childAt, entryAt]
  rw [if_pos hp]

set_option maxRecDepth 8000 in
lemma ensure_spec {st : PagingState} {π : List Nat} {P idx : Nat} {w x : Bool}
    {m' : Machine} {e' : Nat} {mk : Nat → Except EntryError Nat}
    (hWF : WF st)
    (hπ : nodeAt st π = some P) (hπlen : π.length ≤ 2) (hidx : idx < 512)
    (hmk : ∀ a, mk a = Entry.new true a false false false false)
    (hE : ensureEntry st.machine P idx w x mk = some (m', e')) :
    WF { machine := m', pm := st.pm } ∧
    st.machine.next ≤ m'.next ∧
    Entry.present e' = true ∧ e' < 2 ^ 64 ∧
    (w = true → Entry.writable e' = true) ∧
    (x = true → e'.testBit 63 = false) ∧
    tableGet (readMem m'.mem P) idx = e' ∧
    (∀ j, j ≠ idx → tableGet (readMem m'.mem P) j =
      tableGet (readMem st.machine.mem P) j) ∧
    (∀ q, q ≠ P → q < st.machine.next →
      readMem m'.mem q = readMem st.machine.mem q) ∧
    nodeAt { machine := m', pm := st.pm } (idx :: π) = some (Entry.address e') ∧
    (∀ ρ, ρ.length ≤ 3 → ρ ≠ idx :: π →
      nodeAt { machine := m', pm := st.pm } ρ = nodeAt st ρ) ∧
    ((Entry.present (tableGet (readMem st.machine.mem P) idx) = true ∧
      e' = Entry.widen (tableGet (readMem st.machine.mem P) idx) w x ∧
      m'.next = st.machine.next) ∨
     (Entry.present (tableGet (readMem st.machine.mem P) idx) = false ∧
      Entry.address e' = st.machine.next ∧
      m'.next = st.machine.next + 4096)) := by
  obtain ⟨hal, hle, hlen512, hbound, hnode, hinj⟩ := hWF
  have hP : P < st.machine.next := hnode π P (by omega) hπ
  by_cases hpres : Entry.present (tableGet (readMem st.machine.mem P) idx)
  · rw [ensureEntry_present hpres] at hE
    obtain ⟨hm', he'⟩ := Prod.mk.inj (Option.some.inj hE)
    subst hm'
    subst he'
    have heb : tableGet (readMem st.machine.mem P) idx < 2 ^ 64 := hbound P idx
    have hfr : ∀ ρ, ρ.length ≤ 3 →
        nodeAt { machine := Machine.mk (writeMem st.machine.mem P ((readMem st.machine.mem P).set idx (Entry.widen (tableGet (readMem st.machine.mem P) idx) w x))) st.machine.next,
                  pm := st.pm } ρ = nodeAt st ρ :=
      nodeAt_frame_widen rfl rfl hbound
    have hlen' : ∀ p, (readMem (writeMem st.machine.mem P ((readMem st.machine.mem P).set idx (Entry.widen (tableGet (readMem st.machine.mem P) idx) w x))) p).length = 512 :=
      length_readMem_write hlen512 (by rw [List.length_set]; exact hlen512 P)
    have hbound' : ∀ p i, tableGet (readMem (writeMem st.machine.mem P ((readMem st.machine.mem P).set idx (Entry.widen (tableGet (readMem st.machine.mem P) idx) w x))) p) i < 2 ^ 64 :=
      bound_readMem_write hbound
        (tableGet_set_bound (fun j => hbound P j) (Entry.widen_lt heb w x))
    refine ⟨⟨hal, hle, hlen', hbound', ?_, ?_⟩, le_refl _,
      (Entry.widen_present heb w x).trans hpres, Entry.widen_lt heb w x,
      fun hw => Entry.widen_writable_of heb x hw,
      fun hx => Entry.widen_xd_of heb w hx, ?_, ?_, ?_, ?_, ?_,
      Or.inl ⟨hpres, rfl, rfl⟩⟩
    · intro ρ a hρ hn
      rw [hfr ρ hρ] at hn
      exact hnode ρ a hρ hn
    · intro ρ σ a hρ hσ h1 h2
      rw [hfr ρ hρ] at h1
      rw [hfr σ hσ] at h2
      exact hinj ρ σ a hρ hσ h1 h2
    · show tableGet (readMem (writeMem st.machine.mem P ((readMem st.machine.mem P).set idx (Entry.widen (tableGet (readMem st.machine.mem P) idx) w x))) P) idx = _
      rw [readMem_writeMem_self]
      exact tableGet_set_self (by rw [hlen512 P]; exact hidx) _
    · intro j hj
      show tableGet (readMem (writeMem st.machine.mem P ((readMem st.machine.mem P).set idx (Entry.widen (tableGet (readMem st.machine.mem P) idx) w x))) P) j = _
      rw [readMem_writeMem_self]
      exact tableGet_set_ne (fun hc => hj hc.symm) _
    · intro q hq _
      show readMem (writeMem st.machine.mem P ((readMem st.machine.mem P).set idx (Entry.widen (tableGet (readMem st.machine.mem P) idx) w x))) q = _
      exact readMem_writeMem_ne _ _ hq
    · rw [hfr (idx :: π) (by simp; omega), nodeAt_cons_present hπ hpres,
        Entry.widen_address heb w x]
    · intro ρ hρ _
      exact hfr ρ hρ
  · cases hmkres : Entry.new true st.machine.next false false false false with
    | error er =>
      rw [ensureEntry_absent_err hpres (by rw [hmk]; exact hmkres)] at hE
      exact absurd hE (by simp)
    | ok e₀ =>
      rw [ensureEntry_absent hpres (by rw [hmk]; exact hmkres)] at hE
      obtain ⟨hm', he'⟩ := Prod.mk.inj (Option.some.inj hE)
      subst hm'
      subst he'
      obtain ⟨hfal, hfrange, he₀⟩ := Entry.new_ok_elim hmkres
      have hfresh64 : st.machine.next < 2 ^ 64 :=
        lt_of_le_of_lt hle (by norm_num)
      have hfresh63 : st.machine.next < 2 ^ 63 :=
        lt_of_le_of_lt hle (by norm_num)
      have he₀lt : e₀ < 2 ^ 64 := he₀ ▸ Entry.newval_lt hfresh64
      have he₀pres : Entry.present e₀ = true := he₀ ▸ Entry.newval_present _ _ _
      have he₀addr : Entry.address e₀ = st.machine.next :=
        he₀ ▸ Entry.newval_address hfal hfresh63
      have hfreshlt : st.machine.next < 2 ^ 51 := by
        rcases Nat.lt_or_ge st.machine.next (2 ^ 51) with h | h
        · exact h
        · exfalso
          have hx51 : st.machine.next = 2 ^ 51 := le_antisymm hle h
          rw [hx51] at hfrange
          exact absurd hfrange (by decide)
      have hnext' : st.machine.next + 1 * 4096 ≤ 2 ^ 51 := by
        have h51 : (2 : Nat) ^ 51 = 2251799813685248 := by norm_num
        rw [h51] at hfreshlt ⊢
        omega
      have hPfresh : P ≠ st.machine.next := by omega
      have hfrA : ∀ ρ, ρ.length ≤ 3 →
          nodeAt { machine := Machine.mk (writeMem st.machine.mem st.machine.next zeroTable) st.machine.next,
                    pm := st.pm } ρ = nodeAt st ρ := by
        apply nodeAt_frame_offtree (Q := st.machine.next) (t := zeroTable)
        · rfl
        · rfl
        · intro ρ hρ hc
          have := hnode ρ st.machine.next (by omega) hc
          omega
      have hreadA : ∀ q, q ≠ st.machine.next →
          readMem (writeMem st.machine.mem st.machine.next zeroTable) q = readMem st.machine.mem q := fun q hq =>
        readMem_writeMem_ne _ _ hq
      have hreadP : readMem (writeMem st.machine.mem st.machine.next zeroTable) P = readMem st.machine.mem P :=
        hreadA P hPfresh
      have hfr : ∀ ρ, ρ.length ≤ 3 →
          nodeAt { machine := Machine.mk (writeMem (writeMem st.machine.mem st.machine.next zeroTable) P ((readMem (writeMem st.machine.mem st.machine.next zeroTable) P).set idx (Entry.widen e₀ w x))) (st.machine.next + 1 * 4096),
                    pm := st.pm } ρ =
          if ρ = idx :: π then some st.machine.next else nodeAt st ρ := by
        intro ρ hρ
        have h1 := @nodeAt_frame_create
          { machine := Machine.mk (writeMem st.machine.mem st.machine.next zeroTable) st.machine.next,
             pm := st.pm }
          { machine := Machine.mk (writeMem (writeMem st.machine.mem st.machine.next zeroTable) P ((readMem (writeMem st.machine.mem st.machine.next zeroTable) P).set idx (Entry.widen e₀ w x))) (st.machine.next + 1 * 4096),
             pm := st.pm }
          π P idx st.machine.next (Entry.widen e₀ w x) rfl rfl
          (by rw [hfrA π (by omega)]; exact hπ) hπlen
          (by
            intro ρ₁ σ₁ a h₁ h₂ h₃ h₄
            rw [hfrA ρ₁ h₁] at h₃
            rw [hfrA σ₁ h₂] at h₄
            exact hinj ρ₁ σ₁ a h₁ h₂ h₃ h₄)
          (by rw [show readMem (writeMem st.machine.mem st.machine.next zeroTable) P = readMem st.machine.mem P from hreadP]
              exact hpres)
          ((Entry.widen_present he₀lt w x).trans he₀pres)
          (by rw [Entry.widen_address he₀lt w x]; exact he₀addr)
          hPfresh
          (readMem_writeMem_self _ _ _)
          (by rw [show readMem (writeMem st.machine.mem st.machine.next zeroTable) P = readMem st.machine.mem P from hreadP]
              exact hlen512 P)
          hidx ρ hρ
        rw [h1]
        by_cases hρeq : ρ = idx :: π
        · rw [if_pos hρeq, if_pos hρeq]
        · rw [if_neg hρeq, if_neg hρeq, hfrA ρ hρ]
      have hlen' : ∀ p, (readMem (writeMem (writeMem st.machine.mem st.machine.next zeroTable) P ((readMem (writeMem st.machine.mem st.machine.next zeroTable) P).set idx (Entry.widen e₀ w x))) p).length = 512 := by
        apply length_readMem_write
        · exact length_readMem_write hlen512 (by simp [zeroTable])
        · rw [List.length_set, hreadP]
          exact hlen512 P
      have hbound' : ∀ p i, tableGet (readMem (writeMem (writeMem st.machine.mem st.machine.next zeroTable) P ((readMem (writeMem st.machine.mem st.machine.next zeroTable) P).set idx (Entry.widen e₀ w x))) p) i < 2 ^ 64 := by
        apply bound_readMem_write
        · exact bound_readMem_write hbound tableGet_zeroTable_bound
        · rw [hreadP]
          exact tableGet_set_bound (fun j => hbound P j)
            (Entry.widen_lt he₀lt w x)
      refine ⟨⟨(by
          show (st.machine.next + 1 * 4096) % 4096 = 0
          omega), hnext', hlen', hbound', ?_, ?_⟩, (by
          show st.machine.next ≤ st.machine.next + 1 * 4096
          omega),
        (Entry.widen_present he₀lt w x).trans he₀pres, Entry.widen_lt he₀lt w x,
        fun hw => Entry.widen_writable_of he₀lt x hw,
        fun hx => Entry.widen_xd_of he₀lt w hx, ?_, ?_, ?_, ?_, ?_,
        Or.inr ⟨Entry.present_eq_false hpres, (by
          rw [Entry.widen_address he₀lt w x]
          exact he₀addr), rfl⟩⟩
      · intro ρ a hρ hn
        rw [hfr ρ hρ] at hn
        by_cases hρeq : ρ = idx :: π
        · rw [if_pos hρeq] at hn
          have ha : a = st.machine.next := (Option.some.inj hn).symm
          show a < st.machine.next + 1 * 4096
          omega
        · rw [if_neg hρeq] at hn
          have := hnode ρ a hρ hn
          show a < st.machine.next + 1 * 4096
          omega
      · intro ρ σ a hρ hσ h1 h2
        rw [hfr ρ hρ] at h1
        rw [hfr σ hσ] at h2
        by_cases hρeq : ρ = idx :: π <;> by_cases hσeq : σ = idx :: π
        · rw [hρeq, hσeq]
        · rw [if_pos hρeq] at h1
          rw [if_neg hσeq] at h2
          have ha : a = st.machine.next := (Option.some.inj h1).symm
          have := hnode σ a hσ h2
          omega
        · rw [if_neg hρeq] at h1
          rw [if_pos hσeq] at h2
          have ha : a = st.machine.next := (Option.some.inj h2).symm
          have := hnode ρ a hρ h1
          omega
        · rw [if_neg hρeq] at h1
          rw [if_neg hσeq] at h2
          exact hinj ρ σ a hρ hσ h1 h2
      · show tableGet (readMem (writeMem (writeMem st.machine.mem st.machine.next zeroTable) P ((readMem (writeMem st.machine.mem st.machine.next zeroTable) P).set idx (Entry.widen e₀ w x))) P) idx = _
        rw [readMem_writeMem_self]
        exact tableGet_set_self (by rw [hreadP, hlen512 P]; exact hidx) _
      · intro j hj
        show tableGet (readMem (writeMem (writeMem st.machine.mem st.machine.next zeroTable) P ((readMem (writeMem st.machine.mem st.machine.next zeroTable) P).set idx (Entry.widen e₀ w x))) P) j = _
        rw [readMem_writeMem_self, tableGet_set_ne (fun hc => hj hc.symm),
          hreadP]
      · intro q hq hqlt
        show readMem (writeMem (writeMem st.machine.mem st.machine.next zeroTable) P ((readMem (writeMem st.machine.mem st.machine.next zeroTable) P).set idx (Entry.widen e₀ w x))) q = _
        rw [readMem_writeMem_ne _ _ hq, hreadA q (by omega)]
      · rw [hfr (idx :: π) (by simp; omega), if_pos rfl,
          Entry.widen_address he₀lt w x, he₀addr]
      · intro ρ hρ hρne
        rw [hfr ρ hρ, if_neg hρne]

/-- Successful `PageMap::set` decomposed into its source-level stages: the two
alignment asserts, the three `ensureEntry` walks, the leaf `PTE::new`, and the
final leaf-table write. -/
lemma set_elim {st st' : PagingState} {va pa : Nat} {flags : PageMapFlags}
    (hset : PageMap.set st va pa flags = some st') :
    va &&& not64 0xfff = va ∧ pa &&& not64 0xfff = pa ∧
    ∃ m₄ e₄ m₃ e₃ m₂ e₂ leaf,
      ensureEntry st.machine st.pm.address (address_to_page_map_indices va).pml4
        flags.writeable flags.executable
        (fun a => PML4E.new true a false false false false) = some (m₄, e₄) ∧
      ensureEntry m₄ (Entry.address e₄) (address_to_page_map_indices va).pdpt
        flags.writeable flags.executable
        (fun a => PDPTE.new true a false false false false) = some (m₃, e₃) ∧
      ensureEntry m₃ (Entry.address e₃) (address_to_page_map_indices va).pd
        flags.writeable flags.executable
        (fun a => PDE.new true a false false false false) = some (m₂, e₂) ∧
      PTE.new (!flags.executable) pa false false false flags.writeable = .ok leaf ∧
      st' = { machine := Machine.mk
                (writeMem m₂.mem (Entry.address e₂)
                  ((readMem m₂.mem (Entry.address e₂)).set
                    (address_to_page_map_indices va).pt leaf)) m₂.next,
              pm := st.pm } := by
  simp only [PageMap.set] at hset
  split at hset
  · exact absurd hset (by simp)
  next h1 =>
  split at hset
  · exact absurd hset (by simp)
  next h2 =>
  cases hE4 : ensureEntry st.machine st.pm.address
      (address_to_page_map_indices va).pml4 flags.writeable flags.executable
      (fun a => PML4E.new true a false false false false) with
  | none => rw [hE4] at hset; simp at hset
  | some me₄ =>
    simp only [hE4] at hset
    split at hset
    · exact absurd hset (by simp)
    next hp4 =>
    cases hE3 : ensureEntry me₄.fst (Entry.address me₄.snd)
        (address_to_page_map_indices va).pdpt flags.writeable flags.executable
        (fun a => PDPTE.new true a false false false false) with
    | none => rw [hE3] at hset; simp at hset
    | some me₃ =>
      simp only [hE3] at hset
      split at hset
      · exact absurd hset (by simp)
      next hp3 =>
      cases hE2 : ensureEntry me₃.fst (Entry.address me₃.snd)
          (address_to_page_map_indices va).pd flags.writeable flags.executable
          (fun a => PDE.new true a false false false false) with
      | none => rw [hE2] at hset; simp at hset
      | some me₂ =>
        simp only [hE2] at hset
        split at hset
        · exact absurd hset (by simp)
        next hp2 =>
        cases hL : PTE.new (!flags.executable) pa false false false
            flags.writeable with
        | error er => rw [hL] at hset; simp at hset
        | ok leaf =>
          simp only [hL] at hset
          obtain ⟨m₄, e₄⟩ := me₄
          obtain ⟨m₃, e₃⟩ := me₃
          obtain ⟨m₂, e₂⟩ := me₂
          exact ⟨not_not.mp h1, not_not.mp h2, m₄, e₄, m₃, e₃, m₂, e₂, leaf,
            rfl, hE3, hE2, rfl, (Option.some.inj hset).symm⟩

/-- A present `childAt` result exposes the entry's present bit and address. -/
lemma childAt_some_elim {st : PagingState} {p i a : Nat}
    (h : childAt st p i = some a) :
    Entry.present (entryAt st p i) = true ∧ Entry.address (entryAt st p i) = a := by
  simp only [childAt] at h
  by_cases hp : Entry.present (entryAt st p i)
  · rw [if_pos hp] at h
    exact ⟨hp, Option.some.inj h⟩
  · rw [if_neg hp] at h
    cases h

/-- A successful walk step factors through the preceding node. -/
lemma nodeAt_cons_elim {st : PagingState} {i : Nat} {π : List Nat} {a : Nat}
    (h : nodeAt st (i :: π) = some a) :
    ∃ p, nodeAt st π = some p ∧ childAt st p i = some a := by
  simp only [nodeAt] at h
  cases hn : nodeAt st π with
  | none => rw [hn] at h; cases h
  | some p => rw [hn] at h; exact ⟨p, rfl, h⟩

/-- Any address fixed by the alignment mask fits in 64 bits. -/
lemma lt_two_pow_64_of_align {a : Nat} (h : a &&& not64 0xfff = a) : a < 2 ^ 64 :=
  calc a = a &&& not64 0xfff := h.symm
    _ ≤ not64 0xfff := Nat.and_le_right
    _ < 2 ^ 64 := by decide

/-- One `ensureEntry` stage never loses walk nodes: any node reachable before
the stage is reachable at the same path afterwards. -/
lemma ensure_persist {stOld stNew : PagingState} {π : List Nat} {idx P e' : Nat}
    {w x : Bool}
    (hπO : nodeAt stOld π = some P)
    (hEb : tableGet (readMem stOld.machine.mem P) idx < 2 ^ 64)
    (hframe : ∀ ρ, ρ.length ≤ 3 → ρ ≠ idx :: π → nodeAt stNew ρ = nodeAt stOld ρ)
    (hcreated : nodeAt stNew (idx :: π) = some (Entry.address e'))
    (hwiden : Entry.present (tableGet (readMem stOld.machine.mem P) idx) = true →
      e' = Entry.widen (tableGet (readMem stOld.machine.mem P) idx) w x) :
    ∀ ρ P', ρ.length ≤ 3 → nodeAt stOld ρ = some P' → nodeAt stNew ρ = some P' := by
  intro ρ P' hρ hP'
  by_cases hρeq : ρ = idx :: π
  · subst hρeq
    obtain ⟨p, hp, hc⟩ := nodeAt_cons_elim hP'
    have hpP : p = P := Option.some.inj (hp.symm.trans hπO)
    rw [hpP] at hc
    obtain ⟨hcp, hca⟩ := childAt_some_elim hc
    have hcp' : Entry.present (tableGet (readMem stOld.machine.mem P) idx) = true :=
      hcp
    have hca' : Entry.address (tableGet (readMem stOld.machine.mem P) idx) = P' :=
      hca
    rw [hcreated, hwiden hcp', Entry.widen_address hEb, hca']
  · rw [hframe ρ hρ hρeq]
    exact hP'

set_option maxRecDepth 8000 in
/-- Master specification of one successful `PageMap::set`: the invariant and
all walk nodes survive, the four-level path of the written address exists with
widened ancestor permissions and an exact leaf, and every pre-existing table
slot is either untouched, widened in an ancestor table, or is this set's own
leaf slot. -/
lemma set_master {st st' : PagingState} {va pa : Nat} {flags : PageMapFlags}
    (hWF : WF st) (hset : PageMap.set st va pa flags = some st') :
    WF st' ∧
    st.machine.next ≤ st'.machine.next ∧
    st'.pm = st.pm ∧
    (∀ ρ P, ρ.length ≤ 3 → nodeAt st ρ = some P → nodeAt st' ρ = some P) ∧
    (∃ A4 A3 A2,
      nodeAt st' [(address_to_page_map_indices va).pml4] = some A4 ∧
      nodeAt st' [(address_to_page_map_indices va).pdpt, (address_to_page_map_indices va).pml4] = some A3 ∧
      nodeAt st' [(address_to_page_map_indices va).pd, (address_to_page_map_indices va).pdpt, (address_to_page_map_indices va).pml4] = some A2 ∧
      (flags.writeable = true →
        Entry.writable (entryAt st' st.pm.address ((address_to_page_map_indices va).pml4)) = true ∧
        Entry.writable (entryAt st' A4 ((address_to_page_map_indices va).pdpt)) = true ∧
        Entry.writable (entryAt st' A3 ((address_to_page_map_indices va).pd)) = true) ∧
      (flags.executable = true →
        (entryAt st' st.pm.address ((address_to_page_map_indices va).pml4)).testBit 63 = false ∧
        (entryAt st' A4 ((address_to_page_map_indices va).pdpt)).testBit 63 = false ∧
        (entryAt st' A3 ((address_to_page_map_indices va).pd)).testBit 63 = false) ∧
      Entry.present (entryAt st' A2 ((address_to_page_map_indices va).pt)) = true ∧
      Entry.writable (entryAt st' A2 ((address_to_page_map_indices va).pt)) = flags.writeable ∧
      (pa < 2 ^ 63 → (entryAt st' A2 ((address_to_page_map_indices va).pt)).testBit 63 = (!flags.executable) ∧
        Entry.address (entryAt st' A2 ((address_to_page_map_indices va).pt)) = pa)) ∧
    (∀ Q j, Q < st.machine.next →
      entryAt st' Q j = entryAt st Q j ∨
      ((∃ ρ, ρ.length ≤ 2 ∧ nodeAt st' ρ = some Q) ∧
       (Entry.present (entryAt st Q j) = true →
        entryAt st' Q j =
          Entry.widen (entryAt st Q j) flags.writeable flags.executable)) ∨
      (nodeAt st' [(address_to_page_map_indices va).pd, (address_to_page_map_indices va).pdpt, (address_to_page_map_indices va).pml4] = some Q ∧ j = (address_to_page_map_indices va).pt)) := by
  obtain ⟨hvaal, hpaal, m₄, e₄, m₃, e₃, m₂, e₂, leaf, hE4, hE3, hE2, hL, hst'⟩ :=
    set_elim hset
  obtain ⟨hi4, hi3, hi2, hi1⟩ := decompose_index_lt va
  have hrootlt : st.pm.address < st.machine.next :=
    hWF.2.2.2.2.1 [] st.pm.address (by simp) rfl
  have S4 := ensure_spec hWF (show nodeAt st [] = some st.pm.address from rfl)
    (by simp) hi4 (fun a => rfl) hE4
  obtain ⟨hWF4, hmono4, hpres4, hlt4, hw4, hx4, hslot4, hoslot4, hopage4,
    hnode4, hframe4, hdisj4⟩ := S4
  have S3 := ensure_spec hWF4 hnode4 (by simp) hi3 (fun a => rfl) hE3
  obtain ⟨hWF3, hmono3, hpres3, hlt3, hw3, hx3, hslot3, hoslot3, hopage3,
    hnode3, hframe3, hdisj3⟩ := S3
  have S2 := ensure_spec hWF3 hnode3 (by simp) hi2 (fun a => rfl) hE2
  obtain ⟨hWF2, hmono2, hpres2, hlt2, hw2, hx2, hslot2, hoslot2, hopage2,
    hnode2, hframe2, hdisj2⟩ := S2
  subst hst'
  obtain ⟨hal2, hle2, hlen2, hbnd2, hndb2, hinj2⟩ := hWF2
  obtain ⟨hal4, hle4, hlen4, hbnd4, hndb4, hinj4⟩ := hWF4
  obtain ⟨hal3, hle3, hlen3, hbnd3, hndb3, hinj3⟩ := hWF3
  obtain ⟨hpa0, hparange, hleafval⟩ := Entry.new_ok_elim hL
  have hpa64 : pa < 2 ^ 64 := lt_two_pow_64_of_align hpaal
  have hleaflt : leaf < 2 ^ 64 := hleafval ▸ Entry.newval_lt hpa64
  have hwiden4 : Entry.present
      (tableGet (readMem st.machine.mem st.pm.address) ((address_to_page_map_indices va).pml4)) = true →
      e₄ = Entry.widen (tableGet (readMem st.machine.mem st.pm.address) ((address_to_page_map_indices va).pml4))
        flags.writeable flags.executable := by
    intro hp
    rcases hdisj4 with ⟨_, he, _⟩ | ⟨hab, _, _⟩
    · exact he
    · rw [hab] at hp; cases hp
  have hwiden3 : Entry.present
      (tableGet (readMem m₄.mem (Entry.address e₄)) ((address_to_page_map_indices va).pdpt)) = true →
      e₃ = Entry.widen (tableGet (readMem m₄.mem (Entry.address e₄)) ((address_to_page_map_indices va).pdpt))
        flags.writeable flags.executable := by
    intro hp
    rcases hdisj3 with ⟨_, he, _⟩ | ⟨hab, _, _⟩
    · exact he
    · rw [hab] at hp; cases hp
  have hwiden2 : Entry.present
      (tableGet (readMem m₃.mem (Entry.address e₃)) ((address_to_page_map_indices va).pd)) = true →
      e₂ = Entry.widen (tableGet (readMem m₃.mem (Entry.address e₃)) ((address_to_page_map_indices va).pd))
        flags.writeable flags.executable := by
    intro hp
    rcases hdisj2 with ⟨_, he, _⟩ | ⟨hab, _, _⟩
    · exact he
    · rw [hab] at hp; cases hp
  have hpersist4 : ∀ ρ P, ρ.length ≤ 3 → nodeAt st ρ = some P →
      nodeAt { machine := m₄, pm := st.pm } ρ = some P :=
    ensure_persist (show nodeAt st [] = some st.pm.address from rfl)
      (hWF.2.2.2.1 st.pm.address ((address_to_page_map_indices va).pml4))
      hframe4 hnode4 hwiden4
  have hpersist3 : ∀ ρ P, ρ.length ≤ 3 →
      nodeAt { machine := m₄, pm := st.pm } ρ = some P →
      nodeAt { machine := m₃, pm := st.pm } ρ = some P :=
    ensure_persist hnode4 (hbnd4 (Entry.address e₄) ((address_to_page_map_indices va).pdpt)) hframe3 hnode3 hwiden3
  have hpersist2 : ∀ ρ P, ρ.length ≤ 3 →
      nodeAt { machine := m₃, pm := st.pm } ρ = some P →
      nodeAt { machine := m₂, pm := st.pm } ρ = some P :=
    ensure_persist hnode3 (hbnd3 (Entry.address e₃) ((address_to_page_map_indices va).pd)) hframe2 hnode2 hwiden2
  have hn4₂ : nodeAt { machine := m₂, pm := st.pm } [(address_to_page_map_indices va).pml4] =
      some (Entry.address e₄) :=
    hpersist2 _ _ (by simp) (hpersist3 _ _ (by simp) hnode4)
  have hn3₂ : nodeAt { machine := m₂, pm := st.pm } [(address_to_page_map_indices va).pdpt, (address_to_page_map_indices va).pml4] =
      some (Entry.address e₃) :=
    hpersist2 _ _ (by simp) hnode3
  have hn2₂ : nodeAt { machine := m₂, pm := st.pm } [(address_to_page_map_indices va).pd, (address_to_page_map_indices va).pdpt, (address_to_page_map_indices va).pml4] =
      some (Entry.address e₂) := hnode2
  have hfrL : ∀ ρ, ρ.length ≤ 3 →
      nodeAt { machine := Machine.mk (writeMem m₂.mem (Entry.address e₂) ((readMem m₂.mem (Entry.address e₂)).set ((address_to_page_map_indices va).pt) leaf)) m₂.next, pm := st.pm } ρ =
      nodeAt { machine := m₂, pm := st.pm } ρ := by
    apply nodeAt_frame_offtree (Q := Entry.address e₂) (t := ((readMem m₂.mem (Entry.address e₂)).set ((address_to_page_map_indices va).pt) leaf))
    · rfl
    · rfl
    · intro ρ hρ hc
      have hρ3 := hinj2 ρ [(address_to_page_map_indices va).pd, (address_to_page_map_indices va).pdpt, (address_to_page_map_indices va).pml4] (Entry.address e₂) (by omega) (by simp) hc hn2₂
      rw [hρ3] at hρ
      simp at hρ
  have hne_r4 : st.pm.address ≠ Entry.address e₄ := by
    intro h
    have h2 := hn4₂
    rw [← h] at h2
    have := hinj2 [] [(address_to_page_map_indices va).pml4] st.pm.address (by simp) (by simp) rfl h2
    exact absurd this (by simp)
  have hne_r3 : st.pm.address ≠ Entry.address e₃ := by
    intro h
    have h2 := hn3₂
    rw [← h] at h2
    have := hinj2 [] [(address_to_page_map_indices va).pdpt, (address_to_page_map_indices va).pml4] st.pm.address (by simp) (by simp) rfl h2
    exact absurd this (by simp)
  have hne_r2 : st.pm.address ≠ Entry.address e₂ := by
    intro h
    have h2 := hn2₂
    rw [← h] at h2
    have := hinj2 [] [(address_to_page_map_indices va).pd, (address_to_page_map_indices va).pdpt, (address_to_page_map_indices va).pml4] st.pm.address (by simp) (by simp) rfl h2
    exact absurd this (by simp)
  have hne_43 : (Entry.address e₄) ≠ Entry.address e₃ := by
    intro h
    have h2 := hn3₂
    rw [← h] at h2
    have := hinj2 [(address_to_page_map_indices va).pml4] [(address_to_page_map_indices va).pdpt, (address_to_page_map_indices va).pml4] (Entry.address e₄) (by simp) (by simp) hn4₂ h2
    exact absurd this (by simp)
  have hne_42 : (Entry.address e₄) ≠ Entry.address e₂ := by
    intro h
    have h2 := hn2₂
    rw [← h] at h2
    have := hinj2 [(address_to_page_map_indices va).pml4] [(address_to_page_map_indices va).pd, (address_to_page_map_indices va).pdpt, (address_to_page_map_indices va).pml4] (Entry.address e₄) (by simp) (by simp) hn4₂ h2
    exact absurd this (by simp)
  have hne_32 : (Entry.address e₃) ≠ Entry.address e₂ := by
    intro h
    have h2 := hn2₂
    rw [← h] at h2
    have := hinj2 [(address_to_page_map_indices va).pdpt, (address_to_page_map_indices va).pml4] [(address_to_page_map_indices va).pd, (address_to_page_map_indices va).pdpt, (address_to_page_map_indices va).pml4] (Entry.address e₃) (by simp) (by simp)
      hn3₂ h2
    exact absurd this (by simp)
  have hA4lt : (Entry.address e₄) < m₄.next := hndb4 [(address_to_page_map_indices va).pml4] (Entry.address e₄) (by simp) hnode4
  have hA3lt : (Entry.address e₃) < m₃.next := hndb3 [(address_to_page_map_indices va).pdpt, (address_to_page_map_indices va).pml4] (Entry.address e₃) (by simp) hnode3
  have hread_r32 : readMem m₃.mem st.pm.address = readMem m₄.mem st.pm.address :=
    hopage3 st.pm.address hne_r4 (lt_of_lt_of_le hrootlt hmono4)
  have hread_r21 : readMem m₂.mem st.pm.address = readMem m₃.mem st.pm.address :=
    hopage2 st.pm.address hne_r3
      (lt_of_lt_of_le hrootlt (le_trans hmono4 hmono3))
  have hread_rL : readMem (writeMem m₂.mem (Entry.address e₂) ((readMem m₂.mem (Entry.address e₂)).set ((address_to_page_map_indices va).pt) leaf)) st.pm.address =
      readMem m₂.mem st.pm.address :=
    readMem_writeMem_ne _ _ hne_r2
  have hentry4 : tableGet (readMem (writeMem m₂.mem (Entry.address e₂) ((readMem m₂.mem (Entry.address e₂)).set ((address_to_page_map_indices va).pt) leaf)) st.pm.address) ((address_to_page_map_indices va).pml4) = e₄ := by
    rw [hread_rL, hread_r21, hread_r32, hslot4]
  have hread_421 : readMem m₂.mem (Entry.address e₄) = readMem m₃.mem (Entry.address e₄) :=
    hopage2 (Entry.address e₄) hne_43 (lt_of_lt_of_le hA4lt hmono3)
  have hread_4L : readMem (writeMem m₂.mem (Entry.address e₂) ((readMem m₂.mem (Entry.address e₂)).set ((address_to_page_map_indices va).pt) leaf)) (Entry.address e₄) = readMem m₂.mem (Entry.address e₄) :=
    readMem_writeMem_ne _ _ hne_42
  have hentry3 : tableGet (readMem (writeMem m₂.mem (Entry.address e₂) ((readMem m₂.mem (Entry.address e₂)).set ((address_to_page_map_indices va).pt) leaf)) (Entry.address e₄)) ((address_to_page_map_indices va).pdpt) = e₃ := by
    rw [hread_4L, hread_421, hslot3]
  have hread_3L : readMem (writeMem m₂.mem (Entry.address e₂) ((readMem m₂.mem (Entry.address e₂)).set ((address_to_page_map_indices va).pt) leaf)) (Entry.address e₃) = readMem m₂.mem (Entry.address e₃) :=
    readMem_writeMem_ne _ _ hne_32
  have hentry2 : tableGet (readMem (writeMem m₂.mem (Entry.address e₂) ((readMem m₂.mem (Entry.address e₂)).set ((address_to_page_map_indices va).pt) leaf)) (Entry.address e₃)) ((address_to_page_map_indices va).pd) = e₂ := by
    rw [hread_3L, hslot2]
  have hentryL : tableGet (readMem (writeMem m₂.mem (Entry.address e₂) ((readMem m₂.mem (Entry.address e₂)).set ((address_to_page_map_indices va).pt) leaf)) (Entry.address e₂)) ((address_to_page_map_indices va).pt) = leaf := by
    rw [readMem_writeMem_self]
    exact tableGet_set_self (by rw [hlen2]; exact hi1) _
  have hn4F : nodeAt { machine := Machine.mk (writeMem m₂.mem (Entry.address e₂) ((readMem m₂.mem (Entry.address e₂)).set ((address_to_page_map_indices va).pt) leaf)) m₂.next, pm := st.pm }
      [(address_to_page_map_indices va).pml4] = some (Entry.address e₄) := by
    rw [hfrL _ (by simp)]; exact hn4₂
  have hn3F : nodeAt { machine := Machine.mk (writeMem m₂.mem (Entry.address e₂) ((readMem m₂.mem (Entry.address e₂)).set ((address_to_page_map_indices va).pt) leaf)) m₂.next, pm := st.pm }
      [(address_to_page_map_indices va).pdpt, (address_to_page_map_indices va).pml4] = some (Entry.address e₃) := by
    rw [hfrL _ (by simp)]; exact hn3₂
  have hn2F : nodeAt { machine := Machine.mk (writeMem m₂.mem (Entry.address e₂) ((readMem m₂.mem (Entry.address e₂)).set ((address_to_page_map_indices va).pt) leaf)) m₂.next, pm := st.pm }
      [(address_to_page_map_indices va).pd, (address_to_page_map_indices va).pdpt, (address_to_page_map_indices va).pml4] = some (Entry.address e₂) := by
    rw [hfrL _ (by simp)]; exact hn2₂
  have hlenF : ∀ p, (readMem (writeMem m₂.mem (Entry.address e₂) ((readMem m₂.mem (Entry.address e₂)).set ((address_to_page_map_indices va).pt) leaf)) p).length = 512 :=
    length_readMem_write hlen2 (by rw [List.length_set]; exact hlen2 _)
  have hbndF : ∀ p i, tableGet (readMem (writeMem m₂.mem (Entry.address e₂) ((readMem m₂.mem (Entry.address e₂)).set ((address_to_page_map_indices va).pt) leaf)) p) i < 2 ^ 64 :=
    bound_readMem_write hbnd2 (tableGet_set_bound (fun j => hbnd2 _ j) hleaflt)
  refine ⟨⟨hal2, hle2, hlenF, hbndF, ?_, ?_⟩,
    le_trans hmono4 (le_trans hmono3 hmono2), rfl, ?_,
    ⟨Entry.address e₄, Entry.address e₃, Entry.address e₂, hn4F, hn3F, hn2F, ?_, ?_, ?_, ?_, ?_⟩, ?_⟩
  · intro ρ a hρ hn
    rw [hfrL ρ hρ] at hn
    exact hndb2 ρ a hρ hn
  · intro ρ σ a hρ hσ h1 h2
    rw [hfrL ρ hρ] at h1
    rw [hfrL σ hσ] at h2
    exact hinj2 ρ σ a hρ hσ h1 h2
  · intro ρ P hρ hP
    rw [hfrL ρ hρ]
    exact hpersist2 ρ P hρ (hpersist3 ρ P hρ (hpersist4 ρ P hρ hP))
  · intro hw
    refine ⟨?_, ?_, ?_⟩
    · show Entry.writable (tableGet (readMem (writeMem m₂.mem (Entry.address e₂) ((readMem m₂.mem (Entry.address e₂)).set ((address_to_page_map_indices va).pt) leaf)) st.pm.address) ((address_to_page_map_indices va).pml4)) = true
      rw [hentry4]; exact hw4 hw
    · show Entry.writable (tableGet (readMem (writeMem m₂.mem (Entry.address e₂) ((readMem m₂.mem (Entry.address e₂)).set ((address_to_page_map_indices va).pt) leaf)) (Entry.address e₄)) ((address_to_page_map_indices va).pdpt)) = true
      rw [hentry3]; exact hw3 hw
    · show Entry.writable (tableGet (readMem (writeMem m₂.mem (Entry.address e₂) ((readMem m₂.mem (Entry.address e₂)).set ((address_to_page_map_indices va).pt) leaf)) (Entry.address e₃)) ((address_to_page_map_indices va).pd)) = true
      rw [hentry2]; exact hw2 hw
  · intro hx
    refine ⟨?_, ?_, ?_⟩
    · show (tableGet (readMem (writeMem m₂.mem (Entry.address e₂) ((readMem m₂.mem (Entry.address e₂)).set ((address_to_page_map_indices va).pt) leaf)) st.pm.address) ((address_to_page_map_indices va).pml4)).testBit 63 = false
      rw [hentry4]; exact hx4 hx
    · show (tableGet (readMem (writeMem m₂.mem (Entry.address e₂) ((readMem m₂.mem (Entry.address e₂)).set ((address_to_page_map_indices va).pt) leaf)) (Entry.address e₄)) ((address_to_page_map_indices va).pdpt)).testBit 63 = false
      rw [hentry3]; exact hx3 hx
    · show (tableGet (readMem (writeMem m₂.mem (Entry.address e₂) ((readMem m₂.mem (Entry.address e₂)).set ((address_to_page_map_indices va).pt) leaf)) (Entry.address e₃)) ((address_to_page_map_indices va).pd)).testBit 63 = false
      rw [hentry2]; exact hx2 hx
  · show Entry.present (tableGet (readMem (writeMem m₂.mem (Entry.address e₂) ((readMem m₂.mem (Entry.address e₂)).set ((address_to_page_map_indices va).pt) leaf)) (Entry.address e₂)) ((address_to_page_map_indices va).pt)) = true
    rw [hentryL, hleafval]
    exact Entry.newval_present _ _ _
  · show Entry.writable (tableGet (readMem (writeMem m₂.mem (Entry.address e₂) ((readMem m₂.mem (Entry.address e₂)).set ((address_to_page_map_indices va).pt) leaf)) (Entry.address e₂)) ((address_to_page_map_indices va).pt)) =
      flags.writeable
    rw [hentryL, hleafval]
    exact Entry.newval_writable hpa0
  · intro hpa63
    constructor
    · show (tableGet (readMem (writeMem m₂.mem (Entry.address e₂) ((readMem m₂.mem (Entry.address e₂)).set ((address_to_page_map_indices va).pt) leaf)) (Entry.address e₂)) ((address_to_page_map_indices va).pt)).testBit 63 =
        (!flags.executable)
      rw [hentryL, hleafval]
      exact Entry.newval_bit63 hpa63
    · show Entry.address (tableGet (readMem (writeMem m₂.mem (Entry.address e₂) ((readMem m₂.mem (Entry.address e₂)).set ((address_to_page_map_indices va).pt) leaf)) (Entry.address e₂)) ((address_to_page_map_indices va).pt)) = pa
      rw [hentryL, hleafval]
      exact Entry.newval_address hpa0 hpa63
  · intro Q j hQ
    by_cases hQr : Q = st.pm.address
    · subst hQr
      by_cases hj4 : j = (address_to_page_map_indices va).pml4
      · subst hj4
        refine Or.inr (Or.inl ⟨⟨[], by simp, rfl⟩, ?_⟩)
        intro hp
        show tableGet (readMem (writeMem m₂.mem (Entry.address e₂) ((readMem m₂.mem (Entry.address e₂)).set ((address_to_page_map_indices va).pt) leaf)) st.pm.address) ((address_to_page_map_indices va).pml4) =
          Entry.widen (tableGet (readMem st.machine.mem st.pm.address) ((address_to_page_map_indices va).pml4))
            flags.writeable flags.executable
        rw [hentry4]
        exact hwiden4 hp
      · refine Or.inl ?_
        show tableGet (readMem (writeMem m₂.mem (Entry.address e₂) ((readMem m₂.mem (Entry.address e₂)).set ((address_to_page_map_indices va).pt) leaf)) st.pm.address) j =
          tableGet (readMem st.machine.mem st.pm.address) j
        rw [hread_rL, hread_r21, hread_r32, hoslot4 j hj4]
    · by_cases hQ4 : Q = Entry.address e₄
      · subst hQ4
        have hrd4 : readMem m₄.mem (Entry.address e₄) = readMem st.machine.mem (Entry.address e₄) :=
          hopage4 (Entry.address e₄) (Ne.symm hne_r4) hQ
        by_cases hj3 : j = (address_to_page_map_indices va).pdpt
        · subst hj3
          refine Or.inr (Or.inl ⟨⟨[(address_to_page_map_indices va).pml4], by simp, hn4F⟩, ?_⟩)
          intro hp
          show tableGet (readMem (writeMem m₂.mem (Entry.address e₂) ((readMem m₂.mem (Entry.address e₂)).set ((address_to_page_map_indices va).pt) leaf)) (Entry.address e₄)) ((address_to_page_map_indices va).pdpt) =
            Entry.widen (tableGet (readMem st.machine.mem (Entry.address e₄)) ((address_to_page_map_indices va).pdpt))
              flags.writeable flags.executable
          rw [hentry3, ← hrd4]
          apply hwiden3
          show Entry.present (tableGet (readMem m₄.mem (Entry.address e₄)) ((address_to_page_map_indices va).pdpt)) = true
          rw [hrd4]
          exact hp
        · refine Or.inl ?_
          show tableGet (readMem (writeMem m₂.mem (Entry.address e₂) ((readMem m₂.mem (Entry.address e₂)).set ((address_to_page_map_indices va).pt) leaf)) (Entry.address e₄)) j =
            tableGet (readMem st.machine.mem (Entry.address e₄)) j
          rw [hread_4L, hread_421, hoslot3 j hj3, hrd4]
      · by_cases hQ3 : Q = Entry.address e₃
        · subst hQ3
          have hrd43 : readMem m₄.mem (Entry.address e₃) = readMem st.machine.mem (Entry.address e₃) :=
            hopage4 (Entry.address e₃) (Ne.symm hne_r3) hQ
          have hrd33 : readMem m₃.mem (Entry.address e₃) = readMem m₄.mem (Entry.address e₃) :=
            hopage3 (Entry.address e₃) (Ne.symm hne_43) (lt_of_lt_of_le hQ hmono4)
          by_cases hj2 : j = (address_to_page_map_indices va).pd
          · subst hj2
            refine Or.inr (Or.inl ⟨⟨[(address_to_page_map_indices va).pdpt, (address_to_page_map_indices va).pml4], by simp, hn3F⟩, ?_⟩)
            intro hp
            show tableGet (readMem (writeMem m₂.mem (Entry.address e₂) ((readMem m₂.mem (Entry.address e₂)).set ((address_to_page_map_indices va).pt) leaf)) (Entry.address e₃)) ((address_to_page_map_indices va).pd) =
              Entry.widen (tableGet (readMem st.machine.mem (Entry.address e₃)) ((address_to_page_map_indices va).pd))
                flags.writeable flags.executable
            rw [hentry2, ← hrd43, ← hrd33]
            apply hwiden2
            show Entry.present (tableGet (readMem m₃.mem (Entry.address e₃)) ((address_to_page_map_indices va).pd)) = true
            rw [hrd33, hrd43]
            exact hp
          · refine Or.inl ?_
            show tableGet (readMem (writeMem m₂.mem (Entry.address e₂) ((readMem m₂.mem (Entry.address e₂)).set ((address_to_page_map_indices va).pt) leaf)) (Entry.address e₃)) j =
              tableGet (readMem st.machine.mem (Entry.address e₃)) j
            rw [hread_3L, hoslot2 j hj2, hrd33, hrd43]
        · by_cases hQ2 : Q = Entry.address e₂
          · subst hQ2
            by_cases hj1 : j = (address_to_page_map_indices va).pt
            · subst hj1
              exact Or.inr (Or.inr ⟨hn2F, rfl⟩)
            · refine Or.inl ?_
              have hrd42 : readMem m₄.mem (Entry.address e₂) =
                  readMem st.machine.mem (Entry.address e₂) :=
                hopage4 (Entry.address e₂) (Ne.symm hne_r2) hQ
              have hrd32 : readMem m₃.mem (Entry.address e₂) = readMem m₄.mem (Entry.address e₂) :=
                hopage3 (Entry.address e₂) (Ne.symm hne_42) (lt_of_lt_of_le hQ hmono4)
              have hrd22 : readMem m₂.mem (Entry.address e₂) = readMem m₃.mem (Entry.address e₂) :=
                hopage2 (Entry.address e₂) (Ne.symm hne_32)
                  (lt_of_lt_of_le hQ (le_trans hmono4 hmono3))
              show tableGet (readMem (writeMem m₂.mem (Entry.address e₂) ((readMem m₂.mem (Entry.address e₂)).set ((address_to_page_map_indices va).pt) leaf)) (Entry.address e₂)) j =
                tableGet (readMem st.machine.mem (Entry.address e₂)) j
              rw [readMem_writeMem_self,
                tableGet_set_ne (Ne.symm hj1), hrd22, hrd32, hrd42]
          · refine Or.inl ?_
            have hrdQ4 : readMem m₄.mem Q = readMem st.machine.mem Q :=
              hopage4 Q hQr hQ
            have hrdQ3 : readMem m₃.mem Q = readMem m₄.mem Q :=
              hopage3 Q hQ4 (lt_of_lt_of_le hQ hmono4)
            have hrdQ2 : readMem m₂.mem Q = readMem m₃.mem Q :=
              hopage2 Q hQ3 (lt_of_lt_of_le hQ (le_trans hmono4 hmono3))
            show tableGet (readMem (writeMem m₂.mem (Entry.address e₂) ((readMem m₂.mem (Entry.address e₂)).set ((address_to_page_map_indices va).pt) leaf)) Q) j =
              tableGet (readMem st.machine.mem Q) j
            rw [readMem_writeMem_ne _ _ hQ2, hrdQ2, hrdQ3, hrdQ4]

set_option maxRecDepth 8000 in
/-- A successful `PageMap::unset` preserves the well-formedness invariant. -/
lemma unset_master {st st' : PagingState} {va : Nat}
    (hWF : WF st) (hun : PageMap.unset st va = some st') : WF st' := by
  by_cases ha : va &&& not64 0xfff = va
  · by_cases p4 : Entry.present (tableGet (readMem st.machine.mem st.pm.address) ((address_to_page_map_indices va).pml4)) = true
    · by_cases p3 : Entry.present (tableGet (readMem st.machine.mem (Entry.address (tableGet (readMem st.machine.mem st.pm.address) ((address_to_page_map_indices va).pml4)))) ((address_to_page_map_indices va).pdpt)) = true
      · by_cases p2 : Entry.present (tableGet (readMem st.machine.mem (Entry.address (tableGet (readMem st.machine.mem (Entry.address (tableGet (readMem st.machine.mem st.pm.address) ((address_to_page_map_indices va).pml4)))) ((address_to_page_map_indices va).pdpt)))) ((address_to_page_map_indices va).pd)) = true
        · rw [unset_write ha p4 p3 p2] at hun
          obtain ⟨hal, hle, hlen, hbnd, hndb, hinj⟩ := hWF
          have hn1 : nodeAt st [(address_to_page_map_indices va).pml4] = some (Entry.address (tableGet (readMem st.machine.mem st.pm.address) ((address_to_page_map_indices va).pml4))) :=
            nodeAt_cons_present rfl p4
          have hn2 : nodeAt st [(address_to_page_map_indices va).pdpt, (address_to_page_map_indices va).pml4] = some (Entry.address (tableGet (readMem st.machine.mem (Entry.address (tableGet (readMem st.machine.mem st.pm.address) ((address_to_page_map_indices va).pml4)))) ((address_to_page_map_indices va).pdpt))) :=
            nodeAt_cons_present hn1 p3
          have hn3 : nodeAt st [(address_to_page_map_indices va).pd, (address_to_page_map_indices va).pdpt, (address_to_page_map_indices va).pml4] = some (Entry.address (tableGet (readMem st.machine.mem (Entry.address (tableGet (readMem st.machine.mem (Entry.address (tableGet (readMem st.machine.mem st.pm.address) ((address_to_page_map_indices va).pml4)))) ((address_to_page_map_indices va).pdpt)))) ((address_to_page_map_indices va).pd))) :=
            nodeAt_cons_present hn2 p2
          have hst' := (Option.some.inj hun).symm
          subst hst'
          have hfr : ∀ ρ, ρ.length ≤ 3 →
              nodeAt { machine := Machine.mk (writeMem st.machine.mem (Entry.address (tableGet (readMem st.machine.mem (Entry.address (tableGet (readMem st.machine.mem (Entry.address (tableGet (readMem st.machine.mem st.pm.address) ((address_to_page_map_indices va).pml4)))) ((address_to_page_map_indices va).pdpt)))) ((address_to_page_map_indices va).pd))) ((readMem st.machine.mem (Entry.address (tableGet (readMem st.machine.mem (Entry.address (tableGet (readMem st.machine.mem (Entry.address (tableGet (readMem st.machine.mem st.pm.address) ((address_to_page_map_indices va).pml4)))) ((address_to_page_map_indices va).pdpt)))) ((address_to_page_map_indices va).pd)))).set ((address_to_page_map_indices va).pt) PTE.unset)) st.machine.next,
                        pm := st.pm } ρ = nodeAt st ρ := by
            apply nodeAt_frame_offtree (Q := Entry.address (tableGet (readMem st.machine.mem (Entry.address (tableGet (readMem st.machine.mem (Entry.address (tableGet (readMem st.machine.mem st.pm.address) ((address_to_page_map_indices va).pml4)))) ((address_to_page_map_indices va).pdpt)))) ((address_to_page_map_indices va).pd))) (t := ((readMem st.machine.mem (Entry.address (tableGet (readMem st.machine.mem (Entry.address (tableGet (readMem st.machine.mem (Entry.address (tableGet (readMem st.machine.mem st.pm.address) ((address_to_page_map_indices va).pml4)))) ((address_to_page_map_indices va).pdpt)))) ((address_to_page_map_indices va).pd)))).set ((address_to_page_map_indices va).pt) PTE.unset))
            · rfl
            · rfl
            · intro ρ hρ hc
              have hρ3 := hinj ρ [(address_to_page_map_indices va).pd, (address_to_page_map_indices va).pdpt, (address_to_page_map_indices va).pml4] (Entry.address (tableGet (readMem st.machine.mem (Entry.address (tableGet (readMem st.machine.mem (Entry.address (tableGet (readMem st.machine.mem st.pm.address) ((address_to_page_map_indices va).pml4)))) ((address_to_page_map_indices va).pdpt)))) ((address_to_page_map_indices va).pd))) (by omega) (by simp)
                hc hn3
              rw [hρ3] at hρ
              simp at hρ
          refine ⟨hal, hle, ?_, ?_, ?_, ?_⟩
          · exact length_readMem_write hlen
              (by rw [List.length_set]; exact hlen _)
          · exact bound_readMem_write hbnd
              (tableGet_set_bound (fun j => hbnd _ j) (by norm_num [PTE.unset]))
          · intro ρ a hρ hn
            rw [hfr ρ hρ] at hn
            exact hndb ρ a hρ hn
          · intro ρ σ a hρ hσ h1 h2
            rw [hfr ρ hρ] at h1
            rw [hfr σ hσ] at h2
            exact hinj ρ σ a hρ hσ h1 h2
        · rw [unset_noop_3 ha p4 p3 p2] at hun
          rw [← Option.some.inj hun]
          exact hWF
      · rw [unset_noop_2 ha p4 p3] at hun
        rw [← Option.some.inj hun]
        exact hWF
    · rw [unset_noop_1 ha p4] at hun
      rw [← Option.some.inj hun]
      exact hWF
  · simp only [PageMap.unset] at hun
    rw [if_pos ha] at hun
    cases hun

/-- Every table of the fresh page map is the zero table. -/
lemma initState_readMem (p : Nat) : readMem initState.machine.mem p = zeroTable := by
  show readMem (writeMem [] 0 zeroTable) p = zeroTable
  by_cases hp : p = 0
  · subst hp
    rw [readMem_writeMem_self]
  · rw [readMem_writeMem_ne _ _ hp]
    rfl

/-- No walk of positive length succeeds on the fresh page map. -/
lemma initState_nodeAt_cons (i : Nat) (rest : List Nat) :
    nodeAt initState (i :: rest) = none := by
  cases h : nodeAt initState rest with
  | none => simp [nodeAt, h]
  | some p =>
    simp only [nodeAt, h, childAt, entryAt, initState_readMem,
      tableGet_zeroTable]
    rw [if_neg (by rw [Entry.present_zero]; exact Bool.false_ne_true)]

/-- The fresh page map satisfies the well-formedness invariant. -/
lemma WF_initState : WF initState := by
  refine ⟨by norm_num [initState, PageMap.new, Machine.allocPages],
    by norm_num [initState, PageMap.new, Machine.allocPages], ?_, ?_, ?_, ?_⟩
  · intro p
    rw [initState_readMem]
    show (List.replicate 512 (0 : Nat)).length = 512
    rw [List.length_replicate]
  · intro p i
    rw [initState_readMem]
    exact tableGet_zeroTable_bound i
  · intro ρ a hρ hn
    cases ρ with
    | nil =>
      have ha : a = initState.pm.address := (Option.some.inj hn).symm
      subst ha
      show initState.pm.address < initState.machine.next
      norm_num [initState, PageMap.new, Machine.allocPages]
    | cons i rest =>
      rw [initState_nodeAt_cons] at hn
      cases hn
  · intro ρ σ a hρ hσ h1 h2
    cases ρ with
    | nil =>
      cases σ with
      | nil => rfl
      | cons j rest =>
        rw [initState_nodeAt_cons] at h2
        cases h2
    | cons i rest =>
      rw [initState_nodeAt_cons] at h1
      cases h1

/-- Well-formedness is preserved along any successful operation sequence. -/
lemma applyOps_WF : ∀ ops st₀ st, WF st₀ → applyOps ops st₀ = some st → WF st := by
  intro ops
  induction ops with
  | nil =>
    intro st₀ st h h2
    simp only [applyOps] at h2
    rw [← Option.some.inj h2]
    exact h
  | cons op ops ih =>
    intro st₀ st h h2
    simp only [applyOps] at h2
    cases hop : applyOp st₀ op with
    | none => rw [hop] at h2; cases h2
    | some st₁ =>
      simp only [hop] at h2
      refine ih st₁ st ?_ h2
      cases op with
      | set va pa flags => exact (set_master h hop).1
      | unset va => exact unset_master h hop

/-- Every reachable state satisfies the well-formedness invariant. -/
lemma Reachable_WF {st : PagingState} (h : Reachable st) : WF st := by
  obtain ⟨ops, hops⟩ := h
  exact applyOps_WF ops initState st WF_initState hops

/-- Processing one table slot through the frame disjunction of a later `set`:
a present entry in a walk-tree table keeps its writable bit and its cleared
execute-disable bit. -/
lemma slot_keep {st₁ st₂ : PagingState} {Q j : Nat} {w' x' : Bool}
    {ρQ π' : List Nat} {C : Prop}
    (hinj2 : ∀ ρ σ a, ρ.length ≤ 3 → σ.length ≤ 3 →
      nodeAt st₂ ρ = some a → nodeAt st₂ σ = some a → ρ = σ)
    (hb : entryAt st₁ Q j < 2 ^ 64)
    (hρQ : nodeAt st₂ ρQ = some Q) (hρQlen : ρQ.length ≤ 2)
    (hcase : entryAt st₂ Q j = entryAt st₁ Q j ∨
      ((∃ ρ, ρ.length ≤ 2 ∧ nodeAt st₂ ρ = some Q) ∧
       (Entry.present (entryAt st₁ Q j) = true →
        entryAt st₂ Q j = Entry.widen (entryAt st₁ Q j) w' x')) ∨
      (nodeAt st₂ π' = some Q ∧ C))
    (hπ'len : π'.length = 3)
    (hpres : Entry.present (entryAt st₁ Q j) = true) :
    (Entry.writable (entryAt st₁ Q j) = true →
      Entry.writable (entryAt st₂ Q j) = true) ∧
    ((entryAt st₁ Q j).testBit 63 = false →
      (entryAt st₂ Q j).testBit 63 = false) := by
  rcases hcase with heq | ⟨_, himp⟩ | ⟨hq, _⟩
  · rw [heq]
    exact ⟨fun h => h, fun h => h⟩
  · rw [himp hpres]
    exact ⟨fun h => Entry.widen_writable_mono hb _ _ h,
      fun h => Entry.widen_xd_mono hb _ _ h⟩
  · exfalso
    have hρπ := hinj2 ρQ π' Q (by omega) (by omega) hρQ hq
    rw [hρπ, hπ'len] at hρQlen
    omega

/-- Component-wise equality of index quadruples. -/
lemma PageMapIndices.ext4 {i κ : PageMapIndices}
    (h4 : i.pml4 = κ.pml4) (h3 : i.pdpt = κ.pdpt)
    (h2 : i.pd = κ.pd) (h1 : i.pt = κ.pt) : i = κ := by
  cases i
  cases κ
  simp_all

/-- C3: after `set(va, pa, flags)` requesting writable (respectively
executable), every ancestor entry on `va`'s 4-level walk path is writable
(respectively not execute-disabled); a later `set` of a different virtual page
with arbitrary (in particular narrower) flags through any shared ancestor never
clears those widened bits; and the leaf entry's writable and execute-disable
bits equal exactly the flags of the last `set` performed on that virtual page
(they are set exactly by the first `set` and survive the second unchanged). -/
theorem set_widens_ancestors_exact_leaf
    (st st₁ st₂ : PagingState) (va pa va' pa' : Nat)
    (flags flags' : PageMapFlags)
    (hR : Reachable st) (hva48 : va < 2 ^ 48) (hva'48 : va' < 2 ^ 48)
    (hne : va ≠ va') (hpa63 : pa < 2 ^ 63)
    (h1 : PageMap.set st va pa flags = some st₁)
    (h2 : PageMap.set st₁ va' pa' flags' = some st₂) :
    ∃ A4 A3 A2,
      nodeAt st₁ [(address_to_page_map_indices va).pml4] = some A4 ∧
      nodeAt st₁ [(address_to_page_map_indices va).pdpt, (address_to_page_map_indices va).pml4] = some A3 ∧
      nodeAt st₁ [(address_to_page_map_indices va).pd, (address_to_page_map_indices va).pdpt, (address_to_page_map_indices va).pml4] = some A2 ∧
      (flags.writeable = true →
        Entry.writable (entryAt st₁ st.pm.address ((address_to_page_map_indices va).pml4)) = true ∧
        Entry.writable (entryAt st₁ A4 ((address_to_page_map_indices va).pdpt)) = true ∧
        Entry.writable (entryAt st₁ A3 ((address_to_page_map_indices va).pd)) = true) ∧
      (flags.executable = true →
        (entryAt st₁ st.pm.address ((address_to_page_map_indices va).pml4)).testBit 63 = false ∧
        (entryAt st₁ A4 ((address_to_page_map_indices va).pdpt)).testBit 63 = false ∧
        (entryAt st₁ A3 ((address_to_page_map_indices va).pd)).testBit 63 = false) ∧
      Entry.present (entryAt st₁ A2 ((address_to_page_map_indices va).pt)) = true ∧
      Entry.writable (entryAt st₁ A2 ((address_to_page_map_indices va).pt)) = flags.writeable ∧
      (entryAt st₁ A2 ((address_to_page_map_indices va).pt)).testBit 63 = (!flags.executable) ∧
      (flags.writeable = true →
        Entry.writable (entryAt st₂ st.pm.address ((address_to_page_map_indices va).pml4)) = true ∧
        Entry.writable (entryAt st₂ A4 ((address_to_page_map_indices va).pdpt)) = true ∧
        Entry.writable (entryAt st₂ A3 ((address_to_page_map_indices va).pd)) = true) ∧
      (flags.executable = true →
        (entryAt st₂ st.pm.address ((address_to_page_map_indices va).pml4)).testBit 63 = false ∧
        (entryAt st₂ A4 ((address_to_page_map_indices va).pdpt)).testBit 63 = false ∧
        (entryAt st₂ A3 ((address_to_page_map_indices va).pd)).testBit 63 = false) ∧
      entryAt st₂ A2 ((address_to_page_map_indices va).pt) = entryAt st₁ A2 ((address_to_page_map_indices va).pt) := by
  have hWFst : WF st := Reachable_WF hR
  obtain ⟨hWF1, hmono1, hpm1, hpersist1,
    ⟨A4, A3, A2, hn4, hn3, hn2, hwf1, hxf1, hpresL, hwL, hpaL⟩, hframe1⟩ :=
    set_master hWFst h1
  obtain ⟨hWF2, hmono2, hpm2, hpersist2, hpath2, hframe2⟩ := set_master hWF1 h2
  have hinj2 := hWF2.2.2.2.2.2
  have hpmaddr1 : st₁.pm.address = st.pm.address := congrArg PageMap.address hpm1
  have hroot1 : nodeAt st₁ [] = some st.pm.address := by
    show some st₁.pm.address = some st.pm.address
    rw [hpmaddr1]
  have hrootlt1 : st.pm.address < st₁.machine.next :=
    hWF1.2.2.2.2.1 [] _ (by simp) hroot1
  have hA4lt1 : A4 < st₁.machine.next := hWF1.2.2.2.2.1 _ _ (by simp) hn4
  have hA3lt1 : A3 < st₁.machine.next := hWF1.2.2.2.2.1 _ _ (by simp) hn3
  have hA2lt1 : A2 < st₁.machine.next := hWF1.2.2.2.2.1 _ _ (by simp) hn2
  have hroot2 : nodeAt st₂ [] = some st.pm.address :=
    hpersist2 [] _ (by simp) hroot1
  have hn4₂ : nodeAt st₂ [(address_to_page_map_indices va).pml4] = some A4 := hpersist2 _ _ (by simp) hn4
  have hn3₂ : nodeAt st₂ [(address_to_page_map_indices va).pdpt, (address_to_page_map_indices va).pml4] = some A3 := hpersist2 _ _ (by simp) hn3
  have hn2₂ : nodeAt st₂ [(address_to_page_map_indices va).pd, (address_to_page_map_indices va).pdpt, (address_to_page_map_indices va).pml4] = some A2 :=
    hpersist2 _ _ (by simp) hn2
  have hent4 : Entry.present (entryAt st₁ st.pm.address ((address_to_page_map_indices va).pml4)) = true := by
    obtain ⟨p, hp, hc⟩ := nodeAt_cons_elim hn4
    have hp' : some st₁.pm.address = some p := hp
    have hpp : p = st.pm.address := by
      rw [← (Option.some.inj hp'), hpmaddr1]
    rw [hpp] at hc
    exact (childAt_some_elim hc).1
  have hent3 : Entry.present (entryAt st₁ A4 ((address_to_page_map_indices va).pdpt)) = true := by
    obtain ⟨p, hp, hc⟩ := nodeAt_cons_elim hn3
    have hpp : p = A4 := Option.some.inj (hp.symm.trans hn4)
    rw [hpp] at hc
    exact (childAt_some_elim hc).1
  have hent2 : Entry.present (entryAt st₁ A3 ((address_to_page_map_indices va).pd)) = true := by
    obtain ⟨p, hp, hc⟩ := nodeAt_cons_elim hn2
    have hpp : p = A3 := Option.some.inj (hp.symm.trans hn3)
    rw [hpp] at hc
    exact (childAt_some_elim hc).1
  have hb4 : entryAt st₁ st.pm.address ((address_to_page_map_indices va).pml4) < 2 ^ 64 :=
    hWF1.2.2.2.1 st.pm.address ((address_to_page_map_indices va).pml4)
  have hb3 : entryAt st₁ A4 ((address_to_page_map_indices va).pdpt) < 2 ^ 64 := hWF1.2.2.2.1 A4 ((address_to_page_map_indices va).pdpt)
  have hb2 : entryAt st₁ A3 ((address_to_page_map_indices va).pd) < 2 ^ 64 := hWF1.2.2.2.1 A3 ((address_to_page_map_indices va).pd)
  have hk4 := slot_keep hinj2 hb4 hroot2 (by simp)
    (hframe2 st.pm.address ((address_to_page_map_indices va).pml4) hrootlt1)
    (by simp) hent4
  have hk3 := slot_keep hinj2 hb3 hn4₂ (by simp)
    (hframe2 A4 ((address_to_page_map_indices va).pdpt) hA4lt1)
    (by simp) hent3
  have hk2 := slot_keep hinj2 hb2 hn3₂ (by simp)
    (hframe2 A3 ((address_to_page_map_indices va).pd) hA3lt1)
    (by simp) hent2
  have hleafkeep : entryAt st₂ A2 ((address_to_page_map_indices va).pt) = entryAt st₁ A2 ((address_to_page_map_indices va).pt) := by
    rcases hframe2 A2 ((address_to_page_map_indices va).pt) hA2lt1 with heq | ⟨⟨ρ, hρ2, hρn⟩, _⟩ | ⟨hq, hj⟩
    · exact heq
    · exfalso
      have hρπ := hinj2 ρ [(address_to_page_map_indices va).pd, (address_to_page_map_indices va).pdpt, (address_to_page_map_indices va).pml4] A2 (by omega) (by simp) hρn hn2₂
      rw [hρπ] at hρ2
      simp at hρ2
    · exfalso
      have hππ := hinj2 [(address_to_page_map_indices va').pd, (address_to_page_map_indices va').pdpt, (address_to_page_map_indices va').pml4] [(address_to_page_map_indices va).pd, (address_to_page_map_indices va).pdpt, (address_to_page_map_indices va).pml4] A2 (by simp)
        (by simp) hq hn2₂
      have hcomp : ((address_to_page_map_indices va').pd) = ((address_to_page_map_indices va).pd) ∧ ((address_to_page_map_indices va').pdpt) = ((address_to_page_map_indices va).pdpt) ∧ ((address_to_page_map_indices va').pml4) = ((address_to_page_map_indices va).pml4) := by
        simpa using hππ
      have hiκ : address_to_page_map_indices va = address_to_page_map_indices va' :=
        PageMapIndices.ext4 hcomp.2.2.symm hcomp.2.1.symm hcomp.1.symm hj
      have hvaal := (align_check_iff va).mp (set_elim h1).1
      have hva'al := (align_check_iff va').mp (set_elim h2).1
      have hva : page_map_indices_to_address (address_to_page_map_indices va) =
          va := decompose_recompose_aligned va hva48 hvaal.2
      have hva' : page_map_indices_to_address (address_to_page_map_indices va') =
          va' := decompose_recompose_aligned va' hva'48 hva'al.2
      exact hne (hva.symm.trans (by rw [hiκ, hva']))
  exact ⟨A4, A3, A2, hn4, hn3, hn2, hwf1, hxf1, hpresL, hwL, (hpaL hpa63).1,
    (fun hw => by
      obtain ⟨w4, w3, w2⟩ := hwf1 hw
      exact ⟨hk4.1 w4, hk3.1 w3, hk2.1 w2⟩),
    (fun hx => by
      obtain ⟨x4, x3, x2⟩ := hxf1 hx
      exact ⟨hk4.2 x4, hk3.2 x3, hk2.2 x2⟩),
    hleafkeep⟩

set_option maxRecDepth 100000 in
set_option maxHeartbeats 2000000 in
theorem set_widens_ancestors_exact_leaf_witness :
    ∃ A4 A3 A2,
      nodeAt ((PageMap.set initState 0 4096 PageMapFlags.W).getD initState) [(address_to_page_map_indices 0).pml4] = some A4 ∧
      nodeAt ((PageMap.set initState 0 4096 PageMapFlags.W).getD initState) [(address_to_page_map_indices 0).pdpt, (address_to_page_map_indices 0).pml4] = some A3 ∧
      nodeAt ((PageMap.set initState 0 4096 PageMapFlags.W).getD initState) [(address_to_page_map_indices 0).pd, (address_to_page_map_indices 0).pdpt, (address_to_page_map_indices 0).pml4] = some A2 ∧
      (PageMapFlags.W.writeable = true →
        Entry.writable (entryAt ((PageMap.set initState 0 4096 PageMapFlags.W).getD initState) initState.pm.address ((address_to_page_map_indices 0).pml4)) = true ∧
        Entry.writable (entryAt ((PageMap.set initState 0 4096 PageMapFlags.W).getD initState) A4 ((address_to_page_map_indices 0).pdpt)) = true ∧
        Entry.writable (entryAt ((PageMap.set initState 0 4096 PageMapFlags.W).getD initState) A3 ((address_to_page_map_indices 0).pd)) = true) ∧
      (PageMapFlags.W.executable = true →
        (entryAt ((PageMap.set initState 0 4096 PageMapFlags.W).getD initState) initState.pm.address ((address_to_page_map_indices 0).pml4)).testBit 63 = false ∧
        (entryAt ((PageMap.set initState 0 4096 PageMapFlags.W).getD initState) A4 ((address_to_page_map_indices 0).pdpt)).testBit 63 = false ∧
        (entryAt ((PageMap.set initState 0 4096 PageMapFlags.W).getD initState) A3 ((address_to_page_map_indices 0).pd)).testBit 63 = false) ∧
      Entry.present (entryAt ((PageMap.set initState 0 4096 PageMapFlags.W).getD initState) A2 ((address_to_page_map_indices 0).pt)) = true ∧
      Entry.writable (entryAt ((PageMap.set initState 0 4096 PageMapFlags.W).getD initState) A2 ((address_to_page_map_indices 0).pt)) = PageMapFlags.W.writeable ∧
      (entryAt ((PageMap.set initState 0 4096 PageMapFlags.W).getD initState) A2 ((address_to_page_map_indices 0).pt)).testBit 63 = (!PageMapFlags.W.executable) ∧
      (PageMapFlags.W.writeable = true →
        Entry.writable (entryAt ((PageMap.set ((PageMap.set initState 0 4096 PageMapFlags.W).getD initState) 4096 8192 PageMapFlags.default).getD initState) initState.pm.address ((address_to_page_map_indices 0).pml4)) = true ∧
        Entry.writable (entryAt ((PageMap.set ((PageMap.set initState 0 4096 PageMapFlags.W).getD initState) 4096 8192 PageMapFlags.default).getD initState) A4 ((address_to_page_map_indices 0).pdpt)) = true ∧
        Entry.writable (entryAt ((PageMap.set ((PageMap.set initState 0 4096 PageMapFlags.W).getD initState) 4096 8192 PageMapFlags.default).getD initState) A3 ((address_to_page_map_indices 0).pd)) = true) ∧
      (PageMapFlags.W.executable = true →
        (entryAt ((PageMap.set ((PageMap.set initState 0 4096 PageMapFlags.W).getD initState) 4096 8192 PageMapFlags.default).getD initState) initState.pm.address ((address_to_page_map_indices 0).pml4)).testBit 63 = false ∧
        (entryAt ((PageMap.set ((PageMap.set initState 0 4096 PageMapFlags.W).getD initState) 4096 8192 PageMapFlags.default).getD initState) A4 ((address_to_page_map_indices 0).pdpt)).testBit 63 = false ∧
        (entryAt ((PageMap.set ((PageMap.set initState 0 4096 PageMapFlags.W).getD initState) 4096 8192 PageMapFlags.default).getD initState) A3 ((address_to_page_map_indices 0).pd)).testBit 63 = false) ∧
      entryAt ((PageMap.set ((PageMap.set initState 0 4096 PageMapFlags.W).getD initState) 4096 8192 PageMapFlags.default).getD initState) A2 ((address_to_page_map_indices 0).pt) = entryAt ((PageMap.set initState 0 4096 PageMapFlags.W).getD initState) A2 ((address_to_page_map_indices 0).pt) :=
  set_widens_ancestors_exact_leaf initState ((PageMap.set initState 0 4096 PageMapFlags.W).getD initState) ((PageMap.set ((PageMap.set initState 0 4096 PageMapFlags.W).getD initState) 4096 8192 PageMapFlags.default).getD initState)
    0 4096 4096 8192 PageMapFlags.W PageMapFlags.default
    ⟨[], rfl⟩ (by norm_num) (by norm_num) (by norm_num) (by norm_num)
    (by rfl) (by rfl)

/-- Byte `i` of a filled page is byte `offset + i` of the segment data
(defaulting to zero). -/
lemma pageFill_getD (data : List Nat) (off : Nat) {i : Nat} (hi : i < 4096) :
    (pageFill data off).getD i 0 = data.getD (off + i) 0 := by
  have hlen : (pageFill data off).length = 4096 := by
    simp [pageFill]
  rw [List.getD_eq_getElem _ _ (by rw [hlen]; exact hi)]
  simp [pageFill]

/-- The copy loop writes the segment byte when in range and zero-fills every
position beyond the segment data's length. -/
lemma pageFill_spec (data : List Nat) (off : Nat) {i : Nat} (hi : i < 4096) :
    (pageFill data off).getD i 0 =
      if off + i < data.length then data.getD (off + i) 0 else 0 := by
  rw [pageFill_getD data off hi]
  by_cases h : off + i < data.length
  · rw [if_pos h]
  · rw [if_neg h, List.getD_eq_default _ _ (by omega)]

/-- The per-page loop accumulates page contents and `set` calls: existing
records survive, and every page index processed contributes its filled bytes
at `base + 4096·index` and its `set` call with the given flags. -/
lemma map_segment_pages_mem (bva bpa : Nat) (data : List Nat)
    (flags : PageMapFlags) :
    ∀ remaining page ls ls',
      map_segment_pages bva bpa data flags remaining page ls = some ls' →
      (∀ e, e ∈ ls.bytes → e ∈ ls'.bytes) ∧
      (∀ c, c ∈ ls.setCalls → c ∈ ls'.setCalls) ∧
      (∀ k, k < remaining →
        (bpa + 4096 * (page + k), pageFill data (4096 * (page + k))) ∈
          ls'.bytes ∧
        (bva + 4096 * (page + k), bpa + 4096 * (page + k), flags) ∈
          ls'.setCalls) := by
  intro remaining
  induction remaining with
  | zero =>
    intro page ls ls' h
    simp only [map_segment_pages] at h
    rw [← Option.some.inj h]
    exact ⟨fun e he => he, fun c hc => hc, fun k hk => absurd hk (by omega)⟩
  | succ n ih =>
    intro page ls ls' h
    simp only [map_segment_pages] at h
    cases hset : PageMap.set ls.paging (bva + 4096 * page)
        (bpa + 4096 * page) flags with
    | none =>
      rw [hset] at h
      cases h
    | some p =>
      simp only [hset] at h
      have IH := ih (page + 1) _ ls' h
      refine ⟨?_, ?_, ?_⟩
      · intro e he
        exact IH.1 e (List.mem_cons_of_mem _ he)
      · intro c hc
        exact IH.2.1 c (List.mem_cons_of_mem _ hc)
      · intro k hk
        cases k with
        | zero =>
          exact ⟨IH.1 _ (List.mem_cons_self _ _),
            IH.2.1 _ (List.mem_cons_self _ _)⟩
        | succ k' =>
          have hk' : k' < n := by omega
          have hfact := IH.2.2 k' hk'
          have harith : page + 1 + k' = page + (k' + 1) := by omega
          rw [harith] at hfact
          exact hfact

/-- An in-range slice `buffer[start..start+size]` has exactly `size` bytes. -/
lemma slice_length {b : List Nat} {s n : Nat} (h : s + n ≤ b.length) :
    ((b.drop s).take n).length = n := by
  simp only [List.length_take, List.length_drop]
  omega

/-- A successful `code()` returns exactly `size` bytes. -/
lemma v0.Exe.code_length {e : v0.Exe} {data : List Nat}
    (h : e.code = some data) : data.length = e.code_info.size := by
  simp only [v0.Exe.code] at h
  by_cases hle : e.code_info.start + e.code_info.size ≤ e.buffer.length
  · rw [if_pos hle] at h
    rw [← Option.some.inj h]
    exact slice_length hle
  · rw [if_neg hle] at h
    cases h

/-- A successful `rodata()` returns exactly `size` bytes. -/
lemma v0.Exe.rodata_length {e : v0.Exe} {data : List Nat}
    (h : e.rodata = some data) : data.length = e.rodata_info.size := by
  simp only [v0.Exe.rodata] at h
  by_cases hle : e.rodata_info.start + e.rodata_info.size ≤ e.buffer.length
  · rw [if_pos hle] at h
    rw [← Option.some.inj h]
    exact slice_length hle
  · rw [if_neg hle] at h
    cases h

/-- A successful `rwdata()` returns exactly `size` bytes. -/
lemma v0.Exe.rwdata_length {e : v0.Exe} {data : List Nat}
    (h : e.rwdata = some data) : data.length = e.rwdata_info.size := by
  simp only [v0.Exe.rwdata] at h
  by_cases hle : e.rwdata_info.start + e.rwdata_info.size ≤ e.buffer.length
  · rw [if_pos hle] at h
    rw [← Option.some.inj h]
    exact slice_length hle
  · rw [if_neg hle] at h
    cases h

/-- Specification of one `map_kernel_segment` call: for each of the
`ceil(size / PAGE_SIZE)` pages, the filled page contents are recorded at the
freshly allocated physical base (the allocator frontier) plus the page offset,
and a `set` call maps `load_address + offset` to that physical page with the
segment's flags. -/
lemma map_kernel_segment_spec {ls ls' : LoaderState} {info : v0.SegmentInfo}
    {data : List Nat} {flags : PageMapFlags}
    (h : map_kernel_segment ls info data flags = some ls') :
    ∀ k, k < (info.size + PageMap.PAGE_SIZE - 1) / PageMap.PAGE_SIZE →
      (ls.paging.machine.next + 4096 * k, pageFill data (4096 * k)) ∈
        ls'.bytes ∧
      (info.load_address + 4096 * k, ls.paging.machine.next + 4096 * k,
        flags) ∈ ls'.setCalls := by
  intro k hk
  simp only [map_kernel_segment, Machine.allocPages] at h
  have H := (map_segment_pages_mem info.load_address ls.paging.machine.next
    data flags _ 0 _ ls' h).2.2 k hk
  simpa using H

/-- `map_kernel_segment` never discards previously recorded page contents or
`set` calls. -/
lemma map_kernel_segment_mono {ls ls' : LoaderState} {info : v0.SegmentInfo}
    {data : List Nat} {flags : PageMapFlags}
    (h : map_kernel_segment ls info data flags = some ls') :
    (∀ e, e ∈ ls.bytes → e ∈ ls'.bytes) ∧
    (∀ c, c ∈ ls.setCalls → c ∈ ls'.setCalls) := by
  simp only [map_kernel_segment, Machine.allocPages] at h
  have H := map_segment_pages_mem info.load_address ls.paging.machine.next
    data flags _ 0 _ ls' h
  exact ⟨H.1, H.2.1⟩

/-- C4: for each of the three kernel segments, `map_kernel` copies the
segment's bytes into freshly allocated physical pages (taken at the
allocator frontier), zero-filling every byte position beyond the segment's
declared size up to the end of the last allocated page, and issues a
`page_map.set` for each page at `load_address + page offset` with the
segment-specific permissions: code executable and non-writable, rodata
non-writable and non-executable, rwdata writable and non-executable. -/
theorem map_kernel_copies_and_maps (ls ls' : LoaderState) (buffer : List Nat)
    (h : map_kernel ls buffer = some ls') :
    PageMapFlags.X.writeable = false ∧ PageMapFlags.X.executable = true ∧
    PageMapFlags.default.writeable = false ∧
    PageMapFlags.default.executable = false ∧
    PageMapFlags.W.writeable = true ∧ PageMapFlags.W.executable = false ∧
    (∀ sd off i, i < 4096 → (pageFill sd off).getD i 0 =
      if off + i < sd.length then sd.getD (off + i) 0 else 0) ∧
    ∃ exe code_data rodata_data rwdata_data ls₁ ls₂,
      v0.Exe.parse buffer = .ok exe ∧
      exe.code = some code_data ∧
      exe.rodata = some rodata_data ∧
      exe.rwdata = some rwdata_data ∧
      code_data.length = exe.code_info.size ∧
      rodata_data.length = exe.rodata_info.size ∧
      rwdata_data.length = exe.rwdata_info.size ∧
      map_kernel_segment ls exe.code_info code_data PageMapFlags.X =
        some ls₁ ∧
      map_kernel_segment ls₁ exe.rodata_info rodata_data
        PageMapFlags.default = some ls₂ ∧
      map_kernel_segment ls₂ exe.rwdata_info rwdata_data PageMapFlags.W =
        some ls' ∧
      (∀ k, k < (exe.code_info.size + PageMap.PAGE_SIZE - 1) /
          PageMap.PAGE_SIZE →
        (ls.paging.machine.next + 4096 * k, pageFill code_data (4096 * k)) ∈
          ls'.bytes ∧
        (exe.code_info.load_address + 4096 * k,
          ls.paging.machine.next + 4096 * k, PageMapFlags.X) ∈
          ls'.setCalls) ∧
      (∀ k, k < (exe.rodata_info.size + PageMap.PAGE_SIZE - 1) /
          PageMap.PAGE_SIZE →
        (ls₁.paging.machine.next + 4096 * k,
          pageFill rodata_data (4096 * k)) ∈ ls'.bytes ∧
        (exe.rodata_info.load_address + 4096 * k,
          ls₁.paging.machine.next + 4096 * k, PageMapFlags.default) ∈
          ls'.setCalls) ∧
      (∀ k, k < (exe.rwdata_info.size + PageMap.PAGE_SIZE - 1) /
          PageMap.PAGE_SIZE →
        (ls₂.paging.machine.next + 4096 * k,
          pageFill rwdata_data (4096 * k)) ∈ ls'.bytes ∧
        (exe.rwdata_info.load_address + 4096 * k,
          ls₂.paging.machine.next + 4096 * k, PageMapFlags.W) ∈
          ls'.setCalls) := by
  refine ⟨rfl, rfl, rfl, rfl, rfl, rfl,
    fun sd off i hi => pageFill_spec sd off hi, ?_⟩
  simp only [map_kernel] at h
  cases hparse : v0.Exe.parse buffer with
  | error er => rw [hparse] at h; simp at h
  | ok exe =>
    simp only [hparse] at h
    cases hcode : exe.code with
    | none => rw [hcode] at h; simp at h
    | some code_data =>
      simp only [hcode] at h
      cases hm1 : map_kernel_segment ls exe.code_info code_data
          PageMapFlags.X with
      | none => rw [hm1] at h; simp at h
      | some ls₁ =>
        simp only [hm1] at h
        cases hrodata : exe.rodata with
        | none => rw [hrodata] at h; simp at h
        | some rodata_data =>
          simp only [hrodata] at h
          cases hm2 : map_kernel_segment ls₁ exe.rodata_info rodata_data
              PageMapFlags.default with
          | none => rw [hm2] at h; simp at h
          | some ls₂ =>
            simp only [hm2] at h
            cases hrwdata : exe.rwdata with
            | none => rw [hrwdata] at h; simp at h
            | some rwdata_data =>
              simp only [hrwdata] at h
              have monoB := map_kernel_segment_mono hm2
              have monoC := map_kernel_segment_mono h
              have spec1 := map_kernel_segment_spec hm1
              have spec2 := map_kernel_segment_spec hm2
              have spec3 := map_kernel_segment_spec h
              exact ⟨exe, code_data, rodata_data, rwdata_data, ls₁, ls₂,
                rfl, hcode, hrodata, hrwdata,
                v0.Exe.code_length hcode, v0.Exe.rodata_length hrodata,
                v0.Exe.rwdata_length hrwdata, hm1, hm2, h,
                fun k hk => ⟨monoC.1 _ (monoB.1 _ (spec1 k hk).1),
                  monoC.2 _ (monoB.2 _ (spec1 k hk).2)⟩,
                fun k hk => ⟨monoC.1 _ (spec2 k hk).1,
                  monoC.2 _ (spec2 k hk).2⟩,
                spec3⟩

set_option maxRecDepth 100000 in
set_option maxHeartbeats 2000000 in
theorem map_kernel_copies_and_maps_witness :
    PageMapFlags.X.writeable = false ∧ PageMapFlags.X.executable = true ∧
    PageMapFlags.default.writeable = false ∧
    PageMapFlags.default.executable = false ∧
    PageMapFlags.W.writeable = true ∧ PageMapFlags.W.executable = false ∧
    (∀ sd off i, i < 4096 → (pageFill sd off).getD i 0 =
      if off + i < sd.length then sd.getD (off + i) 0 else 0) ∧
    ∃ exe code_data rodata_data rwdata_data ls₁ ls₂,
      v0.Exe.parse exampleExeBuffer = .ok exe ∧
      exe.code = some code_data ∧
      exe.rodata = some rodata_data ∧
      exe.rwdata = some rwdata_data ∧
      code_data.length = exe.code_info.size ∧
      rodata_data.length = exe.rodata_info.size ∧
      rwdata_data.length = exe.rwdata_info.size ∧
      map_kernel_segment ({ paging := initState, bytes := [], setCalls := [] } : LoaderState) exe.code_info code_data PageMapFlags.X =
        some ls₁ ∧
      map_kernel_segment ls₁ exe.rodata_info rodata_data
        PageMapFlags.default = some ls₂ ∧
      map_kernel_segment ls₂ exe.rwdata_info rwdata_data PageMapFlags.W =
        some ((map_kernel ({ paging := initState, bytes := [], setCalls := [] } : LoaderState) exampleExeBuffer).getD ({ paging := initState, bytes := [], setCalls := [] } : LoaderState)) ∧
      (∀ k, k < (exe.code_info.size + PageMap.PAGE_SIZE - 1) /
          PageMap.PAGE_SIZE →
        (({ paging := initState, bytes := [], setCalls := [] } : LoaderState).paging.machine.next + 4096 * k,
          pageFill code_data (4096 * k)) ∈ ((map_kernel ({ paging := initState, bytes := [], setCalls := [] } : LoaderState) exampleExeBuffer).getD ({ paging := initState, bytes := [], setCalls := [] } : LoaderState)).bytes ∧
        (exe.code_info.load_address + 4096 * k,
          ({ paging := initState, bytes := [], setCalls := [] } : LoaderState).paging.machine.next + 4096 * k, PageMapFlags.X) ∈
          ((map_kernel ({ paging := initState, bytes := [], setCalls := [] } : LoaderState) exampleExeBuffer).getD ({ paging := initState, bytes := [], setCalls := [] } : LoaderState)).setCalls) ∧
      (∀ k, k < (exe.rodata_info.size + PageMap.PAGE_SIZE - 1) /
          PageMap.PAGE_SIZE →
        (ls₁.paging.machine.next + 4096 * k,
          pageFill rodata_data (4096 * k)) ∈ ((map_kernel ({ paging := initState, bytes := [], setCalls := [] } : LoaderState) exampleExeBuffer).getD ({ paging := initState, bytes := [], setCalls := [] } : LoaderState)).bytes ∧
        (exe.rodata_info.load_address + 4096 * k,
          ls₁.paging.machine.next + 4096 * k, PageMapFlags.default) ∈
          ((map_kernel ({ paging := initState, bytes := [], setCalls := [] } : LoaderState) exampleExeBuffer).getD ({ paging := initState, bytes := [], setCalls := [] } : LoaderState)).setCalls) ∧
      (∀ k, k < (exe.rwdata_info.size + PageMap.PAGE_SIZE - 1) /
          PageMap.PAGE_SIZE →
        (ls₂.paging.machine.next + 4096 * k,
          pageFill rwdata_data (4096 * k)) ∈ ((map_kernel ({ paging := initState, bytes := [], setCalls := [] } : LoaderState) exampleExeBuffer).getD ({ paging := initState, bytes := [], setCalls := [] } : LoaderState)).bytes ∧
        (exe.rwdata_info.load_address + 4096 * k,
          ls₂.paging.machine.next + 4096 * k, PageMapFlags.W) ∈
          ((map_kernel ({ paging := initState, bytes := [], setCalls := [] } : LoaderState) exampleExeBuffer).getD ({ paging := initState, bytes := [], setCalls := [] } : LoaderState)).setCalls) :=
  map_kernel_copies_and_maps ({ paging := initState, bytes := [], setCalls := [] } : LoaderState) ((map_kernel ({ paging := initState, bytes := [], setCalls := [] } : LoaderState) exampleExeBuffer).getD ({ paging := initState, bytes := [], setCalls := [] } : LoaderState)) exampleExeBuffer (by rfl)
